import Mathlib

/-!
# Media playback pipeline (`gui/main_window/mplayer/FFMpegPlayer.cpp`)

A shallow embedding of the queues, of the pacing arithmetic, of the seek
protocol, of the loops of the demux thread and of the two decode threads, of the
set-up of the audio output and of the scaler, and of the frame timer of the
player, with the properties of the specification proved about it.

Conventions of the embedding.

* `int32_t` values are integers kept in the range `[-2^31, 2^31)` by `wrap32`
  (two's complement) after every arithmetic step of the source; the `int64_t`
  sums of the seek targets are kept in range by `wrap64`.
* What a library call hands back to the player (the decoder, `av_read_frame`,
  `avformat_seek_file`, the wall clock) is an input of the model.
* A loop whose passes interleave with other threads is embedded as one pass of
  its body; a run of the pipeline is a sequence of events, each a pass of a loop
  or a call of another thread.  Where a property depends on what another thread
  does inside a pass, the pass is split at the point where the mutex of the
  queue is released (`VideoStep`, `VideoDecodeState.after`).
* A `double` is a value of IEEE 754 binary64: a finite number (a rational), an
  infinity or a NaN.  Every arithmetic step of the source rounds its exact
  result to nearest, ties to even, overflows to an infinity and propagates a
  NaN; a comparison with a NaN is false.  A `float` is the same with the
  rounding of binary32.  No operation keeps extended precision and no two
  operations are fused.  The two zeros are one value.  The scaled size uses the
  same rounding on the rationals (`toDouble`).
* A pointer that the source only compares with `NULL` and with `&flush_pkt`
  is a `DataPtr`.
* An operation that runs under the queue's mutex is one atomic step, so an
  interleaving of calls of several threads is a sequence of calls.
-/

namespace Ui

/-! ## Machine integers -/

/-- Reduction of an integer to the `int32_t` range (two's complement). -/
def wrap32 (x : Int) : Int := (x + 2147483648) % 4294967296 - 2147483648

/-- The values an `int32_t` can hold. -/
def inInt32 (x : Int) : Prop := -2147483648 ≤ x ∧ x < 2147483648

instance (x : Int) : Decidable (inInt32 x) := by
  unfold inInt32; infer_instance

/-! ## Packets -/

/-- The `data` pointer of an `AVPacket`, as far as the player inspects it:
`NULL`, the address of the static `flush_pkt` (line 1686 sets
`flush_pkt.data = (uint8_t*) &flush_pkt`), or a payload buffer. -/
inductive DataPtr where
  | null : DataPtr
  | flush_pkt : DataPtr
  | buffer (addr : Nat) : DataPtr
  deriving DecidableEq, Repr

/-- The fields of `ffmpeg::AVPacket` that the player reads or writes. -/
structure AVPacket where
  data : DataPtr := DataPtr.null
  size : Int := 0
  stream_index : Int := 0
  pts : Int := 0
  dts : Int := 0
  deriving DecidableEq, Repr

/-! ## PacketQueue (lines 56-122) -/

/-- The state of a `PacketQueue`: the list and the two `int32_t` counters. -/
structure PacketQueue where
  list_ : List AVPacket := []
  packets_ : Int := 0
  size_ : Int := 0
  deriving DecidableEq, Repr

namespace PacketQueue

/-- `PacketQueue::PacketQueue()`: empty list, `packets_(0)`, `size_(0)`. -/
def new : PacketQueue := { list_ := [], packets_ := 0, size_ := 0 }

/-- The test of `free()` that guards `av_packet_unref`:
`iter->data && iter->data != (uint8_t*) &flush_pkt`. -/
def needsUnref (p : AVPacket) : Bool :=
  decide (p.data ≠ DataPtr.null) && decide (p.data ≠ DataPtr.flush_pkt)

/-- `PacketQueue::free()`: returns the queue afterwards and the packets whose
payload was released with `av_packet_unref`. -/
def free (q : PacketQueue) : PacketQueue × List AVPacket :=
  ({ list_ := [], packets_ := 0, size_ := 0 }, q.list_.filter needsUnref)

/-- `PacketQueue::push(AVPacket*)`. -/
def push (q : PacketQueue) (_packet : AVPacket) : PacketQueue :=
  { list_ := q.list_ ++ [_packet]
    packets_ := wrap32 (q.packets_ + 1)
    size_ := wrap32 (q.size_ + _packet.size) }

/-- `PacketQueue::get(AVPacket&)`: the returned flag, the queue afterwards and
the caller's packet afterwards (`_packet` is the caller's packet before). -/
def get (q : PacketQueue) (_packet : AVPacket) : Bool × PacketQueue × AVPacket :=
  match q.list_ with
  | [] => (false, q, _packet)
  | front :: rest =>
    (true,
     { list_ := rest
       packets_ := wrap32 (q.packets_ - 1)
       size_ := wrap32 (q.size_ - front.size) },
     front)

/-- `PacketQueue::getSize()`. -/
def getSize (q : PacketQueue) : Int := q.size_

/-- `PacketQueue::getPackets()`. -/
def getPackets (q : PacketQueue) : Int := q.packets_

end PacketQueue

/-- One call on a packet queue. -/
inductive PacketQueueCall where
  | push (_packet : AVPacket) : PacketQueueCall
  | get : PacketQueueCall
  | free : PacketQueueCall
  deriving DecidableEq, Repr

/-- The queue after one call (the output packet of a `get` is dropped). -/
def PacketQueue.call (q : PacketQueue) : PacketQueueCall → PacketQueue
  | PacketQueueCall.push p => q.push p
  | PacketQueueCall.get => (q.get {}).2.1
  | PacketQueueCall.free => q.free.1

/-- The queue after a sequence of calls, first call first. -/
def PacketQueue.run (q : PacketQueue) (calls : List PacketQueueCall) : PacketQueue :=
  calls.foldl PacketQueue.call q

/-- Sum of the `size` fields of a list of packets. -/
def sizeSum (ps : List AVPacket) : Int := (ps.map AVPacket.size).sum

/-- The packets that the successful `get` calls of a sequence return, in the
order of the calls, starting from queue `q`. -/
def PacketQueue.delivered (q : PacketQueue) : List PacketQueueCall → List AVPacket
  | [] => []
  | PacketQueueCall.get :: cs =>
    match q.get {} with
    | (true, q1, p) => p :: PacketQueue.delivered q1 cs
    | (false, q1, _) => PacketQueue.delivered q1 cs
  | c :: cs => PacketQueue.delivered (q.call c) cs

/-- The packets of the `push` calls of a sequence, in the order of the calls. -/
def pushedPackets : List PacketQueueCall → List AVPacket
  | [] => []
  | PacketQueueCall.push p :: cs => p :: pushedPackets cs
  | _ :: cs => pushedPackets cs

/-! ## ThreadMessagesQueue (lines 19-49) -/

/-- The message tags that the player posts and handles. -/
inductive thread_message_type where
  | tmt_quit
  | tmt_play
  | tmt_pause
  | tmt_seek_position
  | tmt_set_volume
  | tmt_set_mute
  | tmt_get_next_video_frame
  | tmt_update_scaled_size
  deriving DecidableEq, Repr

/-- A control message: its tag and the two `int32_t` arguments. -/
structure ThreadMessage where
  message_ : thread_message_type
  x_ : Int := 0
  y_ : Int := 0
  deriving DecidableEq, Repr

/-- The state of a `ThreadMessagesQueue`: the list `messages_`. -/
structure ThreadMessagesQueue where
  messages_ : List ThreadMessage := []
  deriving DecidableEq, Repr

namespace ThreadMessagesQueue

/-- A newly constructed queue holds no message. -/
def new : ThreadMessagesQueue := { messages_ := [] }

/-- `ThreadMessagesQueue::getMessage` from the end of its wait on (line 28).
`_isQuit` is the value the quit predicate returns there and `_message` the
caller's message before the call; the result is the returned flag, the queue
afterwards and the caller's message afterwards.  The length of the wait
(`_wait_timeout`) changes no value. -/
def getMessage (q : ThreadMessagesQueue) (_message : ThreadMessage) (_isQuit : Bool) :
    Bool × ThreadMessagesQueue × ThreadMessage :=
  match _isQuit, q.messages_ with
  | true, _ => (false, q, _message)
  | false, [] => (false, q, _message)
  | false, front :: rest => (true, { messages_ := rest }, front)

/-- `ThreadMessagesQueue::pushMessage`. -/
def pushMessage (q : ThreadMessagesQueue) (_message : ThreadMessage) : ThreadMessagesQueue :=
  { messages_ := q.messages_ ++ [_message] }

end ThreadMessagesQueue

/-- One call on a message queue; a `getMessage` carries the value of the quit
predicate at the end of its wait. -/
inductive ThreadMessagesQueueCall where
  | pushMessage (_message : ThreadMessage) : ThreadMessagesQueueCall
  | getMessage (_isQuit : Bool) : ThreadMessagesQueueCall
  deriving DecidableEq, Repr

/-- The queue after one call. -/
def ThreadMessagesQueue.call (q : ThreadMessagesQueue) :
    ThreadMessagesQueueCall → ThreadMessagesQueue
  | ThreadMessagesQueueCall.pushMessage m => q.pushMessage m
  | ThreadMessagesQueueCall.getMessage b =>
    (q.getMessage { message_ := thread_message_type.tmt_quit } b).2.1

/-- The queue after a sequence of calls, first call first. -/
def ThreadMessagesQueue.run (q : ThreadMessagesQueue)
    (calls : List ThreadMessagesQueueCall) : ThreadMessagesQueue :=
  calls.foldl ThreadMessagesQueue.call q

/-- The messages that the successful `getMessage` calls of a sequence return,
in the order of the calls, starting from queue `q`. -/
def ThreadMessagesQueue.received (q : ThreadMessagesQueue) :
    List ThreadMessagesQueueCall → List ThreadMessage
  | [] => []
  | ThreadMessagesQueueCall.getMessage b :: cs =>
    match q.getMessage { message_ := thread_message_type.tmt_quit } b with
    | (true, q1, m) => m :: ThreadMessagesQueue.received q1 cs
    | (false, q1, _) => ThreadMessagesQueue.received q1 cs
  | ThreadMessagesQueueCall.pushMessage m :: cs =>
    ThreadMessagesQueue.received (q.pushMessage m) cs

/-- The messages of the `pushMessage` calls of a sequence, in call order. -/
def postedMessages : List ThreadMessagesQueueCall → List ThreadMessage
  | [] => []
  | ThreadMessagesQueueCall.pushMessage m :: cs => m :: postedMessages cs
  | ThreadMessagesQueueCall.getMessage _ :: cs => postedMessages cs

/-! ## Floating point: IEEE 754 binary64 (`double`) and binary32 (`float`) -/

/-- The integer nearest to `n / d`, ties to the even one. -/
def roundHalfEven (n d : Nat) : Nat :=
  if 2 * (n % d) < d then n / d
  else if d < 2 * (n % d) then n / d + 1
  else if (n / d) % 2 = 0 then n / d
  else n / d + 1

/-- The number of times `n` can be halved before it is less than 2, counted up
to `fuel`: the exponent `k` with `2^k ≤ n < 2^(k+1)` when `0 < n < 2^(fuel+1)`. -/
def ilog2 : Nat → Nat → Nat
  | 0, _ => 0
  | fuel + 1, n => if n < 2 then 0 else ilog2 fuel (n / 2) + 1

/-- The binary exponent of the positive rational `n / d`: the `E` with
`2^E ≤ n / d < 2^(E+1)`. -/
def binaryExponent (n d : Nat) : Int :=
  let k : Int := (ilog2 n n : Int) - (ilog2 d d : Int)
  if d * 2 ^ k.toNat ≤ n * 2 ^ (-k).toNat then k else k - 1

/-- The value nearest to the positive rational `n / d`, ties to even, in the
binary floating-point format with `p` bits of precision whose least positive
value is `2^emin` and whose values are all below `2^emax`: with
`2^E ≤ n / d < 2^(E+1)` and `e = max (E - (p - 1)) emin` it is `m * 2^e`, `m` the
integer nearest to `n / d / 2^e`.  The result is `none` when that value is not
below `2^emax` (overflow). -/
def roundBinary_pos (p : Nat) (emin : Int) (emax : Nat) (n d : Nat) : Option ℚ :=
  let e : Int := max (binaryExponent n d - ((p : Int) - 1)) emin
  let m : Nat := roundHalfEven (n * 2 ^ (-e).toNat) (d * 2 ^ e.toNat)
  let r : ℚ := ((m * 2 ^ e.toNat : Nat) : ℚ) / ((2 ^ (-e).toNat : Nat) : ℚ)
  if ((2 ^ emax : Nat) : ℚ) ≤ r then none else some r

/-- A value of a C++ `double` (IEEE 754 binary64) or `float` (binary32): a
finite number, an infinity or a NaN.  The two zeros are one value: they compare
equal, and the only divisor of the embedded code that can be zero is the
converted integer `(double) a.den` of `av_q2d`, which is `+0.0`.  All NaNs are
one value.  A finite value that an operation of this section returns is a
number of the format: every operation rounds its exact result. -/
inductive double where
  | finite (q : ℚ) : double
  | infinity (negative : Bool) : double
  | nan : double
  deriving DecidableEq, Repr

namespace double

instance (n : Nat) : OfNat double n := ⟨finite n⟩

instance : Inhabited double := ⟨finite 0⟩

/-- Rounding of an exact result to the format with `p` bits of precision, least
positive value `2^emin` and overflow threshold `2^emax`: to nearest, ties to
even; a result that rounds to `2^emax` or beyond is an infinity. -/
def roundTo (p : Nat) (emin : Int) (emax : Nat) (q : ℚ) : double :=
  if q = 0 then finite 0
  else
    match roundBinary_pos p emin emax q.num.natAbs q.den with
    | some r => finite (if 0 < q then r else -r)
    | none => infinity (decide (q < 0))

/-- Rounding to binary64: 53 bits, least positive value `2^-1074`, overflow at
`2^1024`. -/
def round (q : ℚ) : double := roundTo 53 (-1074) 1024 q

/-- Rounding to binary32: 24 bits, least positive value `2^-149`, overflow at
`2^128`. -/
def roundFloat (q : ℚ) : double := roundTo 24 (-149) 128 q

/-- A decimal literal of type `double` in the source: the `double` nearest to
it. -/
def literal (q : ℚ) : double := round q

/-- The conversion of an integer to `double`: exact up to `2^53`, rounded
beyond. -/
def ofInt (i : Int) : double := round (i : ℚ)

/-- The conversion `float(i)` of an integer to `float`: exact up to `2^24`,
rounded beyond. -/
def floatOfInt (i : Int) : double := roundFloat (i : ℚ)

/-- The conversion of a `double` to `float`. -/
def toFloat : double → double
  | finite q => roundFloat q
  | infinity s => infinity s
  | nan => nan

/-- Unary minus. -/
def neg : double → double
  | finite q => finite (-q)
  | infinity s => infinity (!s)
  | nan => nan

/-- Addition of two `double`s. -/
def add : double → double → double
  | finite a, finite b => round (a + b)
  | finite _, infinity s => infinity s
  | infinity s, finite _ => infinity s
  | infinity s, infinity t => if s = t then infinity s else nan
  | nan, _ => nan
  | _, nan => nan

/-- Subtraction of two `double`s. -/
def sub (a b : double) : double := add a (neg b)

/-- Multiplication of two `double`s. -/
def mul : double → double → double
  | finite a, finite b => round (a * b)
  | finite a, infinity s => if a = 0 then nan else infinity (xor s (decide (a < 0)))
  | infinity s, finite b => if b = 0 then nan else infinity (xor s (decide (b < 0)))
  | infinity s, infinity t => infinity (xor s t)
  | nan, _ => nan
  | _, nan => nan

/-- Division of two `double`s; a zero divisor is `+0.0`. -/
def div : double → double → double
  | finite a, finite b =>
    if b = 0 then (if a = 0 then nan else infinity (decide (a < 0))) else round (a / b)
  | finite _, infinity _ => finite 0
  | infinity s, finite b => infinity (xor s (decide (b < 0)))
  | infinity _, infinity _ => nan
  | nan, _ => nan
  | _, nan => nan

instance : Neg double := ⟨neg⟩
instance : Add double := ⟨add⟩
instance : Sub double := ⟨sub⟩
instance : Mul double := ⟨mul⟩
instance : Div double := ⟨div⟩

/-- The comparison `a < b`: false when an operand is a NaN. -/
def lt : double → double → Bool
  | finite a, finite b => decide (a < b)
  | finite _, infinity s => !s
  | infinity s, finite _ => s
  | infinity s, infinity t => s && !t
  | nan, _ => false
  | _, nan => false

/-- The comparison `a == b`: false when an operand is a NaN. -/
def beq : double → double → Bool
  | finite a, finite b => decide (a = b)
  | infinity s, infinity t => decide (s = t)
  | _, _ => false

/-- The comparison `a <= b`: false when an operand is a NaN. -/
def le (a b : double) : Bool := lt a b || beq a b

/-- The comparison `a > b`. -/
def gt (a b : double) : Bool := lt b a

/-- The comparison `a >= b`. -/
def ge (a b : double) : Bool := le b a

/-- The conversion of a `double` to a signed integer type of `bits` bits:
truncation toward zero.  Converting a NaN, an infinity or a value outside the
range of the type is undefined behaviour in C++; the model gives it the value
the conversion instruction of x86-64 (`cvttsd2si`) yields, the least value of
the type. -/
def toInt (bits : Nat) : double → Int
  | finite q =>
    let t : Int := if 0 ≤ q then ⌊q⌋ else ⌈q⌉
    if -(2 ^ (bits - 1) : Int) ≤ t ∧ t < (2 ^ (bits - 1) : Int) then t
    else -(2 ^ (bits - 1) : Int)
  | _ => -(2 ^ (bits - 1) : Int)

end double

/-! ## VideoContext: clocks and frame pacing (lines 130-155, 470-532) -/

/-- The `ffmpeg::AVRational` of a time base. -/
structure AVRational where
  num : Int := 0
  den : Int := 1
  deriving DecidableEq, Repr

/-- `ffmpeg::av_q2d`: `num / (double) den`. -/
def av_q2d (a : AVRational) : double := double.ofInt a.num / double.ofInt a.den

/-- The sample formats of libavutil (`enum AVSampleFormat`): packed formats, then
the planar ones. -/
inductive AVSampleFormat where
  | AV_SAMPLE_FMT_NONE
  | AV_SAMPLE_FMT_U8
  | AV_SAMPLE_FMT_S16
  | AV_SAMPLE_FMT_S32
  | AV_SAMPLE_FMT_FLT
  | AV_SAMPLE_FMT_DBL
  | AV_SAMPLE_FMT_U8P
  | AV_SAMPLE_FMT_S16P
  | AV_SAMPLE_FMT_S32P
  | AV_SAMPLE_FMT_FLTP
  | AV_SAMPLE_FMT_DBLP
  | AV_SAMPLE_FMT_S64
  | AV_SAMPLE_FMT_S64P
  deriving DecidableEq, Repr

/-- The fields of a stream that the player reads: `index`, `time_base`,
`codec->time_base` and, of the codec context of an audio stream,
`codec->channel_layout`, `codec->channels`, `codec->sample_rate` and
`codec->sample_fmt`. -/
structure AVStream where
  index : Int := 0
  time_base : AVRational := {}
  codec_time_base : AVRational := {}
  codec_channel_layout : Int := 0
  codec_channels : Int := 0
  codec_sample_rate : Int := 0
  codec_sample_fmt : AVSampleFormat := AVSampleFormat.AV_SAMPLE_FMT_NONE
  deriving DecidableEq, Repr

/-- The fields of `ffmpeg::AVFrame` that the player reads. -/
structure AVFrame where
  repeat_pict : Int := 0
  pkt_pts : Int := 0
  pkt_dts : Int := 0
  deriving DecidableEq, Repr

/-- The value of `std::numeric_limits<double>::epsilon()`, `2^-52`. -/
def double_epsilon : double := double.finite (1 / 4503599627370496)

/-- The states of a decode thread (`decode_thread_state`). -/
inductive decode_thread_state where
  | dts_none
  | dts_playing
  | dts_paused
  | dts_end_of_media
  | dts_failed
  deriving DecidableEq, Repr

/-- The buffer formats of OpenAL that the player uses (`AL_FORMAT_*`). -/
inductive ALFormat where
  | AL_FORMAT_MONO8
  | AL_FORMAT_MONO16
  | AL_FORMAT_STEREO8
  | AL_FORMAT_STEREO16
  deriving DecidableEq, Repr

/-- The members of `audioData_` that `initDecodeAudioData` writes (lines
555-645); `swrContext_` tells whether the pointer is non-null.  The function
reads none of them before it has written it, so the default values only stand
for the state before the call. -/
structure AudioData where
  layout_ : Int := 0
  channels_ : Int := 0
  freq_ : Int := 0
  fmt_ : ALFormat := ALFormat.AL_FORMAT_MONO8
  sampleSize_ : Int := 0
  swrContext_ : Bool := false
  srcRate_ : Int := 0
  dstRate_ : Int := 0
  maxResampleSamples_ : Int := 0
  deriving DecidableEq, Repr

/-- The data members of `VideoContext` that its constructor initialises
(lines 130-153), the packet queues, the message queues, the selected streams,
the state of the audio thread (`audioData_.state_`) and the other members of
`audioData_` the model uses; the default values of the members of lines 130-153
are those of the constructor. -/
structure VideoContext where
  videoStream_ : AVStream := {}
  audioStream_ : Option AVStream := none
  quit_ : Bool := false
  frameTimer_ : double := 0
  videoClock_ : double := 0
  audioClock_ : double := 0
  frameLastPts_ : double := 0
  frameLastDelay_ : double := 0
  width_ : Int := 0
  height_ : Int := 0
  rotation_ : Int := 0
  duration_ : Int := 0
  volume_ : Int := 100
  mute_ : Bool := false
  startTimeVideo_ : Int := 0
  startTimeAudio_ : Int := 0
  startTimeVideoSet_ : Bool := false
  startTimeAudioSet_ : Bool := false
  seek_position_ : Int := -1
  videoQueue_ : PacketQueue := PacketQueue.new
  audioQueue_ : PacketQueue := PacketQueue.new
  demuxThreadMessageQueue_ : ThreadMessagesQueue := ThreadMessagesQueue.new
  videoThreadMessagesQueue_ : ThreadMessagesQueue := ThreadMessagesQueue.new
  audioThreadMessageQueue_ : ThreadMessagesQueue := ThreadMessagesQueue.new
  audioData_state_ : decode_thread_state := decode_thread_state.dts_none
  audioData_ : AudioData := {}
  deriving DecidableEq, Repr

namespace VideoContext

/-- `VideoContext::synchronizeVideo`: the returned pts and the context
afterwards. -/
def synchronizeVideo (ctx : VideoContext) (_frame : AVFrame) (_pts : double) :
    double × VideoContext :=
  let ctx1 : VideoContext :=
    if _pts.gt double_epsilon then { ctx with videoClock_ := _pts } else ctx
  let pts1 : double := if _pts.gt double_epsilon then _pts else ctx.videoClock_
  let frameDelay : double := av_q2d ctx.videoStream_.codec_time_base
  let frameDelay1 : double :=
    frameDelay + double.ofInt _frame.repeat_pict * (frameDelay * double.literal (1 / 2))
  (pts1, { ctx1 with videoClock_ := ctx1.videoClock_ + frameDelay1 })

/-- `VideoContext::computeDelay`: the returned delay and the context
afterwards.  `av_gettime` is the value the call `ffmpeg::av_gettime()` of line
524 returns, the wall clock in microseconds. -/
def computeDelay (ctx : VideoContext) (_picturePts : double) (av_gettime : Int) :
    double × VideoContext :=
  let delay : double := _picturePts - ctx.frameLastPts_
  let delay1 : double :=
    if delay.le (double.literal 0) || delay.ge (double.literal 1) then ctx.frameLastDelay_
    else delay
  let ctx1 : VideoContext :=
    { ctx with frameLastPts_ := _picturePts, frameLastDelay_ := delay1 }
  let ctx2 : VideoContext := { ctx1 with frameTimer_ := ctx1.frameTimer_ + delay1 }
  let actual_delay : double :=
    ctx2.frameTimer_ - double.ofInt av_gettime / double.literal 1000000
  let actual_delay1 : double :=
    if actual_delay.lt (double.literal (1 / 100)) then double.literal (1 / 100)
    else actual_delay
  (actual_delay1, ctx2)

end VideoContext

/-! ## Constants and library functions -/

/-- The `maxQueueSize` of line 11: `1024*1024*15`. -/
def maxQueueSize : Int := 1024 * 1024 * 15

/-- The `minFramesCount` of line 12. -/
def minFramesCount : Int := 25

/-- The value of `INT64_MIN`. -/
def INT64_MIN : Int := -9223372036854775808

/-- The value of `AV_NOPTS_VALUE`, `0x8000000000000000` as an `int64_t`. -/
def AV_NOPTS_VALUE : Int := -9223372036854775808

/-- The value of `AVERROR_EOF`, `-MKTAG('E','O','F',' ')`. -/
def AVERROR_EOF : Int := -541478725

/-- Reduction of an integer to the `int64_t` range (two's complement). -/
def wrap64 (x : Int) : Int :=
  (x + 9223372036854775808) % 18446744073709551616 - 9223372036854775808

/-- Modelled from the spec: `ffmpeg::av_rescale` belongs to libavutil and is
not among the sources.  It returns `a * b / c` rounded to the nearest integer,
halves away from zero, and `INT64_MIN` when `c <= 0` or `b < 0`. -/
def av_rescale (a b c : Int) : Int :=
  if c ≤ 0 ∨ b < 0 then INT64_MIN
  else if a < 0 then -((-a * b + c / 2) / c)
  else (a * b + c / 2) / c

/-- Modelled from the spec: `ffmpeg::av_packet_unref` belongs to libavcodec and
is not among the sources.  It releases the payload and resets the packet:
`data = NULL`, `size = 0` and the fields `av_init_packet` sets. -/
def av_packet_unref (_p : AVPacket) : AVPacket :=
  { data := DataPtr.null, size := 0, stream_index := 0,
    pts := AV_NOPTS_VALUE, dts := AV_NOPTS_VALUE }

/-- Modelled from the spec: `ffmpeg::av_frame_unref` belongs to libavutil and
is not among the sources.  It resets the frame to its default values. -/
def av_frame_unref (_f : AVFrame) : AVFrame :=
  { repeat_pict := 0, pkt_pts := AV_NOPTS_VALUE, pkt_dts := AV_NOPTS_VALUE }

/-- The static `flush_pkt` after `av_init_packet(&flush_pkt)` and
`flush_pkt.data = (uint8_t*) &flush_pkt` (lines 1685-1686). -/
def flush_pkt_init : AVPacket :=
  { data := DataPtr.flush_pkt, size := 0, stream_index := 0,
    pts := AV_NOPTS_VALUE, dts := AV_NOPTS_VALUE }

/-- `pushNullPacket` (lines 328-337). -/
def pushNullPacket (_queue : PacketQueue) (_streamIndex : Int) : PacketQueue :=
  _queue.push { data := DataPtr.null, size := 0, stream_index := _streamIndex,
                pts := AV_NOPTS_VALUE, dts := AV_NOPTS_VALUE }

/-! ## VideoContext: queues, seek, start times, volume (lines 157-161, 204-225,
339-373, 984-1096) -/

namespace VideoContext

/-- `VideoContext::getVideoStreamIndex`. -/
def getVideoStreamIndex (ctx : VideoContext) : Int := ctx.videoStream_.index

/-- `VideoContext::getAudioStreamIndex`. -/
def getAudioStreamIndex (ctx : VideoContext) : Int :=
  match ctx.audioStream_ with
  | some a => a.index
  | none => -1

/-- `VideoContext::isQuit`. -/
def isQuit (ctx : VideoContext) : Bool := ctx.quit_

/-- `VideoContext::setQuit`. -/
def setQuit (ctx : VideoContext) (_val : Bool) : VideoContext := { ctx with quit_ := _val }

/-- `VideoContext::enableAudio`: `!!audioStream_`. -/
def enableAudio (ctx : VideoContext) : Bool := ctx.audioStream_.isSome

/-- `VideoContext::enableVideo`: `!!videoStream_`.  The context of the model
always holds a video stream: `openFile` fails without one and
`getVideoStreamIndex` dereferences `videoStream_` unconditionally. -/
def enableVideo (_ctx : VideoContext) : Bool := true

/-- `VideoContext::pushVideoPacket`; `none` is the null pointer. -/
def pushVideoPacket (ctx : VideoContext) (_packet : Option AVPacket) : VideoContext :=
  match _packet with
  | none => { ctx with videoQueue_ := pushNullPacket ctx.videoQueue_ ctx.getVideoStreamIndex }
  | some p => { ctx with videoQueue_ := ctx.videoQueue_.push p }

/-- `VideoContext::pushAudioPacket`; `none` is the null pointer. -/
def pushAudioPacket (ctx : VideoContext) (_packet : Option AVPacket) : VideoContext :=
  match _packet with
  | none => { ctx with audioQueue_ := pushNullPacket ctx.audioQueue_ ctx.getAudioStreamIndex }
  | some p => { ctx with audioQueue_ := ctx.audioQueue_.push p }

/-- `VideoContext::getVideoQueuePackets`. -/
def getVideoQueuePackets (ctx : VideoContext) : Int := ctx.videoQueue_.getPackets

/-- `VideoContext::getVideoQueueSize`. -/
def getVideoQueueSize (ctx : VideoContext) : Int := ctx.videoQueue_.getSize

/-- `VideoContext::getAudioQueuePackets`. -/
def getAudioQueuePackets (ctx : VideoContext) : Int := ctx.audioQueue_.getPackets

/-- `VideoContext::getAudioQueueSize`. -/
def getAudioQueueSize (ctx : VideoContext) : Int := ctx.audioQueue_.getSize

/-- `VideoContext::init`, given the static `flush_pkt`. -/
def init (ctx : VideoContext) (flush_pkt : AVPacket) : VideoContext :=
  (ctx.pushVideoPacket (some flush_pkt)).pushAudioPacket (some flush_pkt)

/-- `VideoContext::setVolume`. -/
def setVolume (ctx : VideoContext) (_volume : Int) : VideoContext :=
  { ctx with volume_ := _volume }

/-- `VideoContext::setMute`. -/
def setMute (ctx : VideoContext) (_mute : Bool) : VideoContext :=
  { ctx with mute_ := _mute }

/-- The gain that `VideoContext::playNextAudioFrame` computes at line 781 and
passes to `alSourcef(..., AL_GAIN, volume)`: `float(volume_)` is a `float`, the
division by the `double` `100.0` is made in `double`, and the initialisation of
the `ALfloat` (a `float`) converts the result to `float`. -/
def playNextAudioFrame_volume (ctx : VideoContext) : double :=
  double.toFloat
    (if ctx.mute_ then double.literal 0
     else double.floatOfInt ctx.volume_ / double.literal 100)

/-- The value `seekMs` computes for `_ts_video` (lines 1011-1012) and for
`_ts_audio` (lines 1017-1018) from the time base of the stream. -/
def seekMs_ts (_tsms : Int) (time_base : AVRational) : Int :=
  Int.tdiv (av_rescale _tsms time_base.den time_base.num) 1000

/-- `VideoContext::seekFrame`, given the static `flush_pkt` and the value
`avformat_seek_file` returns: the returned flag, the context and the static
`flush_pkt` afterwards. -/
def seekFrame (ctx : VideoContext) (flush_pkt : AVPacket) (avformat_seek_file : Int)
    (_ts_video _ts_audio : Int) : Bool × VideoContext × AVPacket :=
  if avformat_seek_file < 0 then (false, ctx, flush_pkt)
  else
    let ctx1 : VideoContext := { ctx with videoQueue_ := ctx.videoQueue_.free.1 }
    let ctx2 : VideoContext := { ctx1 with audioQueue_ := ctx1.audioQueue_.free.1 }
    let flush1 : AVPacket := { flush_pkt with dts := wrap64 (ctx2.startTimeVideo_ + _ts_video) }
    let flush2 : AVPacket := { flush1 with pts := wrap64 (ctx2.startTimeAudio_ + _ts_audio) }
    let ctx3 : VideoContext :=
      if ctx2.enableAudio then ctx2.pushAudioPacket (some flush2) else ctx2
    (true, ctx3.pushVideoPacket (some flush2), flush2)

/-- `VideoContext::seekMs`, given the static `flush_pkt` and the value
`avformat_seek_file` returns. -/
def seekMs (ctx : VideoContext) (flush_pkt : AVPacket) (avformat_seek_file : Int)
    (_tsms : Int) : Bool × VideoContext × AVPacket :=
  let _ts_video : Int := seekMs_ts _tsms ctx.videoStream_.time_base
  let _ts_audio : Int :=
    match ctx.audioStream_ with
    | some a => seekMs_ts _tsms a.time_base
    | none => 0
  ctx.seekFrame flush_pkt avformat_seek_file _ts_video _ts_audio

/-- `VideoContext::setStartTimeVideo`. -/
def setStartTimeVideo (ctx : VideoContext) (_startTime : Int) : VideoContext :=
  if ctx.startTimeVideoSet_ then ctx
  else { ctx with startTimeVideoSet_ := true, startTimeVideo_ := _startTime }

/-- `VideoContext::getStartTimeVideo`. -/
def getStartTimeVideo (ctx : VideoContext) : Int := ctx.startTimeVideo_

/-- `VideoContext::setStartTimeAudio`. -/
def setStartTimeAudio (ctx : VideoContext) (_startTime : Int) : VideoContext :=
  if ctx.startTimeAudioSet_ then ctx
  else { ctx with startTimeAudioSet_ := true, startTimeAudio_ := _startTime }

/-- `VideoContext::getStartTimeAudio`. -/
def getStartTimeAudio (ctx : VideoContext) : Int := ctx.startTimeAudio_

end VideoContext

/-! ## AudioDecodeThread: control messages (lines 897-905, 1432-1467) -/

namespace VideoContext

/-- `VideoContext::getAudioThreadState`. -/
def getAudioThreadState (ctx : VideoContext) : decode_thread_state := ctx.audioData_state_

/-- `VideoContext::setAudioThreadState`. -/
def setAudioThreadState (ctx : VideoContext) (_state : decode_thread_state) : VideoContext :=
  { ctx with audioData_state_ := _state }

end VideoContext

/-- The `switch (msg.message_)` of `AudioDecodeThread::run` (lines 1434-1467)
on a received message; `setMute(msg.x_)` converts the `int32_t` to `bool`. -/
def AudioDecodeThread.handleMessage (ctx : VideoContext) (msg : ThreadMessage) : VideoContext :=
  match msg.message_ with
  | thread_message_type.tmt_set_volume => ctx.setVolume msg.x_
  | thread_message_type.tmt_pause => ctx.setAudioThreadState decode_thread_state.dts_paused
  | thread_message_type.tmt_play => ctx.setAudioThreadState decode_thread_state.dts_playing
  | thread_message_type.tmt_set_mute => ctx.setMute (decide (msg.x_ ≠ 0))
  | _ => ctx

/-! ## VideoContext::getNextVideoFrame (lines 259-326) -/

/-- What one call of `avcodec_decode_video2` hands back: the returned length,
`got_frame` and the frame it decoded. -/
structure DecodeResult where
  len : Int := 0
  got_frame : Int := 0
  frame : AVFrame := {}
  deriving DecidableEq, Repr

/-- How one pass through the body of a loop ends: with `continue` or at the end
of the body (`next`), or with `return b` (`ret b`). -/
inductive LoopStep where
  | next : LoopStep
  | ret (b : Bool) : LoopStep
  deriving DecidableEq, Repr

/-- What `getNextVideoFrame` works on: the context, the static `flush_pkt` and
the caller's variables behind `_frame`, `_packet`, `_stream_finished`, `_eof`. -/
structure VideoDecodeState where
  ctx : VideoContext := {}
  flush_pkt : AVPacket := flush_pkt_init
  frame : AVFrame := {}
  packet : AVPacket := {}
  stream_finished : Bool := false
  eof : Bool := false
  deriving DecidableEq, Repr

/-- Lines 265-275 of the loop body of `getNextVideoFrame`: unless the stream is
finished, take a packet from the video queue; `none` when the queue is empty and
the pass ends with `continue`. -/
def getNextVideoFrame_fetch (s : VideoDecodeState) : Option VideoDecodeState :=
  if s.stream_finished then some s
  else
    match s.ctx.videoQueue_.get s.packet with
    | (true, q, p) => some { s with ctx := { s.ctx with videoQueue_ := q }, packet := p }
    | (false, _, _) => none

/-- Lines 277-322 of the loop body of `getNextVideoFrame`: the flush marker, the
null packet, the decoder call and the seek guard; `d` is what
`avcodec_decode_video2` hands back. -/
def getNextVideoFrame_decode (s1 : VideoDecodeState) (d : DecodeResult) :
    LoopStep × VideoDecodeState :=
  if s1.packet.data = DataPtr.flush_pkt then
    (LoopStep.next, { s1 with ctx := { s1.ctx with seek_position_ := s1.flush_pkt.dts } })
  else
    let s2 : VideoDecodeState :=
      if s1.packet.data = DataPtr.null then { s1 with stream_finished := true } else s1
    let s3 : VideoDecodeState :=
      { s2 with
        frame := if d.got_frame ≠ 0 then d.frame else s2.frame
        packet := if s2.packet.data ≠ DataPtr.null then av_packet_unref s2.packet
                  else s2.packet }
    if d.len < 0 then (LoopStep.ret false, s3)
    else if d.got_frame ≠ 0 then
      if 0 < s3.ctx.seek_position_ ∧ s3.frame.pkt_dts < s3.ctx.seek_position_ then
        (LoopStep.next, { s3 with frame := av_frame_unref s3.frame })
      else
        (LoopStep.ret true, { s3 with ctx := { s3.ctx with seek_position_ := 0 } })
    else if s3.stream_finished then (LoopStep.ret false, { s3 with eof := true })
    else (LoopStep.next, s3)

/-- One pass through the body of the `while` loop of `getNextVideoFrame` (lines
265-322); `d` is what `avcodec_decode_video2` hands back if the pass calls it. -/
def getNextVideoFrame_body (s : VideoDecodeState) (d : DecodeResult) :
    LoopStep × VideoDecodeState :=
  match getNextVideoFrame_fetch s with
  | none => (LoopStep.next, s)
  | some s1 => getNextVideoFrame_decode s1 d

/-- One pass through the loop of `getNextVideoFrame`, with its condition
`!isQuit()`; leaving the loop returns false (line 325). -/
def getNextVideoFrame_pass (s : VideoDecodeState) (d : DecodeResult) :
    LoopStep × VideoDecodeState :=
  if s.ctx.isQuit then (LoopStep.ret false, s) else getNextVideoFrame_body s d

/-- `VideoContext::getNextVideoFrame` when no other thread interferes: the
passes consume the results of the decoder one by one; `none` when the results
are used up before the function returns. -/
def getNextVideoFrame (s : VideoDecodeState) : List DecodeResult → Option (Bool × VideoDecodeState)
  | [] => none
  | d :: ds =>
    match getNextVideoFrame_pass s d with
    | (LoopStep.ret b, s1) => some (b, s1)
    | (LoopStep.next, s1) => getNextVideoFrame s1 ds

/-- The steps that touch the state `getNextVideoFrame` works on: a pass of its
loop in the video thread, the preparation of the next call by the video thread
(lines 1341-1343), its reset of `stream_finished` (line 1383), a packet queued by
the demux thread (`none` for the null pointer), a `seekFrame` call of the demux
thread, and a change of the quit flag. -/
inductive VideoThreadEvent where
  | pass (d : DecodeResult) : VideoThreadEvent
  | newCall : VideoThreadEvent
  | resetStreamFinished : VideoThreadEvent
  | demuxPush (p : Option AVPacket) : VideoThreadEvent
  | seekFrame (avformat_seek_file _ts_video _ts_audio : Int) : VideoThreadEvent
  | setQuit (b : Bool) : VideoThreadEvent
  deriving DecidableEq, Repr

/-- Whether an event is a `seekFrame` call. -/
def VideoThreadEvent.isSeekFrame : VideoThreadEvent → Bool
  | VideoThreadEvent.seekFrame _ _ _ => true
  | _ => false

/-- The state after one event, and the frame handed to the caller when the
event is a pass that ends with `return true`. -/
def VideoDecodeState.event (s : VideoDecodeState) :
    VideoThreadEvent → VideoDecodeState × Option AVFrame
  | VideoThreadEvent.pass d =>
    match getNextVideoFrame_pass s d with
    | (LoopStep.ret true, s1) => (s1, some s1.frame)
    | (_, s1) => (s1, none)
  | VideoThreadEvent.newCall =>
    ({ s with frame := av_frame_unref s.frame, eof := false }, none)
  | VideoThreadEvent.resetStreamFinished => ({ s with stream_finished := false }, none)
  | VideoThreadEvent.demuxPush p => ({ s with ctx := s.ctx.pushVideoPacket p }, none)
  | VideoThreadEvent.seekFrame r tv ta =>
    ({ s with ctx := (s.ctx.seekFrame s.flush_pkt r tv ta).2.1
              flush_pkt := (s.ctx.seekFrame s.flush_pkt r tv ta).2.2 }, none)
  | VideoThreadEvent.setQuit b => ({ s with ctx := s.ctx.setQuit b }, none)

/-- The frames `getNextVideoFrame` returns during a sequence of events, in
order. -/
def VideoDecodeState.returned (s : VideoDecodeState) : List VideoThreadEvent → List AVFrame
  | [] => []
  | e :: es =>
    match (s.event e).2 with
    | some f => f :: VideoDecodeState.returned (s.event e).1 es
    | none => VideoDecodeState.returned (s.event e).1 es

/-- The steps that touch the state `getNextVideoFrame` works on when a pass of
its loop is not one step.  Only `PacketQueue::get` runs under the mutex of the
queue (lines 94-111), so another thread can run between the `get` of line 267
and the rest of the pass: `fetch` is the loop condition and lines 265-275,
`decode` is lines 277-322 with what `avcodec_decode_video2` hands back.  The
other steps are those of `VideoThreadEvent`.  A `seekFrame` call stays one step:
the demux thread, which runs it, is the only thread that pushes packets, the
video queue is empty between the `free` and the push of the call, so a `fetch`
in between takes nothing, and a `decode` in between works on the packet the
thread already holds; the step stands for the moment of the `free`. -/
inductive VideoStep where
  | fetch : VideoStep
  | decode (d : DecodeResult) : VideoStep
  | newCall : VideoStep
  | resetStreamFinished : VideoStep
  | demuxPush (p : Option AVPacket) : VideoStep
  | seekFrame (avformat_seek_file _ts_video _ts_audio : Int) : VideoStep
  | setQuit (b : Bool) : VideoStep
  deriving DecidableEq, Repr

/-- Whether a step is a `seekFrame` call. -/
def VideoStep.isSeekFrame : VideoStep → Bool
  | VideoStep.seekFrame _ _ _ => true
  | _ => false

/-- The state `getNextVideoFrame` works on, and whether the video thread is
inside a pass of the loop between line 275 and line 277: it has taken its packet
(or skipped the `get` because the stream is finished) and has not yet looked at
it. -/
structure VideoStepState where
  s : VideoDecodeState := {}
  fetched : Bool := false
  deriving DecidableEq, Repr

namespace VideoStepState

/-- The state after one step, and the frame handed to the caller when the step
ends a pass with `return true`.  A step of the video thread that is not its next
one leaves the state as it is: `fetch`, `newCall` and `resetStreamFinished` while
a pass is under way, `decode` while none is.  A pass that finds the quit flag
set or the queue empty ends in `fetch`. -/
def step (t : VideoStepState) : VideoStep → VideoStepState × Option AVFrame
  | VideoStep.fetch =>
    if t.fetched then (t, none)
    else if t.s.ctx.isQuit then (t, none)
    else
      match getNextVideoFrame_fetch t.s with
      | some s1 => ({ s := s1, fetched := true }, none)
      | none => (t, none)
  | VideoStep.decode d =>
    if t.fetched then
      match getNextVideoFrame_decode t.s d with
      | (LoopStep.ret true, s1) => ({ s := s1, fetched := false }, some s1.frame)
      | (_, s1) => ({ s := s1, fetched := false }, none)
    else (t, none)
  | VideoStep.newCall =>
    if t.fetched then (t, none)
    else ({ t with s := { t.s with frame := av_frame_unref t.s.frame, eof := false } }, none)
  | VideoStep.resetStreamFinished =>
    if t.fetched then (t, none)
    else ({ t with s := { t.s with stream_finished := false } }, none)
  | VideoStep.demuxPush p => ({ t with s := { t.s with ctx := t.s.ctx.pushVideoPacket p } }, none)
  | VideoStep.seekFrame r tv ta =>
    ({ t with s := { t.s with ctx := (t.s.ctx.seekFrame t.s.flush_pkt r tv ta).2.1
                              flush_pkt := (t.s.ctx.seekFrame t.s.flush_pkt r tv ta).2.2 } },
     none)
  | VideoStep.setQuit b => ({ t with s := { t.s with ctx := t.s.ctx.setQuit b } }, none)

/-- The state after a sequence of steps, first step first. -/
def run (t : VideoStepState) : List VideoStep → VideoStepState
  | [] => t
  | e :: es => run (t.step e).1 es

/-- The frames `getNextVideoFrame` returns during a sequence of steps, in
order. -/
def returned (t : VideoStepState) : List VideoStep → List AVFrame
  | [] => []
  | e :: es =>
    match (t.step e).2 with
    | some f => f :: returned (t.step e).1 es
    | none => returned (t.step e).1 es

end VideoStepState

/-! ## DemuxThread::run (lines 1107-1236) -/

/-- `VideoContext::isEof`: `_error == AVERROR_EOF || avio_feof(formatContext_->pb)`;
`avio_feof` is the value that call returns. -/
def VideoContext.isEof (_error : Int) (avio_feof : Bool) : Bool :=
  decide (_error = AVERROR_EOF) || avio_feof

/-- The local variables of `DemuxThread::run`. -/
structure DemuxThread where
  waitMsgTimeout : Int := 0
  videoStreamIndex : Int := 0
  audioStreamIndex : Int := -1
  packet : AVPacket := {}
  init : Bool := true
  state : decode_thread_state := decode_thread_state.dts_playing
  readPacketError : Int := 0
  eof : Bool := false
  seekPosition : Int := -1
  msg : ThreadMessage := { message_ := thread_message_type.tmt_quit }
  deriving DecidableEq, Repr

/-- What the library hands back during one pass through the loop of the demux
thread: the result of `avformat_seek_file` (used when a seek is pending), the
result of `av_read_frame` and the packet it read, `avio_feof`, and whether
`formatContext_->pb` reports an error (`isStreamError`). -/
structure DemuxInput where
  avformat_seek_file : Int := 0
  av_read_frame : Int := 0
  packet : AVPacket := {}
  avio_feof : Bool := false
  stream_error : Bool := false
  deriving DecidableEq, Repr

/-- The calls a pass of the demux loop makes that leave the thread: library
calls, pushes into the packet queues, the release of a discarded packet and the
signal `dataReady`. -/
inductive DemuxEffect where
  | av_read_pause : DemuxEffect
  | av_read_play : DemuxEffect
  | av_read_frame : DemuxEffect
  | pushVideo (p : AVPacket) : DemuxEffect
  | pushAudio (p : AVPacket) : DemuxEffect
  | av_packet_unref (p : AVPacket) : DemuxEffect
  | dataReady : DemuxEffect
  deriving DecidableEq, Repr

/-- What the demux thread works on: the context, the static `flush_pkt` and its
local variables. -/
structure DemuxState where
  ctx : VideoContext := {}
  flush_pkt : AVPacket := flush_pkt_init
  locals : DemuxThread := {}
  deriving DecidableEq, Repr

namespace DemuxThread

/-- The state at the start of `run`, before the loop (lines 1109-1126); the
value of the default-constructed `msg` is never read. -/
def start (ctx : VideoContext) (flush_pkt : AVPacket) : DemuxState :=
  { ctx := ctx
    flush_pkt := flush_pkt
    locals := { videoStreamIndex := ctx.getVideoStreamIndex
                audioStreamIndex := ctx.getAudioStreamIndex } }

/-- Lines 1130-1156: take a control message, if one is there, and act on it. -/
def receive (s : DemuxState) : DemuxState :=
  match s.ctx.demuxThreadMessageQueue_.getMessage s.locals.msg s.ctx.isQuit with
  | (true, q, m) =>
    let l1 : DemuxThread := { s.locals with msg := m }
    let l2 : DemuxThread :=
      match m.message_ with
      | thread_message_type.tmt_play => { l1 with state := decode_thread_state.dts_playing }
      | thread_message_type.tmt_pause => { l1 with state := decode_thread_state.dts_paused }
      | thread_message_type.tmt_seek_position => { l1 with seekPosition := m.x_ }
      | _ => l1
    { s with ctx := { s.ctx with demuxThreadMessageQueue_ := q }
             locals := { l2 with waitMsgTimeout := 0 } }
  | (false, _, _) => { s with locals := { s.locals with waitMsgTimeout := 0 } }

/-- Lines 1173-1180: run a pending seek; `seekMs` takes an `int`.  The effects
are the pushes `seekFrame` makes when it succeeds. -/
def seek (s : DemuxState) (i : DemuxInput) : DemuxState × List DemuxEffect :=
  if s.locals.seekPosition ≥ 0 then
    let r := s.ctx.seekMs s.flush_pkt i.avformat_seek_file (wrap32 s.locals.seekPosition)
    ({ ctx := r.2.1
       flush_pkt := r.2.2
       locals := { s.locals with seekPosition := -1, eof := false } },
     if r.1 then
       (if s.ctx.enableAudio then [DemuxEffect.pushAudio r.2.2] else [])
         ++ [DemuxEffect.pushVideo r.2.2]
     else [])
  else (s, [])

/-- The condition of lines 1182-1184. -/
def queuesFull (ctx : VideoContext) : Bool :=
  decide (wrap32 (ctx.getAudioQueueSize + ctx.getVideoQueueSize) > maxQueueSize) ||
  ((decide (ctx.getAudioQueuePackets > minFramesCount) || !ctx.enableAudio) &&
   (decide (ctx.getVideoQueuePackets > minFramesCount) || !ctx.enableVideo))

/-- Lines 1190-1234: read one packet and queue it, or signal the end of the
file.  The flag is false when the loop is left with `break`. -/
def read (s : DemuxState) (i : DemuxInput) : Bool × DemuxState × List DemuxEffect :=
  let l1 : DemuxThread :=
    { s.locals with
      readPacketError := i.av_read_frame
      packet := if i.av_read_frame < 0 then s.locals.packet else i.packet }
  if i.av_read_frame < 0 then
    let signal : Bool := VideoContext.isEof i.av_read_frame i.avio_feof && !l1.eof
    let ctx1 : VideoContext :=
      if signal then
        (if s.ctx.enableAudio then s.ctx.pushAudioPacket none else s.ctx).pushVideoPacket none
      else s.ctx
    let e1 : List DemuxEffect :=
      if signal then
        (if s.ctx.enableAudio then
          [DemuxEffect.pushAudio
            { data := DataPtr.null, size := 0, stream_index := s.ctx.getAudioStreamIndex,
              pts := AV_NOPTS_VALUE, dts := AV_NOPTS_VALUE }]
         else [])
        ++ [DemuxEffect.pushVideo
            { data := DataPtr.null, size := 0, stream_index := s.ctx.getVideoStreamIndex,
              pts := AV_NOPTS_VALUE, dts := AV_NOPTS_VALUE }]
      else []
    let l2 : DemuxThread := if signal then { l1 with eof := true } else l1
    if i.stream_error then
      (false, { s with ctx := ctx1, locals := l2 }, DemuxEffect.av_read_frame :: e1)
    else
      (true, { s with ctx := ctx1, locals := { l2 with waitMsgTimeout := 10 } },
       DemuxEffect.av_read_frame :: e1)
  else
    let l2 : DemuxThread := { l1 with eof := false }
    let routed : VideoContext × DemuxThread × List DemuxEffect :=
      if l2.packet.stream_index = l2.videoStreamIndex then
        (s.ctx.pushVideoPacket (some l2.packet), l2, [DemuxEffect.pushVideo l2.packet])
      else if l2.packet.stream_index = l2.audioStreamIndex then
        (s.ctx.pushAudioPacket (some l2.packet), l2, [DemuxEffect.pushAudio l2.packet])
      else
        (s.ctx, { l2 with packet := Ui.av_packet_unref l2.packet },
         [DemuxEffect.av_packet_unref l2.packet])
    let l3 : DemuxThread := if routed.2.1.init then { routed.2.1 with init := false } else routed.2.1
    let e3 : List DemuxEffect := if routed.2.1.init then [DemuxEffect.dataReady] else []
    (true, { s with ctx := routed.1, locals := l3 },
     DemuxEffect.av_read_frame :: (routed.2.2 ++ e3))

/-- Lines 1182-1234: the backpressure gate, then the read. -/
def gate (s : DemuxState) (i : DemuxInput) : Bool × DemuxState × List DemuxEffect :=
  if queuesFull s.ctx then
    (true, { s with locals := { s.locals with waitMsgTimeout := 10 } }, [])
  else read s i

/-- One pass through the body of the `while` loop of `DemuxThread::run` (lines
1130-1234): the flag tells whether the loop goes on (false after `break`). -/
def iteration (s : DemuxState) (i : DemuxInput) : Bool × DemuxState × List DemuxEffect :=
  let s1 : DemuxState := receive s
  if s1.locals.state = decode_thread_state.dts_paused then
    (true, { s1 with locals := { s1.locals with waitMsgTimeout := 10 } },
     [DemuxEffect.av_read_pause])
  else
    let s2 := seek s1 i
    let r := gate s2.1 i
    (r.1, r.2.1, DemuxEffect.av_read_play :: (s2.2 ++ r.2.2))

/-- The state with which a pass that is not paused reaches the gate of line
1182: after the control message and the pending seek. -/
def atGate (s : DemuxState) (i : DemuxInput) : DemuxState := (seek (receive s) i).1

end DemuxThread

/-- The state of the pipeline around the demux thread: the state the thread
works on, whether its loop is still running, and the calls it has made so far. -/
structure PlayerState where
  d : DemuxState := {}
  running : Bool := true
  effects : List DemuxEffect := []
  deriving DecidableEq, Repr

/-- The steps that touch the packet queues: a pass of the demux loop, a `get` of
the video or of the audio decode thread, a control message posted to the demux
thread, and a change of the quit flag. -/
inductive PlayerEvent where
  | demux (i : DemuxInput) : PlayerEvent
  | videoGet : PlayerEvent
  | audioGet : PlayerEvent
  | post (m : ThreadMessage) : PlayerEvent
  | setQuit (b : Bool) : PlayerEvent
  deriving DecidableEq, Repr

namespace PlayerState

/-- The pipeline when the demux thread starts: a new context with the two
selected streams after `VideoContext::init` (line 1696). -/
def start (videoStream : AVStream) (audioStream : Option AVStream) : PlayerState :=
  { d := DemuxThread.start
      (({ videoStream_ := videoStream, audioStream_ := audioStream } : VideoContext).init
        flush_pkt_init) flush_pkt_init }

/-- The pipeline after one event.  A pass of the demux loop happens only while
the loop runs: `while (!ctx_.isQuit())` and no `break` before. -/
def step (p : PlayerState) : PlayerEvent → PlayerState
  | PlayerEvent.demux i =>
    if p.running && !p.d.ctx.isQuit then
      { d := (DemuxThread.iteration p.d i).2.1
        running := (DemuxThread.iteration p.d i).1
        effects := p.effects ++ (DemuxThread.iteration p.d i).2.2 }
    else { p with running := false }
  | PlayerEvent.videoGet =>
    { p with d := { p.d with ctx := { p.d.ctx with
                      videoQueue_ := (p.d.ctx.videoQueue_.get {}).2.1 } } }
  | PlayerEvent.audioGet =>
    { p with d := { p.d with ctx := { p.d.ctx with
                      audioQueue_ := (p.d.ctx.audioQueue_.get {}).2.1 } } }
  | PlayerEvent.post m =>
    { p with d := { p.d with ctx := { p.d.ctx with
                      demuxThreadMessageQueue_ :=
                        p.d.ctx.demuxThreadMessageQueue_.pushMessage m } } }
  | PlayerEvent.setQuit b => { p with d := { p.d with ctx := p.d.ctx.setQuit b } }

/-- The pipeline after a sequence of events, first event first. -/
def run (p : PlayerState) (evs : List PlayerEvent) : PlayerState :=
  evs.foldl step p

end PlayerState

/-- The packet a call pushes into one of the packet queues, if it is a push. -/
def DemuxEffect.pushed : DemuxEffect → Option AVPacket
  | DemuxEffect.pushVideo p => some p
  | DemuxEffect.pushAudio p => some p
  | _ => none

/-- The packets pushed into the packet queues by a list of calls, in order. -/
def packetsPushed (es : List DemuxEffect) : List AVPacket := es.filterMap DemuxEffect.pushed

/-- The size of the most recently pushed packet of a list of pushed packets, 0
when nothing has been pushed. -/
def lastPushedSize (ps : List AVPacket) : Int :=
  match ps.getLast? with
  | some p => p.size
  | none => 0

/-- The number of `av_read_frame` calls among a list of calls. -/
def readCount (es : List DemuxEffect) : Nat :=
  es.count DemuxEffect.av_read_frame

/-! ## VideoDecodeThread::run and AudioDecodeThread::run: the loops (lines 1279-1398,
1428-1488) -/

/-- `VideoContext::getVideoTimebase`. -/
def VideoContext.getVideoTimebase (ctx : VideoContext) : double :=
  av_q2d ctx.videoStream_.time_base

/-- `VideoContext::getRotation`. -/
def VideoContext.getRotation (ctx : VideoContext) : Int := ctx.rotation_

/-- A `QImage` as far as the player tells images apart: the null image
`QImage()`, or the image that `scale` makes of a decoded frame, turned by
`rotation` degrees when the stream has a rotation (lines 1370-1375). -/
inductive QImage where
  | null : QImage
  | scaled (frame : AVFrame) (rotation : Int) : QImage
  deriving DecidableEq, Repr

/-- One emission of the signal `nextframeReady(QImage, double, bool)`. -/
structure NextFrameReady where
  image : QImage := QImage.null
  pts : double := 0
  eof : Bool := false
  deriving DecidableEq, Repr

/-- The local variables of `VideoDecodeThread::run` that `getNextVideoFrame`
does not work on (lines 1279-1286); the value of the default-constructed `msg`
is never read. -/
structure VideoDecodeThread where
  current_state : decode_thread_state := decode_thread_state.dts_playing
  msg : ThreadMessage := { message_ := thread_message_type.tmt_quit }
  waitMsgTimeout : Int := 60000
  deriving DecidableEq, Repr

/-- What the video thread works on: the state `getNextVideoFrame` works on (the
context, the static `flush_pkt`, `frame`, `av_packet`, `stream_finished`, `eof`)
and its other local variables. -/
structure VideoThreadState where
  s : VideoDecodeState := {}
  locals : VideoDecodeThread := {}
  deriving DecidableEq, Repr

namespace VideoDecodeThread

/-- The case `tmt_get_next_video_frame` of the switch (lines 1336-1392): the
state afterwards and the signals emitted.  `ds` are the results the decoder
hands back to the passes of `getNextVideoFrame`; `none` when they are used up
before that call returns. -/
def getNextFrame (t : VideoThreadState) (ds : List DecodeResult) :
    Option (VideoThreadState × List NextFrameReady) :=
  if t.locals.current_state = decode_thread_state.dts_end_of_media ∨
      t.locals.current_state = decode_thread_state.dts_failed then some (t, [])
  else
    match getNextVideoFrame { t.s with frame := av_frame_unref t.s.frame, eof := false } ds with
    | none => none
    | some (true, s1) =>
      let ctx1 : VideoContext := s1.ctx.setStartTimeVideo s1.frame.pkt_dts
      let pts0 : double := double.ofInt s1.frame.pkt_dts
      let pts1 : double :=
        if pts0.beq (double.ofInt AV_NOPTS_VALUE) then double.ofInt s1.frame.pkt_pts else pts0
      let pts2 : double :=
        if pts1.beq (double.ofInt AV_NOPTS_VALUE) then double.ofInt 0 else pts1
      let pts3 : double := pts2 * ctx1.getVideoTimebase
      let r : double × VideoContext := ctx1.synchronizeVideo s1.frame pts3
      if r.2.isQuit then some ({ t with s := { s1 with ctx := r.2 } }, [])
      else
        some ({ t with s := { s1 with ctx := r.2 } },
              [{ image := QImage.scaled s1.frame r.2.getRotation, pts := r.1, eof := false }])
    | some (false, s1) =>
      if s1.eof then
        some ({ s := { s1 with stream_finished := false }
                locals := { t.locals with
                            current_state := decode_thread_state.dts_end_of_media } },
              [{ image := QImage.null, pts := 0, eof := true }])
      else some ({ t with s := s1 }, [])

/-- The `switch (msg.message_)` of `VideoDecodeThread::run` (lines 1294-1396) on
a received message. -/
def handleMessage (t : VideoThreadState) (msg : ThreadMessage) (ds : List DecodeResult) :
    Option (VideoThreadState × List NextFrameReady) :=
  let t1 : VideoThreadState := { t with locals := { t.locals with msg := msg } }
  match msg.message_ with
  | thread_message_type.tmt_quit => some (t1, [])
  | thread_message_type.tmt_pause =>
    if decode_thread_state.dts_failed = t1.locals.current_state then some (t1, [])
    else
      some ({ t1 with locals := { t1.locals with
                                  current_state := decode_thread_state.dts_paused } }, [])
  | thread_message_type.tmt_play =>
    if decode_thread_state.dts_failed = t1.locals.current_state then some (t1, [])
    else
      some ({ t1 with locals := { t1.locals with
                                  current_state := decode_thread_state.dts_playing } }, [])
  | thread_message_type.tmt_get_next_video_frame => getNextFrame t1 ds
  | _ => some (t1, [])

/-- One pass through the body of the `while` loop of `VideoDecodeThread::run`
(lines 1292-1397): take a control message, if one is there, and act on it. -/
def iteration (t : VideoThreadState) (ds : List DecodeResult) :
    Option (VideoThreadState × List NextFrameReady) :=
  match t.s.ctx.videoThreadMessagesQueue_.getMessage t.locals.msg t.s.ctx.isQuit with
  | (true, q, m) =>
    handleMessage { t with s := { t.s with ctx := { t.s.ctx with videoThreadMessagesQueue_ := q } } }
      m ds
  | (false, _, _) => some (t, [])

/-- The video thread handling a sequence of messages one after the other, each
with the results the decoder hands back while it is handled: the state
afterwards and the signals emitted, in order. -/
def handleAll (t : VideoThreadState) :
    List (ThreadMessage × List DecodeResult) → Option (VideoThreadState × List NextFrameReady)
  | [] => some (t, [])
  | (m, ds) :: rest =>
    match handleMessage t m ds with
    | none => none
    | some (t1, out1) =>
      match handleAll t1 rest with
      | none => none
      | some (t2, out2) => some (t2, out1 ++ out2)

end VideoDecodeThread

/-- The state of the audio thread at the end of a pass through its loop (lines
1432-1487): the switch on the message `msg` the pass received, if any, then the
quit test of line 1469 and the playing branch of lines 1474-1487.  `play_eof` is
the value `playNextAudioFrame` leaves in `eof` when the pass calls it; that
function does not write `audioData_.state_`. -/
def AudioDecodeThread.passState (ctx : VideoContext) (msg : Option ThreadMessage)
    (play_eof : Bool) : decode_thread_state :=
  let ctx1 : VideoContext :=
    match msg with
    | some m => AudioDecodeThread.handleMessage ctx m
    | none => ctx
  if ctx1.isQuit then ctx1.getAudioThreadState
  else if ctx1.getAudioThreadState = decode_thread_state.dts_playing then
    if play_eof then decode_thread_state.dts_end_of_media else ctx1.getAudioThreadState
  else ctx1.getAudioThreadState

/-! ## The packet queues and the static flush packet (lines 157-161, 204-225,
1024-1043) -/

/-- The calls that write the packet queues or the static `flush_pkt` after
`VideoContext::init`: `seekFrame` and the pushes of the demux thread (`none` is
the null pointer, which queues a null packet) and the `get` calls of the two
decode threads. -/
inductive QueueEvent where
  | seekFrame (avformat_seek_file _ts_video _ts_audio : Int) : QueueEvent
  | pushVideoPacket (_packet : Option AVPacket) : QueueEvent
  | pushAudioPacket (_packet : Option AVPacket) : QueueEvent
  | getVideo : QueueEvent
  | getAudio : QueueEvent
  deriving DecidableEq, Repr

/-- The context together with the static `flush_pkt`. -/
structure QueuesState where
  ctx : VideoContext := {}
  flush_pkt : AVPacket := flush_pkt_init
  deriving DecidableEq, Repr

namespace QueuesState

/-- The state the constructor of the player leaves (lines 1685-1696): the static
`flush_pkt` initialised and `VideoContext::init` called on the context. -/
def start (ctx : VideoContext) : QueuesState :=
  { ctx := ctx.init flush_pkt_init, flush_pkt := flush_pkt_init }

/-- The state after one call. -/
def event (s : QueuesState) : QueueEvent → QueuesState
  | QueueEvent.seekFrame r tv ta =>
    { ctx := (s.ctx.seekFrame s.flush_pkt r tv ta).2.1
      flush_pkt := (s.ctx.seekFrame s.flush_pkt r tv ta).2.2 }
  | QueueEvent.pushVideoPacket p => { s with ctx := s.ctx.pushVideoPacket p }
  | QueueEvent.pushAudioPacket p => { s with ctx := s.ctx.pushAudioPacket p }
  | QueueEvent.getVideo =>
    { s with ctx := { s.ctx with videoQueue_ := (s.ctx.videoQueue_.get {}).2.1 } }
  | QueueEvent.getAudio =>
    { s with ctx := { s.ctx with audioQueue_ := (s.ctx.audioQueue_.get {}).2.1 } }

/-- The state after a sequence of calls, first call first. -/
def run (s : QueuesState) (evs : List QueueEvent) : QueuesState := evs.foldl event s

end QueuesState

/-- Whether a packet is a flush marker: its `data` is the address of the static
`flush_pkt` (the test of lines 277 and 684). -/
def AVPacket.isFlush (p : AVPacket) : Bool := decide (p.data = DataPtr.flush_pkt)

/-- Whether a call is a `seekFrame` that succeeds, the only call that writes the
static `flush_pkt` (line 1034). -/
def QueueEvent.isSeekOk : QueueEvent → Bool
  | QueueEvent.seekFrame r _ _ => decide (¬ r < 0)
  | _ => false

/-- The state `getNextVideoFrame` works on after calls of the other threads on
the context and on the static `flush_pkt`; the variables of the video thread
stay as they are.  Only `PacketQueue::get` runs under the mutex of the queue, so
such calls can run between the `get` of line 267 and the test of line 277. -/
def VideoDecodeState.after (s : VideoDecodeState) (evs : List QueueEvent) : VideoDecodeState :=
  { s with
    ctx := (QueuesState.run { ctx := s.ctx, flush_pkt := s.flush_pkt } evs).ctx
    flush_pkt := (QueuesState.run { ctx := s.ctx, flush_pkt := s.flush_pkt } evs).flush_pkt }

/-- Lines 681-697 of `readFrameAudio`, the tests on the packet the pass has
taken from the audio queue: whether the pass ends with `continue`, and
`_stream_finished` and `seek_position_audio` afterwards.  A flush marker makes
the pass read the `pts` of the static `flush_pkt`. -/
def readFrameAudio_marker (flush_pkt _packet : AVPacket) (_stream_finished : Bool)
    (seek_position_audio : Int) : Bool × Bool × Int :=
  if _packet.data = DataPtr.null then (false, true, seek_position_audio)
  else if _packet.data = DataPtr.flush_pkt then (true, _stream_finished, flush_pkt.pts)
  else (false, _stream_finished, seek_position_audio)

/-! ## VideoContext::initDecodeAudioData (lines 535-649) -/

/-- `AV_CH_LAYOUT_MONO` of libavutil: `AV_CH_FRONT_CENTER`. -/
def AV_CH_LAYOUT_MONO : Int := 4

/-- `AV_CH_LAYOUT_STEREO` of libavutil: `AV_CH_FRONT_LEFT | AV_CH_FRONT_RIGHT`. -/
def AV_CH_LAYOUT_STEREO : Int := 3

/-- The constants of namespace `audio` that `initDecodeAudioData` uses.  Their
declarations are not among the sources, so they are parameters of the model. -/
structure AudioConstants where
  num_buffers : Int
  outChannelLayout : Int
  outFormat : AVSampleFormat
  outFrequency : Int
  outChannels : Int
  blockSize : Int
  deriving DecidableEq, Repr

/-- What the library hands back to `initDecodeAudioData`: whether `swr_alloc`
returns a context, and the values `swr_init`, `av_rescale_rnd` and
`av_samples_alloc_array_and_samples` return. -/
structure AudioInitInput where
  swr_alloc : Bool := true
  swr_init : Int := 0
  av_rescale_rnd : Int := 0
  av_samples_alloc_array_and_samples : Int := 0
  deriving DecidableEq, Repr

/-- The library calls of `initDecodeAudioData`; `av_opt_set` stands for the six
option calls of lines 628-633, with the values they set. -/
inductive AudioInitCall where
  | alGenBuffers (n : Int) : AudioInitCall
  | alGenSources : AudioInitCall
  | swr_alloc : AudioInitCall
  | av_opt_set (in_channel_layout in_sample_rate : Int) (in_sample_fmt : AVSampleFormat)
      (out_channel_layout out_sample_rate : Int) (out_sample_fmt : AVSampleFormat) : AudioInitCall
  | swr_init : AudioInitCall
  | av_rescale_rnd (a b c : Int) : AudioInitCall
  | av_samples_alloc_array_and_samples (nb_channels nb_samples : Int)
      (sample_fmt : AVSampleFormat) : AudioInitCall
  deriving DecidableEq, Repr

namespace VideoContext

/-- Lines 555-618 of `initDecodeAudioData`: the layout, the channels and the
rate of the codec context, the layout taken from the number of channels when
none is set, the buffer format and the sample size of the formats that are
copied directly, and `sampleSize_ = -1` for every other format and for every
rate other than 44100 and 48000. -/
def initDecodeAudioData_native (d : AudioData) (a : AVStream) : AudioData :=
  let d0 : AudioData :=
    { d with layout_ := a.codec_channel_layout, channels_ := a.codec_channels,
             freq_ := a.codec_sample_rate }
  let d1 : AudioData :=
    if d0.layout_ = 0 ∧ d0.channels_ > 0 then
      if d0.channels_ = 1 then { d0 with layout_ := AV_CH_LAYOUT_MONO }
      else { d0 with layout_ := AV_CH_LAYOUT_STEREO }
    else d0
  let d2 : AudioData :=
    if d1.layout_ = AV_CH_LAYOUT_MONO then
      match a.codec_sample_fmt with
      | AVSampleFormat.AV_SAMPLE_FMT_U8 =>
        { d1 with fmt_ := ALFormat.AL_FORMAT_MONO8, sampleSize_ := 1 }
      | AVSampleFormat.AV_SAMPLE_FMT_U8P =>
        { d1 with fmt_ := ALFormat.AL_FORMAT_MONO8, sampleSize_ := 1 }
      | AVSampleFormat.AV_SAMPLE_FMT_S16 =>
        { d1 with fmt_ := ALFormat.AL_FORMAT_MONO16, sampleSize_ := 2 }
      | AVSampleFormat.AV_SAMPLE_FMT_S16P =>
        { d1 with fmt_ := ALFormat.AL_FORMAT_MONO16, sampleSize_ := 2 }
      | _ => { d1 with sampleSize_ := -1 }
    else if d1.layout_ = AV_CH_LAYOUT_STEREO then
      match a.codec_sample_fmt with
      | AVSampleFormat.AV_SAMPLE_FMT_U8 =>
        { d1 with fmt_ := ALFormat.AL_FORMAT_STEREO8, sampleSize_ := 2 }
      | AVSampleFormat.AV_SAMPLE_FMT_S16 =>
        { d1 with fmt_ := ALFormat.AL_FORMAT_STEREO16, sampleSize_ := 2 * 2 }
      | _ => { d1 with sampleSize_ := -1 }
    else { d1 with sampleSize_ := -1 }
  if d2.freq_ ≠ 44100 ∧ d2.freq_ ≠ 48000 then { d2 with sampleSize_ := -1 } else d2

/-- `VideoContext::initDecodeAudioData`: the returned flag, the context
afterwards and the library calls made, in order.  The division of line 641 is
the truncating division of C. -/
def initDecodeAudioData (ctx : VideoContext) (audio : AudioConstants) (i : AudioInitInput) :
    Bool × VideoContext × List AudioInitCall :=
  match ctx.audioStream_ with
  | none => (true, ctx, [])
  | some a =>
    let d3 : AudioData := initDecodeAudioData_native ctx.audioData_ a
    let calls0 : List AudioInitCall :=
      [AudioInitCall.alGenBuffers audio.num_buffers, AudioInitCall.alGenSources]
    if d3.sampleSize_ < 0 then
      let d4 : AudioData := { d3 with swrContext_ := i.swr_alloc }
      if !i.swr_alloc then
        (false, { ctx with audioData_ := d4 }, calls0 ++ [AudioInitCall.swr_alloc])
      else
        let d5 : AudioData :=
          { d4 with
            srcRate_ := d4.freq_
            dstRate_ := if d4.freq_ ≠ 44100 ∧ d4.freq_ ≠ 48000 then audio.outFrequency
                        else d4.freq_ }
        let calls1 : List AudioInitCall :=
          calls0 ++
            [AudioInitCall.swr_alloc,
             AudioInitCall.av_opt_set d5.layout_ d5.srcRate_ a.codec_sample_fmt
               audio.outChannelLayout d5.dstRate_ audio.outFormat,
             AudioInitCall.swr_init]
        if i.swr_init < 0 then (false, { ctx with audioData_ := d5 }, calls1)
        else
          let d6 : AudioData :=
            { d5 with sampleSize_ := wrap32 (audio.outChannels * 2), freq_ := d5.dstRate_,
                      fmt_ := ALFormat.AL_FORMAT_STEREO16 }
          let d7 : AudioData := { d6 with maxResampleSamples_ := i.av_rescale_rnd }
          let calls2 : List AudioInitCall :=
            calls1 ++
              [AudioInitCall.av_rescale_rnd (Int.tdiv audio.blockSize d6.sampleSize_)
                 d6.dstRate_ d6.srcRate_,
               AudioInitCall.av_samples_alloc_array_and_samples audio.outChannels
                 d7.maxResampleSamples_ audio.outFormat]
          if i.av_samples_alloc_array_and_samples < 0 then
            (false, { ctx with audioData_ := d7 }, calls2)
          else (true, { ctx with audioData_ := d7 }, calls2)
    else (true, { ctx with audioData_ := d3 }, calls0)

end VideoContext

/-! ## FFMpegPlayer: the frame timer and the transport calls (lines 1727-1916) -/

/-- The conversion of a `double` to an integer type of C++: truncation toward
zero.  Converting a value outside the range of the target type is undefined
behaviour and outside the model. -/
def double_to_int (x : ℚ) : Int := if 0 ≤ x then ⌊x⌋ else ⌈x⌉

/-- `VideoContext::resetFrameTimer`; `av_gettime` is the value the call
`ffmpeg::av_gettime()` returns. -/
def VideoContext.resetFrameTimer (ctx : VideoContext) (av_gettime : Int) : VideoContext :=
  { ctx with frameTimer_ := double.ofInt av_gettime / double.literal 1000000 }

/-- `VideoContext::getDuration`. -/
def VideoContext.getDuration (ctx : VideoContext) : Int := ctx.duration_

/-- `VideoContext::postDemuxThreadMessage`. -/
def VideoContext.postDemuxThreadMessage (ctx : VideoContext) (_message : ThreadMessage) :
    VideoContext :=
  { ctx with demuxThreadMessageQueue_ := ctx.demuxThreadMessageQueue_.pushMessage _message }

/-- `VideoContext::postVideoThreadMessage`. -/
def VideoContext.postVideoThreadMessage (ctx : VideoContext) (_message : ThreadMessage) :
    VideoContext :=
  { ctx with videoThreadMessagesQueue_ := ctx.videoThreadMessagesQueue_.pushMessage _message }

/-- `VideoContext::postAudioThreadMessage`. -/
def VideoContext.postAudioThreadMessage (ctx : VideoContext) (_message : ThreadMessage) :
    VideoContext :=
  { ctx with audioThreadMessageQueue_ := ctx.audioThreadMessageQueue_.pushMessage _message }

/-- Modelled from the spec: `DecodedFrame` is declared in `FFMpegPlayer.h`, which
is not among the sources.  From its uses (lines 1729-1804, 1844-1853) it holds
the image, the pts and the end-of-stream flag of a decoded frame;
`DecodedFrame(_image, _pts)` is a frame that is not the end of the stream and
`DecodedFrame(_eof)` carries the flag alone (its image and its pts are never
read). -/
structure DecodedFrame where
  image_ : QImage := QImage.null
  pts_ : double := 0
  eof_ : Bool := false
  deriving DecidableEq, Repr

/-- The signals the player emits and the calls it makes on its timer, its
renderer and its threads. -/
inductive PlayerSignal where
  | positionChanged (_position : Int) : PlayerSignal
  | mediaFinished : PlayerSignal
  | durationChanged (_duration : Int) : PlayerSignal
  | timer_stop : PlayerSignal
  | timer_setInterval (msec : Int) : PlayerSignal
  | timer_start (msec : Int) : PlayerSignal
  | renderer_updateFrame (_image : QImage) : PlayerSignal
  | renderer_redraw : PlayerSignal
  | demuxThread_start : PlayerSignal
  | audioDecodeThread_start : PlayerSignal
  | videoDecodeThread_start : PlayerSignal
  deriving DecidableEq, Repr

/-- The data members of `FFMpegPlayer` that the transport calls and the timer
use, with the values of the constructor (lines 1669-1671) and the context. -/
structure FFMpegPlayer where
  ctx : VideoContext := {}
  state_ : decode_thread_state := decode_thread_state.dts_none
  isFirstFrame_ : Bool := true
  lastVideoPosition_ : Int := 0
  decodedFrames_ : List DecodedFrame := []
  firstFrame_ : Option DecodedFrame := none
  deriving DecidableEq, Repr

namespace FFMpegPlayer

/-- `FFMpegPlayer::updateVideoPosition`. -/
def updateVideoPosition (p : FFMpegPlayer) (_frame : DecodedFrame) :
    FFMpegPlayer × List PlayerSignal :=
  if _frame.eof_ then
    ({ p with lastVideoPosition_ := 0 }, [PlayerSignal.positionChanged p.ctx.getDuration])
  else
    ({ p with lastVideoPosition_ := double.toInt 64 (_frame.pts_ * double.ofInt 1000) },
     [PlayerSignal.positionChanged (double.toInt 64 (_frame.pts_ * double.ofInt 1000))])

/-- `FFMpegPlayer::onTimer`: the player afterwards and what it emits, in order.
`now_reset` and `now_delay` are the values `av_gettime()` returns in
`resetFrameTimer` and in `computeDelay`, when the tick calls them. -/
def onTimer (p : FFMpegPlayer) (now_reset now_delay : Int) : FFMpegPlayer × List PlayerSignal :=
  let p1 : FFMpegPlayer :=
    if p.isFirstFrame_ then
      { p with isFirstFrame_ := false, ctx := p.ctx.resetFrameTimer now_reset }
    else p
  if p1.ctx.isQuit then (p1, [PlayerSignal.timer_stop])
  else if p1.state_ ≠ decode_thread_state.dts_playing then (p1, [])
  else
    match p1.decodedFrames_ with
    | [] =>
      ({ p1 with ctx := p1.ctx.postVideoThreadMessage
                   { message_ := thread_message_type.tmt_get_next_video_frame } },
       [PlayerSignal.timer_setInterval 100])
    | frame :: rest =>
      let u : FFMpegPlayer × List PlayerSignal := updateVideoPosition p1 frame
      if frame.eof_ then
        ({ u.1 with decodedFrames_ := rest, state_ := decode_thread_state.dts_end_of_media },
         u.2 ++ [PlayerSignal.timer_stop, PlayerSignal.mediaFinished] ++
           (match u.1.firstFrame_ with
            | some f => [PlayerSignal.renderer_updateFrame f.image_]
            | none => []) ++
           [PlayerSignal.renderer_redraw])
      else
        let ctx1 : VideoContext :=
          u.1.ctx.postVideoThreadMessage
            { message_ := thread_message_type.tmt_get_next_video_frame }
        let d : double × VideoContext := ctx1.computeDelay frame.pts_ now_delay
        ({ u.1 with ctx := d.2, decodedFrames_ := rest },
         u.2 ++ [PlayerSignal.renderer_updateFrame frame.image_,
                 PlayerSignal.timer_setInterval
                   (double.toInt 32 (d.1 * double.literal 1000 + double.literal (1 / 2))),
                 PlayerSignal.renderer_redraw])

/-- `FFMpegPlayer::setPosition`; `(int32_t) _position` is the reduction to the
`int32_t` range. -/
def setPosition (p : FFMpegPlayer) (_position : Int) (av_gettime : Int) : FFMpegPlayer :=
  let msg : ThreadMessage :=
    { message_ := thread_message_type.tmt_seek_position, x_ := wrap32 _position }
  { p with
    ctx := (((p.ctx.postDemuxThreadMessage msg).postVideoThreadMessage msg).postAudioThreadMessage
             msg).resetFrameTimer av_gettime
    lastVideoPosition_ := _position }

/-- The three `tmt_play` posts of lines 1864-1866 and 1874-1876. -/
def postAll (ctx : VideoContext) (m : thread_message_type) : VideoContext :=
  ((ctx.postDemuxThreadMessage { message_ := m }).postVideoThreadMessage
    { message_ := m }).postAudioThreadMessage { message_ := m }

/-- `FFMpegPlayer::play`; `now_seek` and `now` are the values `av_gettime()`
returns in the `resetFrameTimer` of `setPosition` and in that of `play`. -/
def play (p : FFMpegPlayer) (now_seek now : Int) : FFMpegPlayer × List PlayerSignal :=
  let r : FFMpegPlayer × List PlayerSignal :=
    if p.state_ = decode_thread_state.dts_none then
      ({ p with ctx := (p.ctx.postVideoThreadMessage
                  { message_ := thread_message_type.tmt_get_next_video_frame }).resetFrameTimer now },
       [PlayerSignal.demuxThread_start])
    else if p.state_ = decode_thread_state.dts_paused then
      ({ p with ctx := (postAll p.ctx thread_message_type.tmt_play).resetFrameTimer now }, [])
    else if p.state_ = decode_thread_state.dts_end_of_media then
      let p1 : FFMpegPlayer := p.setPosition 0 now_seek
      ({ p1 with ctx := (postAll p1.ctx thread_message_type.tmt_play).resetFrameTimer now
                 state_ := decode_thread_state.dts_playing },
       [PlayerSignal.timer_start 0])
    else (p, [])
  ({ r.1 with state_ := decode_thread_state.dts_playing }, r.2)

/-- `FFMpegPlayer::pause`; `canPause` is the value `canPause()` returns. -/
def pause (p : FFMpegPlayer) (canPause : Bool) : FFMpegPlayer :=
  if p.state_ = decode_thread_state.dts_playing ∧ canPause = true then
    { p with ctx := postAll p.ctx thread_message_type.tmt_pause
             state_ := decode_thread_state.dts_paused }
  else p

/-- The slot connected to `nextframeReady` (lines 1840-1856). -/
def nextframeReady (p : FFMpegPlayer) (_image : QImage) (_pts : double) (_eof : Bool) :
    FFMpegPlayer :=
  if !_eof then
    { p with
      decodedFrames_ := p.decodedFrames_ ++ [{ image_ := _image, pts_ := _pts }]
      firstFrame_ := match p.firstFrame_ with
                     | some f => some f
                     | none => some { image_ := _image, pts_ := _pts } }
  else { p with decodedFrames_ := p.decodedFrames_ ++ [{ eof_ := _eof }] }

end FFMpegPlayer

/-- The calls on the player object, all made in its own thread: a tick of the
timer, the transport calls, the two slots connected in `play`, and the quit flag
set by `stop`. -/
inductive PlayerCall where
  | onTimer (now_reset now_delay : Int) : PlayerCall
  | play (now_seek now : Int) : PlayerCall
  | pause (canPause : Bool) : PlayerCall
  | setPosition (_position av_gettime : Int) : PlayerCall
  | nextframeReady (_image : QImage) (_pts : double) (_eof : Bool) : PlayerCall
  | dataReady : PlayerCall
  | setQuit : PlayerCall
  deriving DecidableEq, Repr

/-- Whether a call is `play`. -/
def PlayerCall.isPlay : PlayerCall → Bool
  | PlayerCall.play _ _ => true
  | _ => false

namespace FFMpegPlayer

/-- The player after one call and what it emits. -/
def call (p : FFMpegPlayer) : PlayerCall → FFMpegPlayer × List PlayerSignal
  | PlayerCall.onTimer a b => p.onTimer a b
  | PlayerCall.play a b => p.play a b
  | PlayerCall.pause c => (p.pause c, [])
  | PlayerCall.setPosition x t => (p.setPosition x t, [])
  | PlayerCall.nextframeReady i t e => (p.nextframeReady i t e, [])
  | PlayerCall.dataReady =>
    (p, [PlayerSignal.durationChanged p.ctx.getDuration, PlayerSignal.audioDecodeThread_start,
         PlayerSignal.videoDecodeThread_start, PlayerSignal.timer_start 100])
  | PlayerCall.setQuit => ({ p with ctx := p.ctx.setQuit true }, [])

/-- The player after a sequence of calls, and everything emitted, in order. -/
def run (p : FFMpegPlayer) : List PlayerCall → FFMpegPlayer × List PlayerSignal
  | [] => (p, [])
  | c :: cs => ((run (p.call c).1 cs).1, (p.call c).2 ++ (run (p.call c).1 cs).2)

end FFMpegPlayer

/-! ## The scaled size (lines 16-17, 912-949, 1255-1269) -/

/-- The `max_video_w` of line 16. -/
def max_video_w : Int := 1280

/-- The `max_video_h` of line 17. -/
def max_video_h : Int := 720

/-- The value of IEEE 754 binary64 nearest to the positive rational `n / d`,
ties to even: with `2^E ≤ n / d < 2^(E+1)` it is `m * 2^(E-52)`, `m` the integer
nearest to `n / d / 2^(E-52)`.  The model covers `n, d < 2^2048`; exponents
beyond those of the normal numbers of binary64 (`-1022 ≤ E ≤ 1023`) are outside
it. -/
def toDouble_pos (n d : Nat) : ℚ :=
  let k : Int := (ilog2 2048 n : Int) - (ilog2 2048 d : Int)
  let E : Int := if d * 2 ^ k.toNat ≤ n * 2 ^ (-k).toNat then k else k - 1
  let e : Int := E - 52
  let m : Nat := roundHalfEven (n * 2 ^ (-e).toNat) (d * 2 ^ e.toNat)
  ((m * 2 ^ e.toNat : Nat) : ℚ) / ((2 ^ (-e).toNat : Nat) : ℚ)

/-- The rounding of a real result to `double`, as every arithmetic operation of
IEEE 754 binary64 does it (to nearest, ties to even). -/
def toDouble (q : ℚ) : ℚ :=
  if q = 0 then 0
  else if 0 < q then toDouble_pos q.num.natAbs q.den
  else -toDouble_pos q.num.natAbs q.den

/-- A `QSize`; the default is the size `QSize()` constructs. -/
structure QSize where
  width : Int := -1
  height : Int := -1
  deriving DecidableEq, Repr

namespace VideoContext

/-- `VideoContext::getWidth`. -/
def getWidth (ctx : VideoContext) : Int := ctx.width_

/-- `VideoContext::getHeight`. -/
def getHeight (ctx : VideoContext) : Int := ctx.height_

/-- The size `VideoContext::updateScaleContext` stores in `scaledSize_` (lines
916-931).  The conversions of `int32_t` to `double` are exact; the division and
the multiplication round to `double`; `(int32_t)` and the conversion to the
`int` parameter of `setHeight` truncate. -/
def updateScaleContext_size (ctx : VideoContext) (_width _height : Int) : QSize :=
  let w : Int :=
    double_to_int (toDouble (toDouble ((ctx.getWidth : ℚ) / (ctx.getHeight : ℚ)) * (_height : ℚ)))
  if w > _width then
    { width := _width
      height :=
        double_to_int
          (toDouble (toDouble ((ctx.getHeight : ℚ) / (ctx.getWidth : ℚ)) * (_width : ℚ))) }
  else { width := w, height := _height }

/-- `VideoContext::updateScaleContext`: the returned flag and the new value of
`scaledSize_`; `sws_getCachedContext` tells whether that call returns a
context. -/
def updateScaleContext (ctx : VideoContext) (_width _height : Int) (sws_getCachedContext : Bool) :
    Bool × QSize :=
  (sws_getCachedContext, ctx.updateScaleContext_size _width _height)

end VideoContext

/-- The size `VideoDecodeThread::run` asks `updateScaleContext` for (lines
1255-1267). -/
def VideoDecodeThread.requestedSize (ctx : VideoContext) : QSize :=
  let w : Int := max ctx.getWidth ctx.getHeight
  let h : Int := min ctx.getWidth ctx.getHeight
  if w > max_video_w ∨ h > max_video_h then
    { width := if ctx.getWidth > ctx.getHeight then 1280 else 720
      height := if ctx.getWidth > ctx.getHeight then 720 else 1280 }
  else { width := ctx.getWidth, height := ctx.getHeight }

/-- The scaled size the video thread sets up before its loop (line 1269). -/
def VideoDecodeThread.scaledSize (ctx : VideoContext) : QSize :=
  ctx.updateScaleContext_size (VideoDecodeThread.requestedSize ctx).width
    (VideoDecodeThread.requestedSize ctx).height

/-! ## Predicates used in the statements -/

/-- The two counters of a queue agree with its list, as `int32_t` values. -/
def PacketQueue.Consistent (q : PacketQueue) : Prop :=
  q.size_ = wrap32 (sizeSum q.list_) ∧ q.packets_ = wrap32 (q.list_.length : Int)

/-- The skip-until-target property as stated for one seek: every frame that
`getNextVideoFrame` returns during the steps `evs` that follow the seek has a
`pkt_dts` of at least the resolved video target. -/
def SkipUntilTarget (t : VideoStepState) (res tsv tsa : Int) (evs : List VideoStep) : Prop :=
  ∀ f ∈ t.returned (VideoStep.seekFrame res tsv tsa :: evs),
    wrap64 (t.s.ctx.startTimeVideo_ + tsv) ≤ f.pkt_dts

/-- The largest packet size for which the `int32_t` byte counters of the queues
cannot overflow behind the gate: `INT32_MAX - maxQueueSize`. -/
def maxPacketSize : Int := 2147483647 - maxQueueSize

/-- The packet a pass of the demux loop reads has a size between 0 and
`maxPacketSize`. -/
def PlayerEvent.sizeOk : PlayerEvent → Prop
  | PlayerEvent.demux i => 0 ≤ i.packet.size ∧ i.packet.size ≤ maxPacketSize
  | _ => True

/-- An event that keeps the eof flag of the demux thread set: no pass with a
successful read and no seek message. -/
def PlayerEvent.keepsEof : PlayerEvent → Prop
  | PlayerEvent.demux i => i.av_read_frame < 0
  | PlayerEvent.post m => m.message_ ≠ thread_message_type.tmt_seek_position
  | _ => True

/-- The invariant behind the memory bound, for the two packet queues, the static
`flush_pkt` and the packets pushed so far: the counters of both queues agree
with their lists, no held packet has a negative size, the bytes held are at most
`maxQueueSize` plus the size of the most recently pushed packet, that size is
between 0 and `maxPacketSize`, and `flush_pkt` has size 0. -/
def MemoryInv (v a : PacketQueue) (flush_pkt : AVPacket) (ps : List AVPacket) : Prop :=
  v.Consistent ∧ a.Consistent ∧ (∀ x ∈ v.list_, 0 ≤ x.size) ∧ (∀ x ∈ a.list_, 0 ≤ x.size) ∧
  sizeSum v.list_ + sizeSum a.list_ ≤ maxQueueSize + lastPushedSize ps ∧
  0 ≤ lastPushedSize ps ∧ lastPushedSize ps ≤ maxPacketSize ∧ flush_pkt.size = 0

/-- The eof flag of the demux thread is set, no seek is pending and no seek
message waits in the queue of the demux thread. -/
def EofHeld (p : PlayerState) : Prop :=
  p.d.locals.eof = true ∧ p.d.locals.seekPosition < 0 ∧
  ∀ m ∈ p.d.ctx.demuxThreadMessageQueue_.messages_,
    m.message_ ≠ thread_message_type.tmt_seek_position

/-- The memory invariant holds of the two packet queues, the static `flush_pkt`
and the packets the demux thread has pushed so far. -/
def PlayerState.Bounded (p : PlayerState) : Prop :=
  MemoryInv p.d.ctx.videoQueue_ p.d.ctx.audioQueue_ p.d.flush_pkt (packetsPushed p.effects)

/-- A push of the demux thread queues a data packet or a null packet, not the
static `flush_pkt`. -/
def QueueEvent.pushesData : QueueEvent → Prop
  | QueueEvent.pushVideoPacket (some p) => p.data ≠ DataPtr.flush_pkt
  | QueueEvent.pushAudioPacket (some p) => p.data ≠ DataPtr.flush_pkt
  | _ => True

/-- No packet of a list after its first is a flush marker, and a first packet
that is a flush marker is a copy of the static `flush_pkt`. -/
def MarkerFirst (l : List AVPacket) (flush_pkt : AVPacket) : Prop :=
  (∀ m ∈ l.tail, m.isFlush = false) ∧ (∀ m ∈ l.head?, m.isFlush = true → m = flush_pkt)

/-- The layout `initDecodeAudioData` works with: that of the codec context, or,
when none is set there and the stream has channels, mono for one channel and
stereo for more (lines 560-566). -/
def AVStream.audioLayout (a : AVStream) : Int :=
  if a.codec_channel_layout = 0 ∧ a.codec_channels > 0 then
    if a.codec_channels = 1 then AV_CH_LAYOUT_MONO else AV_CH_LAYOUT_STEREO
  else a.codec_channel_layout

/-- The streams whose samples are copied directly: rate 44100 or 48000, and
mono with `U8`, `U8P`, `S16` or `S16P` samples or stereo with packed `U8` or
`S16` samples. -/
def AVStream.directCopy (a : AVStream) : Prop :=
  (a.codec_sample_rate = 44100 ∨ a.codec_sample_rate = 48000) ∧
  ((a.audioLayout = AV_CH_LAYOUT_MONO ∧
      (a.codec_sample_fmt = AVSampleFormat.AV_SAMPLE_FMT_U8 ∨
       a.codec_sample_fmt = AVSampleFormat.AV_SAMPLE_FMT_U8P ∨
       a.codec_sample_fmt = AVSampleFormat.AV_SAMPLE_FMT_S16 ∨
       a.codec_sample_fmt = AVSampleFormat.AV_SAMPLE_FMT_S16P)) ∨
   (a.audioLayout = AV_CH_LAYOUT_STEREO ∧
      (a.codec_sample_fmt = AVSampleFormat.AV_SAMPLE_FMT_U8 ∨
       a.codec_sample_fmt = AVSampleFormat.AV_SAMPLE_FMT_S16)))

instance (a : AVStream) : Decidable a.directCopy := by
  unfold AVStream.directCopy; infer_instance

/-- A scaled size keeps the aspect ratio of the source up to integer
truncation: `|w * H - h * W| < max(W, H)`. -/
def KeepsAspect (ctx : VideoContext) (s : QSize) : Prop :=
  |s.width * ctx.getHeight - s.height * ctx.getWidth| < max ctx.getWidth ctx.getHeight

/-- A scaled size fits the bound: the longer edge is at most `max_video_w`, the
shorter at most `max_video_h`, and neither edge exceeds the requested one. -/
def FitsBound (requested s : QSize) : Prop :=
  max s.width s.height ≤ max_video_w ∧ min s.width s.height ≤ max_video_h ∧
  s.width ≤ requested.width ∧ s.height ≤ requested.height

instance (ctx : VideoContext) (s : QSize) : Decidable (KeepsAspect ctx s) := by
  unfold KeepsAspect; infer_instance

instance (r s : QSize) : Decidable (FitsBound r s) := by
  unfold FitsBound; infer_instance

/-- The delay `computeDelay` uses: the difference `pts - frameLastPts`, computed
in `double`, when it is strictly between 0 and 1.0 or a NaN, and the previous
`frameLastDelay` otherwise. -/
def VideoContext.chosenDelay (ctx : VideoContext) (pts : double) : double :=
  if (double.lt (double.literal 0) (pts - ctx.frameLastPts_) = true ∧
        (pts - ctx.frameLastPts_).lt (double.literal 1) = true) ∨
      pts - ctx.frameLastPts_ = double.nan
  then pts - ctx.frameLastPts_ else ctx.frameLastDelay_

/-- The wall clock in seconds as `computeDelay` computes it:
`av_gettime() / 1000000.0`. -/
def wallClockSeconds (av_gettime : Int) : double :=
  double.ofInt av_gettime / double.literal 1000000

/-- The gain of every volume from 0 to 100 is a finite number within 2^-25 of
volume/100. -/
def gainNear (v : Nat) : Bool :=
  match double.toFloat (double.floatOfInt (v : Int) / double.literal 100) with
  | double.finite g => decide (|g - ((v : Int) : ℚ) / 100| ≤ 1 / 33554432)
  | _ => false

/-- The rational `x` is a number of the binary floating-point format with `p`
bits of precision, least exponent `emin` and overflow threshold `2^emax`: its
magnitude is `m * 2^e` with `m ≤ 2^p` and `e ≥ emin`, and is below `2^emax`. -/
def IsBinary (p : Nat) (emin : Int) (emax : Nat) (x : ℚ) : Prop :=
  ∃ (m : Nat) (e : Int), emin ≤ e ∧ m ≤ 2 ^ p ∧ |x| = (m : ℚ) * (2 : ℚ) ^ e ∧
    |x| < ((2 ^ emax : Nat) : ℚ)

/-- The volume of the last set-volume message of a sequence, `v0` when there is
none. -/
def latestVolume (v0 : Int) (msgs : List ThreadMessage) : Int :=
  msgs.foldl
    (fun v m => if m.message_ = thread_message_type.tmt_set_volume then m.x_ else v) v0

/-- The mute value of the last set-mute message of a sequence, `m0` when there
is none. -/
def latestMute (m0 : Bool) (msgs : List ThreadMessage) : Bool :=
  msgs.foldl
    (fun b m => if m.message_ = thread_message_type.tmt_set_mute then decide (m.x_ ≠ 0) else b)
    m0

/-! ## Lemmas on machine integers and on sums of sizes -/

theorem wrap32_add_wrap32 (a b : Int) : wrap32 (wrap32 a + b) = wrap32 (a + b) := by
  unfold wrap32; omega

theorem wrap32_sub_wrap32 (a b : Int) : wrap32 (wrap32 a - b) = wrap32 (a - b) := by
  unfold wrap32; omega

theorem wrap32_of_inInt32 (x : Int) (h : inInt32 x) : wrap32 x = x := by
  unfold inInt32 at h; unfold wrap32; omega

theorem wrap32_zero : wrap32 0 = 0 := by decide

theorem sizeSum_nil : sizeSum [] = 0 := rfl

theorem sizeSum_cons (p : AVPacket) (ps : List AVPacket) :
    sizeSum (p :: ps) = p.size + sizeSum ps := by
  simp [sizeSum]

theorem sizeSum_append_singleton (ps : List AVPacket) (p : AVPacket) :
    sizeSum (ps ++ [p]) = sizeSum ps + p.size := by
  simp [sizeSum]

/-! ## PacketQueue: accounting -/

theorem PacketQueue.consistent_new : PacketQueue.new.Consistent := by
  constructor <;> decide

theorem PacketQueue.consistent_push (q : PacketQueue) (p : AVPacket) (h : q.Consistent) :
    (q.push p).Consistent := by
  obtain ⟨hs, hp⟩ := h
  constructor
  · show wrap32 (q.size_ + p.size) = wrap32 (sizeSum (q.list_ ++ [p]))
    rw [hs, wrap32_add_wrap32, sizeSum_append_singleton]
  · show wrap32 (q.packets_ + 1) = wrap32 ((q.list_ ++ [p]).length : Int)
    rw [hp, wrap32_add_wrap32]
    simp

theorem PacketQueue.consistent_get (q : PacketQueue) (out : AVPacket) (h : q.Consistent) :
    (q.get out).2.1.Consistent := by
  obtain ⟨hs, hp⟩ := h
  unfold PacketQueue.get
  cases hl : q.list_ with
  | nil => exact ⟨by rw [hs, hl], by rw [hp, hl]⟩
  | cons front rest =>
    rw [hl] at hs hp
    constructor
    · show wrap32 (q.size_ - front.size) = wrap32 (sizeSum rest)
      rw [hs, wrap32_sub_wrap32, sizeSum_cons]
      congr 1; ring
    · show wrap32 (q.packets_ - 1) = wrap32 (rest.length : Int)
      rw [hp, wrap32_sub_wrap32]
      congr 1; simp

theorem PacketQueue.consistent_free (q : PacketQueue) : q.free.1.Consistent :=
  PacketQueue.consistent_new

theorem PacketQueue.consistent_call (q : PacketQueue) (c : PacketQueueCall)
    (h : q.Consistent) : (q.call c).Consistent := by
  cases c with
  | push p => exact PacketQueue.consistent_push q p h
  | get => exact PacketQueue.consistent_get q {} h
  | free => exact PacketQueue.consistent_free q

theorem PacketQueue.consistent_run (calls : List PacketQueueCall) (q : PacketQueue)
    (h : q.Consistent) : (q.run calls).Consistent := by
  induction calls generalizing q with
  | nil => exact h
  | cons c cs ih => exact ih (q.call c) (PacketQueue.consistent_call q c h)

/-! ## PacketQueue: order of delivery -/

theorem PacketQueue.get_cons (q : PacketQueue) (out front : AVPacket) (rest : List AVPacket)
    (h : q.list_ = front :: rest) :
    q.get out = (true, { list_ := rest, packets_ := wrap32 (q.packets_ - 1),
                         size_ := wrap32 (q.size_ - front.size) }, front) := by
  unfold PacketQueue.get; rw [h]

theorem PacketQueue.get_nil (q : PacketQueue) (out : AVPacket) (h : q.list_ = []) :
    q.get out = (false, q, out) := by
  unfold PacketQueue.get; rw [h]

theorem PacketQueue.delivered_sublist (calls : List PacketQueueCall) (q : PacketQueue) :
    (q.delivered calls).Sublist (q.list_ ++ pushedPackets calls) := by
  induction calls generalizing q with
  | nil => simp [PacketQueue.delivered]
  | cons c cs ih =>
    cases c with
    | push p =>
      have h := ih (q.push p)
      simpa [PacketQueue.delivered, PacketQueue.call, pushedPackets, PacketQueue.push] using h
    | get =>
      cases hl : q.list_ with
      | nil =>
        have h := ih q
        simp only [PacketQueue.delivered, PacketQueue.get_nil q {} hl, pushedPackets]
        rw [hl] at h
        exact h
      | cons front rest =>
        have h := ih { list_ := rest, packets_ := wrap32 (q.packets_ - 1),
                       size_ := wrap32 (q.size_ - front.size) }
        simp only [PacketQueue.delivered, PacketQueue.get_cons q {} front rest hl, pushedPackets]
        simpa using h
    | free =>
      have h := ih q.free.1
      simp only [PacketQueue.delivered, PacketQueue.call, pushedPackets]
      exact h.trans (by simp [PacketQueue.free])

theorem PacketQueue.held_suffix (calls : List PacketQueueCall) (q : PacketQueue) :
    (q.run calls).list_ <:+ q.list_ ++ pushedPackets calls := by
  induction calls generalizing q with
  | nil => simp [PacketQueue.run, pushedPackets]
  | cons c cs ih =>
    cases c with
    | push p =>
      have h := ih (q.push p)
      simpa [PacketQueue.run, PacketQueue.call, pushedPackets, PacketQueue.push] using h
    | get =>
      cases hl : q.list_ with
      | nil =>
        have h := ih q
        simp only [PacketQueue.run, List.foldl_cons, PacketQueue.call,
          PacketQueue.get_nil q {} hl, pushedPackets]
        rw [hl] at h
        exact h
      | cons front rest =>
        have h := ih { list_ := rest, packets_ := wrap32 (q.packets_ - 1),
                       size_ := wrap32 (q.size_ - front.size) }
        simp only [PacketQueue.run, List.foldl_cons, PacketQueue.call,
          PacketQueue.get_cons q {} front rest hl, pushedPackets]
        exact h.trans (List.suffix_cons front _)
    | free =>
      have h := ih q.free.1
      simp only [PacketQueue.run, List.foldl_cons, PacketQueue.call, pushedPackets]
      exact h.trans (by simp [PacketQueue.free, List.suffix_append])

theorem PacketQueue.delivered_append_held (calls : List PacketQueueCall) (q : PacketQueue)
    (h : PacketQueueCall.free ∉ calls) :
    q.delivered calls ++ (q.run calls).list_ = q.list_ ++ pushedPackets calls := by
  induction calls generalizing q with
  | nil => simp [PacketQueue.delivered, PacketQueue.run, pushedPackets]
  | cons c cs ih =>
    have hcs : PacketQueueCall.free ∉ cs := fun hm => h (List.mem_cons_of_mem _ hm)
    cases c with
    | push p =>
      have h1 := ih (q.push p) hcs
      simpa [PacketQueue.delivered, PacketQueue.run, PacketQueue.call, pushedPackets,
        PacketQueue.push] using h1
    | get =>
      cases hl : q.list_ with
      | nil =>
        have h1 := ih q hcs
        simp only [PacketQueue.delivered, PacketQueue.run, List.foldl_cons, PacketQueue.call,
          PacketQueue.get_nil q {} hl, pushedPackets]
        rw [hl] at h1
        exact h1
      | cons front rest =>
        have h1 := ih { list_ := rest, packets_ := wrap32 (q.packets_ - 1),
                        size_ := wrap32 (q.size_ - front.size) } hcs
        simp only [PacketQueue.delivered, PacketQueue.run, List.foldl_cons, PacketQueue.call,
          PacketQueue.get_cons q {} front rest hl, pushedPackets]
        simpa [PacketQueue.run] using h1
    | free => exact absurd (List.mem_cons_self _ _) h

/-! ## ThreadMessagesQueue: order of delivery -/

theorem ThreadMessagesQueue.getMessage_quit (q : ThreadMessagesQueue) (m : ThreadMessage) :
    q.getMessage m true = (false, q, m) := by
  unfold ThreadMessagesQueue.getMessage; rfl

theorem ThreadMessagesQueue.getMessage_nil (q : ThreadMessagesQueue) (m : ThreadMessage)
    (b : Bool) (h : q.messages_ = []) : q.getMessage m b = (false, q, m) := by
  unfold ThreadMessagesQueue.getMessage; rw [h]; cases b <;> rfl

theorem ThreadMessagesQueue.getMessage_cons (q : ThreadMessagesQueue) (m front : ThreadMessage)
    (rest : List ThreadMessage) (h : q.messages_ = front :: rest) :
    q.getMessage m false = (true, { messages_ := rest }, front) := by
  unfold ThreadMessagesQueue.getMessage; rw [h]

theorem ThreadMessagesQueue.received_append_held (calls : List ThreadMessagesQueueCall)
    (q : ThreadMessagesQueue) :
    q.received calls ++ (q.run calls).messages_ = q.messages_ ++ postedMessages calls := by
  induction calls generalizing q with
  | nil => simp [ThreadMessagesQueue.received, ThreadMessagesQueue.run, postedMessages]
  | cons c cs ih =>
    cases c with
    | pushMessage m =>
      have h := ih (q.pushMessage m)
      simpa [ThreadMessagesQueue.received, ThreadMessagesQueue.run, ThreadMessagesQueue.call,
        postedMessages, ThreadMessagesQueue.pushMessage] using h
    | getMessage b =>
      cases b with
      | true =>
        have h := ih q
        simp only [ThreadMessagesQueue.received, ThreadMessagesQueue.run, List.foldl_cons,
          ThreadMessagesQueue.call, ThreadMessagesQueue.getMessage_quit, postedMessages]
        exact h
      | false =>
        cases hl : q.messages_ with
        | nil =>
          have h := ih q
          simp only [ThreadMessagesQueue.received, ThreadMessagesQueue.run, List.foldl_cons,
            ThreadMessagesQueue.call, ThreadMessagesQueue.getMessage_nil q _ false hl,
            postedMessages]
          rw [hl] at h
          exact h
        | cons front rest =>
          have h := ih { messages_ := rest }
          simp only [ThreadMessagesQueue.received, ThreadMessagesQueue.run, List.foldl_cons,
            ThreadMessagesQueue.call, ThreadMessagesQueue.getMessage_cons q _ front rest hl,
            postedMessages]
          simpa [ThreadMessagesQueue.run] using h

/-- C1, as stated, fails: after two pushes of packets of `2^30` bytes each the
queue holds `2^31` bytes, which `getSize()`, an `int32_t`, does not return. -/
theorem PacketQueue_accounting_exact_counterexample :
    ¬ (∀ calls : List PacketQueueCall,
        (PacketQueue.new.run calls).getSize = sizeSum (PacketQueue.new.run calls).list_ ∧
        (PacketQueue.new.run calls).getPackets =
          ((PacketQueue.new.run calls).list_.length : Int)) := by
  intro h
  have h2 := (h [PacketQueueCall.push { data := DataPtr.buffer 1, size := 1073741824 },
    PacketQueueCall.push { data := DataPtr.buffer 2, size := 1073741824 }]).1
  revert h2
  decide

/-- C1 (amended): after every finite sequence of push, get and free calls on a
newly constructed queue, `getSize()` is the sum of the sizes of the packets held
and `getPackets()` their number, both reduced to `int32_t`; each equals the
exact value whenever that value is in the `int32_t` range. -/
theorem PacketQueue_accounting (calls : List PacketQueueCall) :
    (PacketQueue.new.run calls).getSize
        = wrap32 (sizeSum (PacketQueue.new.run calls).list_) ∧
    (PacketQueue.new.run calls).getPackets
        = wrap32 ((PacketQueue.new.run calls).list_.length : Int) ∧
    (inInt32 (sizeSum (PacketQueue.new.run calls).list_) →
      (PacketQueue.new.run calls).getSize = sizeSum (PacketQueue.new.run calls).list_) ∧
    (inInt32 ((PacketQueue.new.run calls).list_.length : Int) →
      (PacketQueue.new.run calls).getPackets
        = ((PacketQueue.new.run calls).list_.length : Int)) := by
  obtain ⟨hs, hp⟩ := PacketQueue.consistent_run calls PacketQueue.new PacketQueue.consistent_new
  refine ⟨hs, hp, fun h => ?_, fun h => ?_⟩
  · exact hs.trans (wrap32_of_inInt32 _ h)
  · exact hp.trans (wrap32_of_inInt32 _ h)

/-- C2: `get` on a non-empty queue returns the front packet, the one pushed
earliest among those held, and removes exactly it; the packets held are always
the tail end of the pushed packets in push order, the packets returned by the
successful gets are pushed packets in push order, and without a `free` in
between they are followed by the packets still held to make up exactly the
pushed sequence. -/
theorem PacketQueue_fifo (calls : List PacketQueueCall) :
    (∀ (q : PacketQueue) (out front : AVPacket) (rest : List AVPacket),
      q.list_ = front :: rest →
        (q.get out).1 = true ∧ (q.get out).2.2 = front ∧ (q.get out).2.1.list_ = rest) ∧
    (PacketQueue.new.run calls).list_ <:+ pushedPackets calls ∧
    (PacketQueue.new.delivered calls).Sublist (pushedPackets calls) ∧
    (PacketQueueCall.free ∉ calls →
      PacketQueue.new.delivered calls ++ (PacketQueue.new.run calls).list_
        = pushedPackets calls) := by
  refine ⟨fun q out front rest h => ?_, ?_, ?_, fun h => ?_⟩
  · rw [PacketQueue.get_cons q out front rest h]
    exact ⟨rfl, rfl, rfl⟩
  · simpa [PacketQueue.new] using PacketQueue.held_suffix calls PacketQueue.new
  · simpa [PacketQueue.new] using PacketQueue.delivered_sublist calls PacketQueue.new
  · simpa [PacketQueue.new] using PacketQueue.delivered_append_held calls PacketQueue.new h

/-- C3: `get` on an empty queue returns false and leaves the queue (contents,
byte-size, packet count) and the caller's output packet unchanged. -/
theorem PacketQueue_get_empty (q : PacketQueue) (out : AVPacket) (h : q.list_ = []) :
    (q.get out).1 = false ∧ (q.get out).2.1 = q ∧ (q.get out).2.2 = out ∧
    (q.get out).2.1.getSize = q.getSize ∧ (q.get out).2.1.getPackets = q.getPackets := by
  rw [PacketQueue.get_nil q out h]
  exact ⟨rfl, rfl, rfl, rfl, rfl⟩

/-- Witness of C3: the newly constructed queue and a caller's packet of 7 bytes. -/
theorem PacketQueue_get_empty_witness :
    PacketQueue.new.list_ = [] ∧
    (PacketQueue.new.get { data := DataPtr.buffer 1, size := 7 }).1 = false ∧
    (PacketQueue.new.get { data := DataPtr.buffer 1, size := 7 }).2.1 = PacketQueue.new ∧
    (PacketQueue.new.get { data := DataPtr.buffer 1, size := 7 }).2.2
      = { data := DataPtr.buffer 1, size := 7 } :=
  ⟨rfl,
   (PacketQueue_get_empty PacketQueue.new { data := DataPtr.buffer 1, size := 7 } rfl).1,
   (PacketQueue_get_empty PacketQueue.new { data := DataPtr.buffer 1, size := 7 } rfl).2.1,
   (PacketQueue_get_empty PacketQueue.new { data := DataPtr.buffer 1, size := 7 } rfl).2.2.1⟩

/-- C4: after `free()` the queue holds no packets, `getSize()` and
`getPackets()` are 0, and the next `get` returns false. -/
theorem PacketQueue_free_resets (q : PacketQueue) (out : AVPacket) :
    q.free.1.list_ = [] ∧ q.free.1.getSize = 0 ∧ q.free.1.getPackets = 0 ∧
    (q.free.1.get out).1 = false :=
  ⟨rfl, rfl, rfl, rfl⟩

/-- C5: for every sequence of `pushMessage` and `getMessage` calls on a newly
constructed queue, the messages returned by the successful `getMessage` calls
followed by the messages still queued are exactly the messages pushed, in push
order; so the returned messages are a prefix of the pushed ones and no message
is dropped or reordered. -/
theorem ThreadMessagesQueue_fifo (calls : List ThreadMessagesQueueCall) :
    ThreadMessagesQueue.new.received calls ++ (ThreadMessagesQueue.new.run calls).messages_
      = postedMessages calls ∧
    ThreadMessagesQueue.new.received calls <+: postedMessages calls := by
  have h := ThreadMessagesQueue.received_append_held calls ThreadMessagesQueue.new
  have h1 : ThreadMessagesQueue.new.received calls
      ++ (ThreadMessagesQueue.new.run calls).messages_ = postedMessages calls := by
    simpa [ThreadMessagesQueue.new] using h
  exact ⟨h1, ⟨_, h1⟩⟩

/-- C6: `getMessage` returns true exactly when, at the end of its wait, the quit
predicate is false and the queue is non-empty, and then it outputs the front
message and removes it; in every other case it returns false and leaves the
queue and the caller's message unchanged, in particular whenever the quit
predicate is true. -/
theorem ThreadMessagesQueue_getMessage_cases (q : ThreadMessagesQueue) (m : ThreadMessage)
    (isQuit : Bool) :
    ((q.getMessage m isQuit).1 = true ↔ (isQuit = false ∧ q.messages_ ≠ [])) ∧
    (∀ (front : ThreadMessage) (rest : List ThreadMessage),
      isQuit = false → q.messages_ = front :: rest →
        q.getMessage m isQuit = (true, { messages_ := rest }, front)) ∧
    ((q.getMessage m isQuit).1 = false → q.getMessage m isQuit = (false, q, m)) ∧
    (isQuit = true → q.getMessage m isQuit = (false, q, m)) := by
  cases isQuit with
  | true =>
    rw [ThreadMessagesQueue.getMessage_quit]
    simp
  | false =>
    cases hl : q.messages_ with
    | nil =>
      rw [ThreadMessagesQueue.getMessage_nil q m false hl]
      simp
    | cons front rest =>
      rw [ThreadMessagesQueue.getMessage_cons q m front rest hl]
      simp

/-! ## Rounding: the nearest value -/

theorem roundHalfEven_near (n d : Nat) (hd : 0 < d) :
    2 * (roundHalfEven n d * d) ≤ 2 * n + d ∧ 2 * n ≤ 2 * (roundHalfEven n d * d) + d := by
  have h := Nat.div_add_mod n d
  have hr := Nat.mod_lt n hd
  have hc : d * (n / d) = n / d * d := Nat.mul_comm _ _
  have h1 : (n / d + 1) * d = n / d * d + d := by ring
  unfold roundHalfEven
  split_ifs <;> (try rw [h1]) <;> omega

theorem ilog2_spec (fuel n : Nat) (hn : 0 < n) (hf : n < 2 ^ (fuel + 1)) :
    2 ^ ilog2 fuel n ≤ n ∧ n < 2 ^ (ilog2 fuel n + 1) := by
  induction fuel generalizing n with
  | zero =>
    simp only [ilog2]
    omega
  | succ f ih =>
    unfold ilog2
    by_cases h2 : n < 2
    · rw [if_pos h2]
      omega
    · rw [if_neg h2]
      have hf2 : n / 2 < 2 ^ (f + 1) := by
        have : 2 ^ (f + 1 + 1) = 2 * 2 ^ (f + 1) := by ring
        omega
      obtain ⟨h3, h4⟩ := ih (n / 2) (by omega) hf2
      have e1 : 2 ^ (ilog2 f (n / 2) + 1) = 2 * 2 ^ ilog2 f (n / 2) := by ring
      have e2 : 2 ^ (ilog2 f (n / 2) + 1 + 1) = 2 * 2 ^ (ilog2 f (n / 2) + 1) := by ring
      constructor <;> omega

theorem ilog2_self (n : Nat) (hn : 0 < n) :
    2 ^ ilog2 n n ≤ n ∧ n < 2 ^ (ilog2 n n + 1) := by
  have h1 : n < 2 ^ n := Nat.lt_two_pow n
  have h2 : 2 ^ (n + 1) = 2 * 2 ^ n := by ring
  exact ilog2_spec n n hn (by omega)

theorem zpow_two_split (e : Int) :
    ((2 ^ e.toNat : Nat) : ℚ) / ((2 ^ (-e).toNat : Nat) : ℚ) = (2 : ℚ) ^ e := by
  rcases le_total 0 e with h | h
  · obtain ⟨k, rfl⟩ := Int.eq_ofNat_of_zero_le h
    rw [Int.toNat_natCast, Int.toNat_neg_nat, pow_zero, Nat.cast_one, div_one, zpow_natCast]
    push_cast
    rfl
  · obtain ⟨k, rfl⟩ : ∃ k : Nat, e = -(k : Int) := ⟨(-e).toNat, by omega⟩
    rw [neg_neg, Int.toNat_natCast, Int.toNat_neg_nat, pow_zero, Nat.cast_one, zpow_neg,
      zpow_natCast]
    push_cast
    rw [one_div]

theorem binaryExponent_le (n d : Nat) (hn : 0 < n) (hd : 0 < d) :
    (2 : ℚ) ^ binaryExponent n d ≤ (n : ℚ) / (d : ℚ) := by
  obtain ⟨ha, _⟩ := ilog2_self n hn
  obtain ⟨_, hb⟩ := ilog2_self d hd
  have hdq : (0 : ℚ) < (d : ℚ) := by exact_mod_cast hd
  unfold binaryExponent
  dsimp only
  split_ifs with h
  · rw [← zpow_two_split]
    have hN : (0 : ℚ) < ((2 ^ (-((ilog2 n n : Int) - (ilog2 d d : Int))).toNat : Nat) : ℚ) := by
      exact_mod_cast Nat.pos_of_ne_zero (by positivity)
    rw [div_le_div_iff₀ hN hdq]
    have hq : ((d * 2 ^ ((ilog2 n n : Int) - (ilog2 d d : Int)).toNat : Nat) : ℚ)
        ≤ ((n * 2 ^ (-((ilog2 n n : Int) - (ilog2 d d : Int))).toNat : Nat) : ℚ) := by
      exact_mod_cast h
    push_cast at hq ⊢
    linarith
  · have e1 : ((ilog2 n n : Int) - (ilog2 d d : Int) - 1)
        = (ilog2 n n : Int) - ((ilog2 d d + 1 : Nat) : Int) := by push_cast; ring
    rw [e1, zpow_sub₀ (by norm_num : (2 : ℚ) ≠ 0), zpow_natCast, zpow_natCast]
    have h1 : ((2 : ℚ) ^ ilog2 n n) ≤ (n : ℚ) := by exact_mod_cast ha
    have h2 : (d : ℚ) ≤ (2 : ℚ) ^ (ilog2 d d + 1) := by exact_mod_cast le_of_lt hb
    exact div_le_div₀ (by positivity) h1 hdq h2

/-- The rounded value is within half a unit of the last place of the exact one:
within `2^emin / 2` in the subnormal range and within `(n / d) / 2^p` above
it. -/
theorem roundBinary_pos_error (p : Nat) (emin : Int) (emax : Nat) (n d : Nat) (hn : 0 < n)
    (hd : 0 < d) (r : ℚ) (h : roundBinary_pos p emin emax n d = some r) :
    |r - (n : ℚ) / (d : ℚ)| ≤ (2 : ℚ) ^ emin / 2 ∨
    |r - (n : ℚ) / (d : ℚ)| ≤ (n : ℚ) / (d : ℚ) / 2 ^ p := by
  unfold roundBinary_pos at h
  dsimp only at h
  split_ifs at h
  simp only [Option.some.injEq] at h
  have hE := binaryExponent_le n d hn hd
  generalize binaryExponent n d = E at h hE
  have hdq : (0 : ℚ) < (d : ℚ) := by exact_mod_cast hd
  -- the error is at most half of 2^e
  have key : ∀ e : Int,
      |((roundHalfEven (n * 2 ^ (-e).toNat) (d * 2 ^ e.toNat) * 2 ^ e.toNat : Nat) : ℚ)
          / ((2 ^ (-e).toNat : Nat) : ℚ) - (n : ℚ) / (d : ℚ)| ≤ (2 : ℚ) ^ e / 2 := by
    intro e
    have hP : 0 < 2 ^ e.toNat := Nat.pos_of_ne_zero (by positivity)
    have hN : 0 < 2 ^ (-e).toNat := Nat.pos_of_ne_zero (by positivity)
    obtain ⟨h1, h2⟩ := roundHalfEven_near (n * 2 ^ (-e).toNat) (d * 2 ^ e.toNat)
      (Nat.mul_pos hd hP)
    rw [← zpow_two_split e]
    generalize roundHalfEven (n * 2 ^ (-e).toNat) (d * 2 ^ e.toNat) = m at h1 h2
    generalize 2 ^ e.toNat = P at h1 h2 hP
    generalize 2 ^ (-e).toNat = N at h1 h2 hN
    have hPq : (0 : ℚ) < (P : ℚ) := by exact_mod_cast hP
    have hNq : (0 : ℚ) < (N : ℚ) := by exact_mod_cast hN
    have h1q : (2 : ℚ) * ((m : ℚ) * ((d : ℚ) * (P : ℚ))) ≤ 2 * ((n : ℚ) * (N : ℚ)) + (d : ℚ) * (P : ℚ) := by
      exact_mod_cast h1
    have h2q : (2 : ℚ) * ((n : ℚ) * (N : ℚ)) ≤ 2 * ((m : ℚ) * ((d : ℚ) * (P : ℚ))) + (d : ℚ) * (P : ℚ) := by
      exact_mod_cast h2
    have e1 : ((m * P : Nat) : ℚ) / (N : ℚ) - (n : ℚ) / (d : ℚ)
        = ((m : ℚ) * (P : ℚ) * (d : ℚ) - (n : ℚ) * (N : ℚ)) / ((N : ℚ) * (d : ℚ)) := by
      push_cast
      field_simp
      ring
    have e2 : (P : ℚ) / (N : ℚ) / 2 = ((P : ℚ) * (d : ℚ) / 2) / ((N : ℚ) * (d : ℚ)) := by
      field_simp
      ring
    rw [e1, e2, abs_div, abs_of_pos (mul_pos hNq hdq)]
    apply div_le_div_of_nonneg_right _ (le_of_lt (mul_pos hNq hdq))
    rw [abs_le]
    constructor <;> linarith
  rw [← h]
  rcases le_total (E - ((p : Int) - 1)) emin with hm | hm
  · left
    have := key (max (E - ((p : Int) - 1)) emin)
    rw [max_eq_right hm] at this ⊢
    exact this
  · right
    have := key (max (E - ((p : Int) - 1)) emin)
    rw [max_eq_left hm] at this ⊢
    refine le_trans this ?_
    have e3 : (2 : ℚ) ^ (E - ((p : Int) - 1)) / 2 = (2 : ℚ) ^ E / 2 ^ p := by
      rw [zpow_sub₀ (by norm_num : (2 : ℚ) ≠ 0), zpow_sub₀ (by norm_num : (2 : ℚ) ≠ 0),
        zpow_natCast, zpow_one]
      field_simp
      ring
    rw [e3]
    exact div_le_div_of_nonneg_right hE (by positivity)

theorem natAbs_num_div_den (q : ℚ) : ((q.num.natAbs : Nat) : ℚ) / ((q.den : Nat) : ℚ) = |q| := by
  have h1 : ((q.num.natAbs : Nat) : ℚ) = |(q.num : ℚ)| := by
    rw [Nat.cast_natAbs, Int.cast_abs]
  have h2 : (0 : ℚ) < (q.den : ℚ) := by exact_mod_cast q.den_pos
  conv_rhs => rw [← Rat.num_div_den q]
  rw [h1, abs_div, abs_of_pos h2]

/-- Rounding to a binary format returns a value within half a unit of the last
place of the exact one: the error is at most `2^emin / 2` (the subnormal range)
or at most `|q| / 2^p`. -/
theorem double.roundTo_error (p : Nat) (emin : Int) (emax : Nat) (q r : ℚ)
    (h : double.roundTo p emin emax q = double.finite r) :
    |r - q| ≤ (2 : ℚ) ^ emin / 2 ∨ |r - q| ≤ |q| / 2 ^ p := by
  unfold double.roundTo at h
  by_cases hq : q = 0
  · rw [if_pos hq] at h
    simp only [double.finite.injEq] at h
    right
    rw [← h, hq]
    simp
  · rw [if_neg hq] at h
    have hn : 0 < q.num.natAbs := Int.natAbs_pos.mpr (Rat.num_ne_zero.mpr hq)
    cases hb : roundBinary_pos p emin emax q.num.natAbs q.den with
    | none => rw [hb] at h; simp at h
    | some r0 =>
      rw [hb] at h
      simp only [double.finite.injEq] at h
      have he := roundBinary_pos_error p emin emax q.num.natAbs q.den hn q.den_pos r0 hb
      rw [natAbs_num_div_den] at he
      by_cases hpos : 0 < q
      · rw [if_pos hpos] at h
        rw [← h]
        rw [abs_of_pos hpos] at he
        rw [abs_of_pos hpos]
        exact he
      · rw [if_neg hpos] at h
        have hneg : q < 0 := lt_of_le_of_ne (not_lt.mp hpos) hq
        rw [abs_of_neg hneg] at he
        have e1 : |r - q| = |r0 - -q| := by
          rw [← h, ← abs_neg]
          congr 1
          ring
        rw [e1, abs_of_neg hneg]
        exact he

/-- The `double` nearest to `q` is within `|q| / 2^53` of `q`, or within
`2^-1075` in the subnormal range. -/
theorem double.round_error (q r : ℚ) (h : double.round q = double.finite r) :
    |r - q| ≤ 1 / 2 ^ 1075 ∨ |r - q| ≤ |q| / 2 ^ 53 := by
  have e : (2 : ℚ) ^ (-1074 : Int) / 2 = 1 / 2 ^ 1075 := by
    rw [zpow_neg, show (1074 : Int) = ((1074 : Nat) : Int) from rfl, zpow_natCast,
      pow_succ (2 : ℚ) 1074]
    field_simp
  rw [← e]
  exact double.roundTo_error 53 (-1074) 1024 q r h

/-- The `float` nearest to `q` is within `|q| / 2^24` of `q`, or within `2^-150`
in the subnormal range. -/
theorem double.roundFloat_error (q r : ℚ) (h : double.roundFloat q = double.finite r) :
    |r - q| ≤ 1 / 2 ^ 150 ∨ |r - q| ≤ |q| / 2 ^ 24 := by
  have e : (2 : ℚ) ^ (-149 : Int) / 2 = 1 / 2 ^ 150 := by
    rw [zpow_neg, show (149 : Int) = ((149 : Nat) : Int) from rfl, zpow_natCast,
      pow_succ (2 : ℚ) 149]
    field_simp
  rw [← e]
  exact double.roundTo_error 24 (-149) 128 q r h

theorem binaryExponent_lt (n d : Nat) (hn : 0 < n) (hd : 0 < d) :
    (n : ℚ) / (d : ℚ) < (2 : ℚ) ^ (binaryExponent n d + 1) := by
  obtain ⟨_, ha⟩ := ilog2_self n hn
  obtain ⟨hb, _⟩ := ilog2_self d hd
  have hdq : (0 : ℚ) < (d : ℚ) := by exact_mod_cast hd
  unfold binaryExponent
  dsimp only
  split_ifs with h
  · have e1 : ((ilog2 n n : Int) - (ilog2 d d : Int) + 1)
        = ((ilog2 n n + 1 : Nat) : Int) - (ilog2 d d : Int) := by push_cast; ring
    rw [e1, zpow_sub₀ (by norm_num : (2 : ℚ) ≠ 0), zpow_natCast, zpow_natCast]
    have h1 : (n : ℚ) < (2 : ℚ) ^ (ilog2 n n + 1) := by exact_mod_cast ha
    have h2 : ((2 : ℚ) ^ ilog2 d d) ≤ (d : ℚ) := by exact_mod_cast hb
    have h3 : (0 : ℚ) < (2 : ℚ) ^ ilog2 d d := by positivity
    rw [div_lt_div_iff₀ hdq h3]
    calc (n : ℚ) * 2 ^ ilog2 d d ≤ (n : ℚ) * (d : ℚ) :=
          mul_le_mul_of_nonneg_left h2 (by positivity)
      _ < 2 ^ (ilog2 n n + 1) * (d : ℚ) := mul_lt_mul_of_pos_right h1 hdq
  · rw [sub_add_cancel, ← zpow_two_split]
    have hN : (0 : ℚ) < ((2 ^ (-((ilog2 n n : Int) - (ilog2 d d : Int))).toNat : Nat) : ℚ) := by
      exact_mod_cast Nat.pos_of_ne_zero (by positivity)
    rw [div_lt_div_iff₀ hdq hN]
    have hq : ((n * 2 ^ (-((ilog2 n n : Int) - (ilog2 d d : Int))).toNat : Nat) : ℚ)
        < ((d * 2 ^ ((ilog2 n n : Int) - (ilog2 d d : Int)).toNat : Nat) : ℚ) := by
      exact_mod_cast not_le.mp h
    push_cast at hq ⊢
    linarith

theorem roundHalfEven_mul (M B : Nat) (hB : 0 < B) : roundHalfEven (M * B) B = M := by
  unfold roundHalfEven
  rw [Nat.mul_mod_left, Nat.mul_div_cancel _ hB]
  simp [hB]

theorem zpow_two_lt_iff (a b : Int) : (2 : ℚ) ^ a < (2 : ℚ) ^ b ↔ a < b :=
  zpow_lt_zpow_iff_right₀ (by norm_num : (1 : ℚ) < 2)

theorem zpow_two_le_iff (a b : Int) : (2 : ℚ) ^ a ≤ (2 : ℚ) ^ b ↔ a ≤ b :=
  zpow_le_zpow_iff_right₀ (by norm_num : (1 : ℚ) < 2)

/-- A positive number `m * 2^e` with `m ≤ 2^p` and `e ≥ emin` below the
overflow threshold is a number of the format: rounding returns it. -/
theorem roundBinary_pos_exact (p : Nat) (emin : Int) (emax : Nat) (n d : Nat) (hn : 0 < n)
    (hd : 0 < d) (hp : 0 < p) (m : Nat) (e : Int) (he : emin ≤ e) (hm : m ≤ 2 ^ p)
    (hx : (n : ℚ) / (d : ℚ) = (m : ℚ) * (2 : ℚ) ^ e)
    (hmax : (n : ℚ) / (d : ℚ) < ((2 ^ emax : Nat) : ℚ)) :
    roundBinary_pos p emin emax n d = some ((n : ℚ) / (d : ℚ)) := by
  have hlo := binaryExponent_le n d hn hd
  have hhi := binaryExponent_lt n d hn hd
  have hdq : (0 : ℚ) < (d : ℚ) := by exact_mod_cast hd
  have hnq : (0 : ℚ) < (n : ℚ) := by exact_mod_cast hn
  have h2e : ∀ z : Int, (0 : ℚ) < (2 : ℚ) ^ z := fun z => zpow_pos (by norm_num) z
  unfold roundBinary_pos
  dsimp only
  generalize binaryExponent n d = E at hlo hhi
  -- the quotient by 2^e' is a natural number
  have hM : ∃ M : Nat, (n : ℚ) / (d : ℚ) = (M : ℚ) * (2 : ℚ) ^ (max (E - ((p : Int) - 1)) emin) := by
    rcases le_or_lt (max (E - ((p : Int) - 1)) emin) e with hle | hgt
    · refine ⟨m * 2 ^ (e - max (E - ((p : Int) - 1)) emin).toNat, ?_⟩
      have h1 : (((e - max (E - ((p : Int) - 1)) emin).toNat : Nat) : Int)
          = e - max (E - ((p : Int) - 1)) emin := Int.toNat_of_nonneg (sub_nonneg.mpr hle)
      rw [hx]
      push_cast
      rw [mul_assoc, ← zpow_natCast (2 : ℚ), h1, ← zpow_add₀ (by norm_num : (2 : ℚ) ≠ 0)]
      congr 2
      ring
    · have hmx : max (E - ((p : Int) - 1)) emin = E - ((p : Int) - 1) := by
        rcases le_total (E - ((p : Int) - 1)) emin with h | h
        · rw [max_eq_right h] at hgt; omega
        · exact max_eq_left h
      rw [hmx] at hgt ⊢
      -- so 2^(e+p) ≤ x = m * 2^e, hence m = 2^p
      have h1 : (2 : ℚ) ^ (e + (p : Int)) ≤ (2 : ℚ) ^ E := (zpow_two_le_iff _ _).mpr (by omega)
      have h2 : (2 : ℚ) ^ (e + (p : Int)) = (2 : ℚ) ^ p * (2 : ℚ) ^ e := by
        rw [zpow_add₀ (by norm_num : (2 : ℚ) ≠ 0), zpow_natCast, mul_comm]
      have h3 : (2 : ℚ) ^ p * (2 : ℚ) ^ e ≤ (m : ℚ) * (2 : ℚ) ^ e := by
        rw [← h2, ← hx]; exact le_trans h1 hlo
      have h4 : (2 : ℚ) ^ p ≤ (m : ℚ) := le_of_mul_le_mul_right h3 (h2e e)
      have h5 : (m : ℚ) = (2 : ℚ) ^ p := le_antisymm (by exact_mod_cast hm) h4
      have h6 : (n : ℚ) / (d : ℚ) = (2 : ℚ) ^ (e + (p : Int)) := by rw [hx, h5, h2]
      have h7 : e + (p : Int) < E + 1 := (zpow_two_lt_iff _ _).mp (by rw [← h6]; exact hhi)
      have h7b : E ≤ e + (p : Int) := (zpow_two_le_iff _ _).mp (by rw [← h6]; exact hlo)
      refine ⟨2 ^ (p - 1), ?_⟩
      have h8 : E - ((p : Int) - 1) = e + 1 := by omega
      have h9 : ((p - 1 : Nat) : Int) = (p : Int) - 1 := by omega
      rw [h6, h8]
      push_cast
      rw [← zpow_natCast (2 : ℚ), h9, ← zpow_add₀ (by norm_num : (2 : ℚ) ≠ 0)]
      congr 1
      ring
  obtain ⟨M, hM⟩ := hM
  generalize max (E - ((p : Int) - 1)) emin = e' at hM ⊢
  have hP : 0 < 2 ^ e'.toNat := Nat.pos_of_ne_zero (by positivity)
  have hN : 0 < 2 ^ (-e').toNat := Nat.pos_of_ne_zero (by positivity)
  have hsplit := zpow_two_split e'
  generalize 2 ^ e'.toNat = P at hP hsplit ⊢
  generalize 2 ^ (-e').toNat = N at hN hsplit ⊢
  have hPq : (0 : ℚ) < (P : ℚ) := by exact_mod_cast hP
  have hNq : (0 : ℚ) < (N : ℚ) := by exact_mod_cast hN
  rw [← hsplit] at hM
  have hA : n * N = M * (d * P) := by
    have : (n : ℚ) * (N : ℚ) = (M : ℚ) * ((d : ℚ) * (P : ℚ)) := by
      field_simp at hM
      linarith
    exact_mod_cast this
  rw [hA, roundHalfEven_mul M _ (Nat.mul_pos hd hP)]
  have hr : ((M * P : Nat) : ℚ) / (N : ℚ) = (n : ℚ) / (d : ℚ) := by
    rw [hM, Nat.cast_mul]
    ring
  rw [hr, if_neg (not_le.mpr hmax)]

theorem IsBinary.mono {p : Nat} {e0 e1 : Int} {emax : Nat} {x : ℚ} (h : IsBinary p e0 emax x)
    (he : e1 ≤ e0) : IsBinary p e1 emax x := by
  obtain ⟨m, e, h1, h2, h3, h4⟩ := h
  exact ⟨m, e, le_trans he h1, h2, h3, h4⟩

theorem IsBinary.half {p : Nat} {e0 : Int} {emax : Nat} {x : ℚ} (h : IsBinary p e0 emax x) :
    IsBinary p (e0 - 1) emax (x / 2) := by
  obtain ⟨m, e, h1, h2, h3, h4⟩ := h
  have habs : |x / 2| = |x| / 2 := by rw [abs_div, abs_of_pos (by norm_num : (0 : ℚ) < 2)]
  refine ⟨m, e - 1, by omega, h2, ?_, ?_⟩
  · rw [habs, h3, zpow_sub₀ (by norm_num : (2 : ℚ) ≠ 0), zpow_one]
    ring
  · rw [habs]
    have : |x| / 2 ≤ |x| := by
      have := abs_nonneg x
      linarith
    exact lt_of_le_of_lt this h4

theorem IsBinary.zero (p : Nat) (emin : Int) (emax : Nat) : IsBinary p emin emax 0 :=
  ⟨0, emin, le_refl _, Nat.zero_le _, by simp, by
    rw [abs_zero]
    exact_mod_cast Nat.pos_of_ne_zero (by positivity)⟩

/-- Rounding returns a number of the format that is given to it. -/
theorem double.roundTo_exact (p : Nat) (emin : Int) (emax : Nat) (hp : 0 < p) (x : ℚ)
    (h : IsBinary p emin emax x) : double.roundTo p emin emax x = double.finite x := by
  obtain ⟨m, e, h1, h2, h3, h4⟩ := h
  unfold double.roundTo
  by_cases hx : x = 0
  · rw [if_pos hx, hx]
  · rw [if_neg hx]
    have hn : 0 < x.num.natAbs := Int.natAbs_pos.mpr (Rat.num_ne_zero.mpr hx)
    have hq := natAbs_num_div_den x
    have hb := roundBinary_pos_exact p emin emax x.num.natAbs x.den hn x.den_pos hp m e h1 h2
      (by rw [hq]; exact h3) (by rw [hq]; exact h4)
    rw [hb, hq]
    simp only
    by_cases hpos : 0 < x
    · rw [if_pos hpos, abs_of_pos hpos]
    · rw [if_neg hpos]
      have hneg : x < 0 := lt_of_le_of_ne (not_lt.mp hpos) hx
      rw [abs_of_neg hneg, neg_neg]

theorem roundHalfEven_le (A B : Nat) (hB : 0 < B) (K : Nat) (h : A ≤ K * B) :
    roundHalfEven A B ≤ K := by
  obtain ⟨h1, _⟩ := roundHalfEven_near A B hB
  by_contra hc
  have h2 : K + 1 ≤ roundHalfEven A B := by omega
  have h3 : (K + 1) * B ≤ roundHalfEven A B * B := Nat.mul_le_mul_right B h2
  have h4 : (K + 1) * B = K * B + B := by ring
  omega

/-- What rounding returns is a number of the format; when the exact value is at
least `2^L` in magnitude, its exponent is at least `L - (p - 1)`. -/
theorem roundBinary_pos_isBinary (p : Nat) (emin : Int) (emax : Nat) (n d : Nat) (hn : 0 < n)
    (hd : 0 < d) (r : ℚ) (h : roundBinary_pos p emin emax n d = some r) (L : Int)
    (hL : (2 : ℚ) ^ L ≤ (n : ℚ) / (d : ℚ)) :
    0 ≤ r ∧ IsBinary p (max (L - ((p : Int) - 1)) emin) emax r := by
  have hlo := binaryExponent_le n d hn hd
  have hhi := binaryExponent_lt n d hn hd
  have hLE : L ≤ binaryExponent n d := by
    have := lt_of_le_of_lt hL hhi
    have := (zpow_two_lt_iff _ _).mp this
    omega
  unfold roundBinary_pos at h
  dsimp only at h
  generalize binaryExponent n d = E at h hlo hhi hLE
  have hee : max (L - ((p : Int) - 1)) emin ≤ max (E - ((p : Int) - 1)) emin :=
    max_le_max (by omega) (le_refl _)
  have hpe : E + 1 - (p : Int) ≤ max (E - ((p : Int) - 1)) emin :=
    le_trans (by omega) (le_max_left _ _)
  generalize max (E - ((p : Int) - 1)) emin = e' at h hee hpe
  have hP : 0 < 2 ^ e'.toNat := Nat.pos_of_ne_zero (by positivity)
  have hN : 0 < 2 ^ (-e').toNat := Nat.pos_of_ne_zero (by positivity)
  have hsplit := zpow_two_split e'
  -- the scaled value is below 2^p
  have hA : n * 2 ^ (-e').toNat ≤ 2 ^ p * (d * 2 ^ e'.toNat) := by
    have hdq : (0 : ℚ) < (d : ℚ) := by exact_mod_cast hd
    have hPq : (0 : ℚ) < ((2 ^ e'.toNat : Nat) : ℚ) := by exact_mod_cast hP
    have hNq : (0 : ℚ) < ((2 ^ (-e').toNat : Nat) : ℚ) := by exact_mod_cast hN
    have h1 : (2 : ℚ) ^ (E + 1) ≤ (2 : ℚ) ^ ((p : Int) + e') := (zpow_two_le_iff _ _).mpr (by omega)
    have h2 : (n : ℚ) / (d : ℚ) ≤ (2 : ℚ) ^ p * (2 : ℚ) ^ e' := by
      rw [← zpow_natCast (2 : ℚ) p, ← zpow_add₀ (by norm_num : (2 : ℚ) ≠ 0)]
      exact le_of_lt (lt_of_lt_of_le hhi h1)
    rw [← hsplit, div_le_iff₀ hdq] at h2
    have h3 : (n : ℚ) * ((2 ^ (-e').toNat : Nat) : ℚ)
        ≤ (2 : ℚ) ^ p * (((d : Nat) : ℚ) * ((2 ^ e'.toNat : Nat) : ℚ)) := by
      have := mul_le_mul_of_nonneg_right h2 (le_of_lt hNq)
      calc (n : ℚ) * ((2 ^ (-e').toNat : Nat) : ℚ)
          ≤ (2 : ℚ) ^ p * (((2 ^ e'.toNat : Nat) : ℚ) / ((2 ^ (-e').toNat : Nat) : ℚ)) * (d : ℚ)
              * ((2 ^ (-e').toNat : Nat) : ℚ) := this
        _ = (2 : ℚ) ^ p * (((d : Nat) : ℚ) * ((2 ^ e'.toNat : Nat) : ℚ)) := by
            field_simp
            ring
    exact_mod_cast h3
  have hm := roundHalfEven_le _ _ (Nat.mul_pos hd hP) (2 ^ p) hA
  generalize roundHalfEven (n * 2 ^ (-e').toNat) (d * 2 ^ e'.toNat) = m at h hm
  split_ifs at h with hov
  simp only [Option.some.injEq] at h
  have hr : r = (m : ℚ) * (2 : ℚ) ^ e' := by
    rw [← h, ← hsplit, Nat.cast_mul]
    ring
  have hr0 : 0 ≤ r := by
    rw [hr]
    exact mul_nonneg (Nat.cast_nonneg _) (le_of_lt (zpow_pos (by norm_num) _))
  refine ⟨hr0, m, e', hee, hm, ?_, ?_⟩
  · rw [abs_of_nonneg hr0, hr]
  · rw [abs_of_nonneg hr0, ← h]
    exact not_le.mp hov

theorem double.roundTo_isBinary (p : Nat) (emin : Int) (emax : Nat) (q r : ℚ)
    (h : double.roundTo p emin emax q = double.finite r) (L : Int) (hL : (2 : ℚ) ^ L ≤ |q|) :
    IsBinary p (max (L - ((p : Int) - 1)) emin) emax r := by
  unfold double.roundTo at h
  have hq : q ≠ 0 := by
    intro h0
    rw [h0, abs_zero] at hL
    exact absurd hL (not_le.mpr (zpow_pos (by norm_num) _))
  rw [if_neg hq] at h
  have hn : 0 < q.num.natAbs := Int.natAbs_pos.mpr (Rat.num_ne_zero.mpr hq)
  cases hb : roundBinary_pos p emin emax q.num.natAbs q.den with
  | none => rw [hb] at h; simp at h
  | some r0 =>
    rw [hb] at h
    simp only [double.finite.injEq] at h
    obtain ⟨h0, m, e, h1, h2, h3, h4⟩ := roundBinary_pos_isBinary p emin emax q.num.natAbs q.den
      hn q.den_pos r0 hb L (by rw [natAbs_num_div_den]; exact hL)
    have habs : |r| = |r0| := by
      rw [← h]
      split_ifs
      · rfl
      · rw [abs_neg]
    exact ⟨m, e, h1, h2, by rw [habs]; exact h3, by rw [habs]; exact h4⟩

/-! ## Floating point: literals and comparisons -/

theorem double.literal_zero : double.literal 0 = double.finite 0 := by decide!

theorem double.literal_one : double.literal 1 = double.finite 1 := by decide!

theorem double.add_finite (a b : ℚ) :
    double.finite a + double.finite b = double.round (a + b) := rfl

theorem double.sub_finite (a b : ℚ) :
    double.finite a - double.finite b = double.round (a - b) := by
  show double.round (a + -b) = double.round (a - b)
  rw [sub_eq_add_neg]

theorem double.mul_finite (a b : ℚ) :
    double.finite a * double.finite b = double.round (a * b) := rfl

/-- The guard `delay <= 0.0 || delay >= 1.0` is false exactly when the delay is
strictly between 0 and 1 or is a NaN. -/
theorem double.pacing_guard (x : double) :
    (x.le (double.literal 0) || x.ge (double.literal 1)) = false ↔
      ((double.lt (double.literal 0) x = true ∧ x.lt (double.literal 1) = true) ∨
        x = double.nan) := by
  rw [double.literal_zero, double.literal_one]
  cases x with
  | finite q =>
    simp only [double.le, double.ge, double.lt, double.beq, Bool.or_eq_false_iff,
      decide_eq_false_iff_not, decide_eq_true_eq, not_lt, reduceCtorEq, or_false]
    constructor
    · rintro ⟨⟨h1, h2⟩, h3, h4⟩
      exact ⟨lt_of_le_of_ne h1 (Ne.symm h2), lt_of_le_of_ne h3 (fun h => h4 h.symm)⟩
    · rintro ⟨h1, h2⟩
      exact ⟨⟨le_of_lt h1, ne_of_gt h1⟩, le_of_lt h2, fun h => absurd h (ne_of_gt h2)⟩
  | infinity s => cases s <;> simp [double.le, double.ge, double.lt, double.beq]
  | nan => simp [double.le, double.ge, double.lt, double.beq]


theorem double.div_finite (a b : ℚ) :
    double.finite a / double.finite b
      = (if b = 0 then (if a = 0 then double.nan else double.infinity (decide (a < 0)))
          else double.round (a / b)) := rfl

theorem double.literal_half : double.literal (1 / 2) = double.finite (1 / 2) := by decide!

theorem double.ofInt_two : double.ofInt 2 = double.finite 2 := by decide!

theorem double.round_exact (x : ℚ) (h : IsBinary 53 (-1074) 1024 x) :
    double.round x = double.finite x :=
  double.roundTo_exact 53 (-1074) 1024 (by decide) x h

/-- The conversion of an integer below `2^53` in magnitude to `double` is
exact. -/
theorem double.ofInt_exact (i : Int) (h : i.natAbs ≤ 2 ^ 53) :
    double.ofInt i = double.finite (i : ℚ) := by
  refine double.round_exact _ ⟨i.natAbs, 0, by decide, h, ?_, ?_⟩
  · rw [zpow_zero, mul_one, Nat.cast_natAbs, Int.cast_abs]
  · have h1 : |(i : ℚ)| = ((i.natAbs : Nat) : ℚ) := by rw [Nat.cast_natAbs, Int.cast_abs]
    rw [h1]
    have h2 : i.natAbs < 2 ^ 1024 :=
      lt_of_le_of_lt h (Nat.pow_lt_pow_right (by decide) (by decide))
    exact_mod_cast h2

theorem IsBinary.twice {p : Nat} {e0 : Int} {emax : Nat} {x : ℚ} (h : IsBinary p e0 emax x)
    (hlt : |2 * x| < ((2 ^ emax : Nat) : ℚ)) : IsBinary p (e0 + 1) emax (2 * x) := by
  obtain ⟨m, e, h1, h2, h3, _⟩ := h
  refine ⟨m, e + 1, by omega, h2, ?_, hlt⟩
  rw [abs_mul, abs_of_pos (by norm_num : (0 : ℚ) < 2), h3,
    zpow_add₀ (by norm_num : (2 : ℚ) ≠ 0), zpow_one]
  ring

/-- The frame delay of a frame with `repeat_pict = 2`, `d + 2 * (d * 0.5)`, is
twice the `double` `d = av_q2d(time_base)` without a rounding error, for every
time base with `int` numerator and denominator. -/
theorem av_q2d_twice (a : AVRational) (hn : inInt32 a.num) (hd : inInt32 a.den) :
    av_q2d a + double.ofInt 2 * (av_q2d a * double.literal (1 / 2))
      = double.ofInt 2 * av_q2d a ∧
    (∀ d : ℚ, av_q2d a = double.finite d →
      double.ofInt 2 * av_q2d a = double.finite (2 * d)) := by
  unfold inInt32 at hn hd
  have hnum : double.ofInt a.num = double.finite (a.num : ℚ) :=
    double.ofInt_exact a.num (by have : (2 : Nat) ^ 53 = 9007199254740992 := by norm_num
                                 omega)
  have hden : double.ofInt a.den = double.finite (a.den : ℚ) :=
    double.ofInt_exact a.den (by have : (2 : Nat) ^ 53 = 9007199254740992 := by norm_num
                                 omega)
  unfold av_q2d
  rw [hnum, hden, double.ofInt_two, double.literal_half, double.div_finite]
  have hinf : ∀ s : Bool,
      double.infinity s + double.finite 2 * (double.infinity s * double.finite (1 / 2))
        = double.finite 2 * double.infinity s := by
    intro s
    cases s <;> decide!
  by_cases hd0 : (a.den : ℚ) = 0
  · rw [if_pos hd0]
    by_cases hn0 : (a.num : ℚ) = 0
    · rw [if_pos hn0]
      exact ⟨rfl, fun d h => by simp at h⟩
    · rw [if_neg hn0]
      exact ⟨hinf _, fun d h => by simp at h⟩
  · rw [if_neg hd0]
    cases hX : double.round ((a.num : ℚ) / (a.den : ℚ)) with
    | nan => exact ⟨rfl, fun d h => by simp at h⟩
    | infinity s => exact ⟨hinf s, fun d h => by simp at h⟩
    | finite r =>
      -- the quotient is 0 or at least 2^-31 and at most 2^31 in magnitude
      have hdz : a.den ≠ 0 := fun h => hd0 (by rw [h]; simp)
      have hden1 : (1 : ℚ) ≤ |(a.den : ℚ)| := by
        have : (1 : Int) ≤ |a.den| := Int.one_le_abs hdz
        exact_mod_cast this
      have hden2 : |(a.den : ℚ)| ≤ 2147483648 := by
        have : |a.den| ≤ 2147483648 := abs_le.mpr ⟨by omega, by omega⟩
        exact_mod_cast this
      have hnum2 : |(a.num : ℚ)| ≤ 2147483648 := by
        have : |a.num| ≤ 2147483648 := abs_le.mpr ⟨by omega, by omega⟩
        exact_mod_cast this
      have hdpos : (0 : ℚ) < |(a.den : ℚ)| := lt_of_lt_of_le (by norm_num) hden1
      have hqabs : |(a.num : ℚ) / (a.den : ℚ)| = |(a.num : ℚ)| / |(a.den : ℚ)| := abs_div _ _
      have hqle : |(a.num : ℚ) / (a.den : ℚ)| ≤ 2147483648 := by
        rw [hqabs, div_le_iff₀ hdpos]
        calc |(a.num : ℚ)| ≤ 2147483648 := hnum2
          _ ≤ 2147483648 * |(a.den : ℚ)| := by nlinarith
      have hb : IsBinary 53 (-83) 1024 r := by
        by_cases hn0 : a.num = 0
        · have h0 : double.round ((a.num : ℚ) / (a.den : ℚ)) = double.finite 0 := by
            rw [hn0]
            simp only [Int.cast_zero, zero_div]
            decide!
          rw [h0] at hX
          simp only [double.finite.injEq] at hX
          rw [← hX]
          exact IsBinary.zero _ _ _
        · have hnum1 : (1 : ℚ) ≤ |(a.num : ℚ)| := by
            have : (1 : Int) ≤ |a.num| := Int.one_le_abs hn0
            exact_mod_cast this
          have hL : (2 : ℚ) ^ (-31 : Int) ≤ |(a.num : ℚ) / (a.den : ℚ)| := by
            have e1 : (2 : ℚ) ^ (-31 : Int) = 1 / 2147483648 := by
              rw [zpow_neg, show (31 : Int) = ((31 : Nat) : Int) from rfl, zpow_natCast]
              norm_num
            rw [e1, hqabs, div_le_div_iff₀ (by norm_num) hdpos]
            nlinarith
          have := double.roundTo_isBinary 53 (-1074) 1024 _ r hX (-31) hL
          exact this.mono (by decide)
      have hbd : IsBinary 53 (-1074) 1024 r := hb.mono (by decide)
      have hhalf : double.round (r * (1 / 2)) = double.finite (r / 2) := by
        have e1 : r * (1 / 2) = r / 2 := by ring
        rw [e1]
        exact double.round_exact _ (hb.half.mono (by decide))
      have hback : double.round (2 * (r / 2)) = double.finite r := by
        have e1 : 2 * (r / 2) = r := by ring
        rw [e1]
        exact double.round_exact _ hbd
      have hsum : r + r = 2 * r := by ring
      have h1 : double.finite r + double.finite 2 * (double.finite r * double.finite (1 / 2))
          = double.finite 2 * double.finite r := by
        rw [double.mul_finite, hhalf, double.mul_finite, hback, double.add_finite,
          double.mul_finite, hsum]
      refine ⟨h1, fun d hdd => ?_⟩
      simp only [double.finite.injEq] at hdd
      rw [← hdd, double.mul_finite]
      -- |r| is at most 2^32
      have hr : |r| ≤ 4294967296 := by
        have herr := double.round_error _ r hX
        have : |r| ≤ |(a.num : ℚ) / (a.den : ℚ)| + |r - (a.num : ℚ) / (a.den : ℚ)| := by
          have := abs_add ((a.num : ℚ) / (a.den : ℚ)) (r - (a.num : ℚ) / (a.den : ℚ))
          rw [add_sub_cancel] at this
          exact this
        have hq0 : (0 : ℚ) ≤ |(a.num : ℚ) / (a.den : ℚ)| := abs_nonneg _
        rcases herr with h | h
        · have : (1 : ℚ) / 2 ^ 1075 ≤ 1 := by
            rw [div_le_one (by positivity)]
            exact one_le_pow₀ (by norm_num)
          linarith
        · have : |(a.num : ℚ) / (a.den : ℚ)| / 2 ^ 53 ≤ |(a.num : ℚ) / (a.den : ℚ)| := by
            apply div_le_self hq0
            exact one_le_pow₀ (by norm_num)
          linarith
      refine double.round_exact _ ((hb.twice ?_).mono (by decide))
      rw [abs_mul, abs_of_pos (by norm_num : (0 : ℚ) < 2)]
      have hbig : (8589934592 : ℚ) < ((2 ^ 1024 : Nat) : ℚ) := by
        have : (8589934592 : Nat) < 2 ^ 1024 := by norm_num
        exact_mod_cast this
      linarith

/-- The arithmetic on values whose `double` or `float` is known: `0.1` is
`3602879701896397 * 2^-55`, as with `toDouble`; a tie goes to the even
significand; a value that rounds to `2^1024` is an infinity and the one below it
is the largest `double`; half the least subnormal rounds to 0; `2^24 + 1` is not
a `float`; `(1.0 / 49.0) * 49.0` is `1 - 2^-53`; `1.0 / 0.0` is an infinity,
`0.0 / 0.0` and the difference of two infinities are NaNs, and a comparison
with a NaN is false. -/
theorem double.round_examples :
    double.round (1 / 10) = double.finite (3602879701896397 / 36028797018963968) ∧
    double.round (1 / 10) = double.finite (toDouble (1 / 10)) ∧
    double.ofInt 9007199254740993 = double.finite 9007199254740992 ∧
    double.ofInt 9007199254740995 = double.finite 9007199254740996 ∧
    double.round (2 ^ 1024 - 2 ^ 970) = double.infinity false ∧
    double.round (2 ^ 1024 - 2 ^ 970 - 1) = double.finite (2 ^ 1024 - 2 ^ 971) ∧
    double.round (1 / 2 ^ 1075) = double.finite 0 ∧
    double.round (3 / 2 ^ 1075) = double.finite (2 / 2 ^ 1074) ∧
    double.roundFloat 16777217 = double.finite 16777216 ∧
    (double.ofInt 1 / double.ofInt 49) * double.ofInt 49 = double.finite (1 - 1 / 2 ^ 53) ∧
    double.ofInt 1 / double.ofInt 0 = double.infinity false ∧
    double.ofInt 0 / double.ofInt 0 = double.nan ∧
    double.infinity false - double.infinity false = double.nan ∧
    double.lt double.nan 0 = false ∧ double.ge double.nan 0 = false := by
  decide!

/-- The position `updateVideoPosition` emits is the truncated `double` product
`pts * 1000`: for a pts of 4.007 the product is 4006.9999999999995 and the
position is 4006. -/
theorem FFMpegPlayer.updateVideoPosition_truncates :
    (FFMpegPlayer.updateVideoPosition {} { pts_ := double.literal (4007 / 1000) }).2
      = [PlayerSignal.positionChanged 4006] := by
  decide!

/-! ## Frame pacing and the video clock -/

theorem VideoContext.computeDelay_state (ctx : VideoContext) (pts : double) (now : Int) :
    (ctx.computeDelay pts now).2
      = { ctx with frameLastPts_ := pts, frameLastDelay_ := ctx.chosenDelay pts,
                   frameTimer_ := ctx.frameTimer_ + ctx.chosenDelay pts } := by
  unfold VideoContext.computeDelay VideoContext.chosenDelay
  dsimp only
  by_cases h : ((pts - ctx.frameLastPts_).le (double.literal 0) ||
      (pts - ctx.frameLastPts_).ge (double.literal 1)) = false
  · rw [if_pos ((double.pacing_guard _).mp h)]
    rw [h]
    rfl
  · have h2 : ¬ ((double.lt (double.literal 0) (pts - ctx.frameLastPts_) = true ∧
          (pts - ctx.frameLastPts_).lt (double.literal 1) = true) ∨
        pts - ctx.frameLastPts_ = double.nan) := fun hc => h ((double.pacing_guard _).mpr hc)
    rw [if_neg h2]
    rw [Bool.not_eq_false] at h
    rw [h]
    rfl

theorem VideoContext.computeDelay_value (ctx : VideoContext) (pts : double) (now : Int) :
    (ctx.computeDelay pts now).1
      = (if ((ctx.frameTimer_ + ctx.chosenDelay pts) - wallClockSeconds now).lt
            (double.literal (1 / 100)) = true
          then double.literal (1 / 100)
          else (ctx.frameTimer_ + ctx.chosenDelay pts) - wallClockSeconds now) := by
  have h := VideoContext.computeDelay_state ctx pts now
  have h1 : (ctx.computeDelay pts now).1
      = (if ((ctx.computeDelay pts now).2.frameTimer_ - wallClockSeconds now).lt
            (double.literal (1 / 100)) = true
          then double.literal (1 / 100)
          else (ctx.computeDelay pts now).2.frameTimer_ - wallClockSeconds now) := rfl
  rw [h1, h]

theorem double.literal_million : double.literal 1000000 = double.finite 1000000 := by decide!

theorem double.literal_hundredth :
    double.literal (1 / 100) = double.finite (5764607523034235 / 576460752303423488) := by
  decide!

/-- C7, as stated, fails.  With a frame timer of 1700000000 s, `frameLastPts` 0
and a pts of 0.04 (the `double` nearest to it) the difference is strictly
between 0 and 1.0 and is the chosen delay, but the `double` sum of the timer and
the delay is 1700000000 + 41943/1048576: the timer has grown by 0.0399999619,
not by the delay.  With a pts that is a NaN the difference is a NaN, which is
not strictly between 0 and 1.0, and it is used as the delay. -/
theorem computeDelay_pacing_state_counterexample :
    ¬ (∀ (ctx : VideoContext) (pts : double) (now : Int) (t p l d : ℚ),
        ctx.frameTimer_ = double.finite t → pts = double.finite p →
        ctx.frameLastPts_ = double.finite l → ctx.frameLastDelay_ = double.finite d →
        (ctx.computeDelay pts now).2.frameTimer_
          = double.finite (t + (if 0 < p - l ∧ p - l < 1 then p - l else d))) ∧
    ¬ (∀ (ctx : VideoContext) (pts : double) (now : Int) (t c t1 : ℚ),
        ctx.frameTimer_ = double.finite t →
        (ctx.computeDelay pts now).2.frameLastDelay_ = double.finite c →
        (ctx.computeDelay pts now).2.frameTimer_ = double.finite t1 → t1 = t + c) ∧
    ¬ (∀ (ctx : VideoContext) (pts : double) (now : Int),
        ¬ (double.lt (double.literal 0) (pts - ctx.frameLastPts_) = true ∧
            (pts - ctx.frameLastPts_).lt (double.literal 1) = true) →
        (ctx.computeDelay pts now).2.frameLastDelay_ = ctx.frameLastDelay_) := by
  refine ⟨fun h => ?_, fun h => ?_, fun h => ?_⟩
  · have h1 := h { frameTimer_ := 1700000000 } (double.literal (1 / 25)) 0
      1700000000 (5764607523034235 / 144115188075855872) 0 0 rfl (by decide!) rfl rfl
    exact absurd h1 (by decide!)
  · have h1 := h { frameTimer_ := 1700000000 } (double.literal (1 / 25)) 0
      1700000000 (5764607523034235 / 144115188075855872) (1782579200041943 / 1048576)
      rfl (by decide!) (by decide!)
    exact absurd h1 (by decide!)
  · have h1 := h {} double.nan 0 (by decide!)
    exact absurd h1 (by decide!)

/-- C7 (amended): `computeDelay(pts)` computes the difference
`pts - frameLastPts` in `double` arithmetic and uses it as the delay when it is
strictly between 0 and 1.0 or a NaN (the guard `delay <= 0.0 || delay >= 1.0` is
false), and the previous `frameLastDelay` otherwise; afterwards `frameLastPts`
is `pts`, `frameLastDelay` is the chosen delay and `frameTimer` is the `double`
sum of the previous `frameTimer` and the chosen delay: for finite values, their
exact sum rounded to `double`, which is within `2^-53` of it in relative terms
(within `2^-1075` in the subnormal range). -/
theorem computeDelay_pacing_state (ctx : VideoContext) (pts : double) (now : Int) :
    (ctx.computeDelay pts now).2.frameLastPts_ = pts ∧
    (ctx.computeDelay pts now).2.frameLastDelay_
      = (if (double.lt (double.literal 0) (pts - ctx.frameLastPts_) = true ∧
              (pts - ctx.frameLastPts_).lt (double.literal 1) = true) ∨
            pts - ctx.frameLastPts_ = double.nan
          then pts - ctx.frameLastPts_ else ctx.frameLastDelay_) ∧
    (ctx.computeDelay pts now).2.frameTimer_
      = ctx.frameTimer_
        + (if (double.lt (double.literal 0) (pts - ctx.frameLastPts_) = true ∧
                (pts - ctx.frameLastPts_).lt (double.literal 1) = true) ∨
              pts - ctx.frameLastPts_ = double.nan
            then pts - ctx.frameLastPts_ else ctx.frameLastDelay_) ∧
    (∀ p l : ℚ, pts = double.finite p → ctx.frameLastPts_ = double.finite l →
      pts - ctx.frameLastPts_ = double.round (p - l)) ∧
    (∀ t c : ℚ, ctx.frameTimer_ = double.finite t →
      (ctx.computeDelay pts now).2.frameLastDelay_ = double.finite c →
        (ctx.computeDelay pts now).2.frameTimer_ = double.round (t + c)) ∧
    (∀ t c t1 : ℚ, ctx.frameTimer_ = double.finite t →
      (ctx.computeDelay pts now).2.frameLastDelay_ = double.finite c →
      (ctx.computeDelay pts now).2.frameTimer_ = double.finite t1 →
        |t1 - (t + c)| ≤ 1 / 2 ^ 1075 ∨ |t1 - (t + c)| ≤ |t + c| / 2 ^ 53) := by
  rw [VideoContext.computeDelay_state]
  have hsum : ∀ t c : ℚ, ctx.frameTimer_ = double.finite t →
      ctx.chosenDelay pts = double.finite c →
      ctx.frameTimer_ + ctx.chosenDelay pts = double.round (t + c) := by
    intro t c ht hc
    rw [ht, hc, double.add_finite]
  refine ⟨rfl, rfl, rfl, fun p l hp hl => ?_, fun t c ht hc => hsum t c ht hc,
    fun t c t1 ht hc h1 => ?_⟩
  · rw [hp, hl, double.sub_finite]
  · have h2 : ctx.frameTimer_ + ctx.chosenDelay pts = double.finite t1 := h1
    rw [hsum t c ht hc] at h2
    exact double.round_error _ _ h2

/-- C8, as stated, fails.  With a frame timer of 1700000000 s, a chosen delay of
0.04 and a wall clock of 1699999999990500 microseconds, the timer afterwards is
1700000000 + 41943/1048576, the wall clock in seconds rounds to a `double`, and
the call returns 103809/2097152 (0.04949998...), which is not the maximum of
0.010 and the timer minus the wall clock.  The difference of two `double`s is
rounded as well: with a frame timer of 1700000000 s and a wall clock of 0.1 s
(as a `double`) the call returns 3565158399790285/2097152, not the exact
difference.  With a frame timer that is a NaN the call returns a NaN, which is
not at least 0.010. -/
theorem computeDelay_result_counterexample :
    ¬ (∀ (ctx : VideoContext) (pts : double) (now : Int) (t1 r : ℚ),
        (ctx.computeDelay pts now).2.frameTimer_ = double.finite t1 →
        (ctx.computeDelay pts now).1 = double.finite r →
          r = max (1 / 100) (t1 - (now : ℚ) / 1000000)) ∧
    ¬ (∀ (ctx : VideoContext) (pts : double) (now : Int) (t1 n r : ℚ),
        (ctx.computeDelay pts now).2.frameTimer_ = double.finite t1 →
        wallClockSeconds now = double.finite n →
        (ctx.computeDelay pts now).1 = double.finite r →
          r = max (1 / 100) (t1 - n)) ∧
    ¬ (∀ (ctx : VideoContext) (pts : double) (now : Int),
        (ctx.computeDelay pts now).1.ge (double.literal (1 / 100)) = true) := by
  refine ⟨fun h => ?_, fun h => ?_, fun h => ?_⟩
  · have h1 := h { frameTimer_ := 1700000000 } (double.literal (1 / 25)) 1699999999990500
      (1782579200041943 / 1048576) (103809 / 2097152) (by decide!) (by decide!)
    exact absurd h1 (by decide!)
  · have h1 := h { frameTimer_ := 1700000000 } 0 100000
      1700000000 (3602879701896397 / 36028797018963968) (3565158399790285 / 2097152)
      (by decide!) (by decide!) (by decide!)
    exact absurd h1 (by decide!)
  · have h1 := h { frameTimer_ := double.nan } 0 0
    exact absurd h1 (by decide!)

/-- C8 (amended): for every pts, prior pacing state and wall-clock reading,
`computeDelay` returns, in `double` arithmetic, the greater of 0.010 and
`frameTimer' - now`, where `frameTimer'` is the `double` sum of the prior frame
timer and the chosen delay and `now` is `av_gettime() / 1000000.0`; it returns a
NaN exactly when `frameTimer' - now` is a NaN, and every other returned value is
at least 0.010 (the `double` nearest to it, which is not below 1/100).  For
finite values `frameTimer' - now` is the exact difference rounded to `double`,
within `2^-53` of it in relative terms, and `now` is the number of microseconds
divided by 1000000 and rounded to `double`. -/
theorem computeDelay_result (ctx : VideoContext) (pts : double) (now : Int) :
    (ctx.computeDelay pts now).1
      = (if ((ctx.frameTimer_ + ctx.chosenDelay pts) - wallClockSeconds now).lt
            (double.literal (1 / 100)) = true
          then double.literal (1 / 100)
          else (ctx.frameTimer_ + ctx.chosenDelay pts) - wallClockSeconds now) ∧
    ((ctx.computeDelay pts now).1 = double.nan ↔
      (ctx.frameTimer_ + ctx.chosenDelay pts) - wallClockSeconds now = double.nan) ∧
    ((ctx.computeDelay pts now).1 ≠ double.nan →
      (ctx.computeDelay pts now).1.ge (double.literal (1 / 100)) = true) ∧
    (∀ r : ℚ, (ctx.computeDelay pts now).1 = double.finite r → 1 / 100 ≤ r) ∧
    (∀ t c n : ℚ, ctx.frameTimer_ = double.finite t → ctx.chosenDelay pts = double.finite c →
      wallClockSeconds now = double.finite n →
      ∀ t1 : ℚ, double.round (t + c) = double.finite t1 →
        (ctx.frameTimer_ + ctx.chosenDelay pts) - wallClockSeconds now
            = double.round (t1 - n) ∧
        ∀ x : ℚ, double.round (t1 - n) = double.finite x →
          |x - (t1 - n)| ≤ 1 / 2 ^ 1075 ∨ |x - (t1 - n)| ≤ |t1 - n| / 2 ^ 53) ∧
    (now.natAbs ≤ 2 ^ 53 → wallClockSeconds now = double.round ((now : ℚ) / 1000000)) := by
  rw [VideoContext.computeDelay_value, double.literal_hundredth]
  refine ⟨rfl, ?_, ?_, ?_, fun t c n ht hc hn t1 h1 =>
    ⟨?_, fun x hx => double.round_error _ _ hx⟩, fun hnow => ?_⟩
  rotate_right
  · unfold wallClockSeconds
    rw [double.ofInt_exact now hnow, double.literal_million, double.div_finite,
      if_neg (by norm_num)]
  · cases hx : (ctx.frameTimer_ + ctx.chosenDelay pts) - wallClockSeconds now with
    | finite q => by_cases hq : q < 5764607523034235 / 576460752303423488 <;>
        simp [double.lt, hq]
    | infinity s => cases s <;> simp [double.lt]
    | nan => simp [double.lt]
  · cases hx : (ctx.frameTimer_ + ctx.chosenDelay pts) - wallClockSeconds now with
    | finite q => by_cases hq : q < 5764607523034235 / 576460752303423488 <;>
        simp [double.lt, double.ge, double.le, double.beq, hq]
        <;> exact lt_or_eq_of_le (not_lt.mp hq)
    | infinity s => cases s <;> simp [double.lt, double.ge, double.le, double.beq]
    | nan => simp [double.lt]
  · intro r
    cases hx : (ctx.frameTimer_ + ctx.chosenDelay pts) - wallClockSeconds now with
    | finite q =>
      by_cases hq : q < 5764607523034235 / 576460752303423488
      · simp only [double.lt, hq, decide_True, if_true, double.finite.injEq]
        intro hr
        rw [← hr]
        norm_num
      · simp only [double.lt, hq, decide_False, if_false, double.finite.injEq, Bool.false_eq_true]
        intro hr
        rw [← hr]
        have : (1 : ℚ) / 100 ≤ 5764607523034235 / 576460752303423488 := by norm_num
        exact le_trans this (not_lt.mp hq)
    | infinity s =>
      cases s
      · simp [double.lt]
      · simp only [double.lt, if_true, double.finite.injEq]
        intro hr
        rw [← hr]
        norm_num
    | nan => simp [double.lt]
  · rw [ht, hc, hn, double.add_finite, h1, double.sub_finite]

/-- C9, as stated, fails: two invocations with the same pts and the same prior
pacing state, made five seconds apart on the wall clock, return different
delays (10 s and 5 s). -/
theorem computeDelay_determined_counterexample :
    ¬ (∀ (c1 c2 : VideoContext) (pts : double) (now1 now2 : Int),
        c1.frameLastPts_ = c2.frameLastPts_ → c1.frameLastDelay_ = c2.frameLastDelay_ →
        c1.frameTimer_ = c2.frameTimer_ →
          (c1.computeDelay pts now1).1 = (c2.computeDelay pts now2).1 ∧
          (c1.computeDelay pts now1).2.frameLastPts_
            = (c2.computeDelay pts now2).2.frameLastPts_ ∧
          (c1.computeDelay pts now1).2.frameLastDelay_
            = (c2.computeDelay pts now2).2.frameLastDelay_ ∧
          (c1.computeDelay pts now1).2.frameTimer_
            = (c2.computeDelay pts now2).2.frameTimer_) := by
  intro h
  have h1 := (h { frameTimer_ := 1700000010 } { frameTimer_ := 1700000010 } 0
    1700000000000000 1700000005000000 rfl rfl rfl).1
  exact absurd h1 (by decide!)

/-- C9 (amended): two invocations of `computeDelay` given the same pts and the
same prior pacing state (`frameLastPts`, `frameLastDelay`, `frameTimer`) yield
the same updated pacing state, whatever the wall clock reads, and the same
returned delay when they read the same wall-clock time. -/
theorem computeDelay_determined (c1 c2 : VideoContext) (pts : double) (now1 now2 : Int)
    (hp : c1.frameLastPts_ = c2.frameLastPts_) (hd : c1.frameLastDelay_ = c2.frameLastDelay_)
    (ht : c1.frameTimer_ = c2.frameTimer_) :
    (c1.computeDelay pts now1).2.frameLastPts_ = (c2.computeDelay pts now2).2.frameLastPts_ ∧
    (c1.computeDelay pts now1).2.frameLastDelay_
      = (c2.computeDelay pts now2).2.frameLastDelay_ ∧
    (c1.computeDelay pts now1).2.frameTimer_ = (c2.computeDelay pts now2).2.frameTimer_ ∧
    (now1 = now2 → (c1.computeDelay pts now1).1 = (c2.computeDelay pts now2).1) := by
  unfold VideoContext.computeDelay
  simp only [hp, hd, ht]
  refine ⟨trivial, trivial, trivial, fun h => ?_⟩
  rw [h]

/-- Witness of C9 (amended): two contexts that differ in their video clock only,
pts 1/25, wall clock 5 s and 9 s. -/
theorem computeDelay_determined_witness :
    (({ frameTimer_ := 10, frameLastDelay_ := double.literal (1 / 25) }
        : VideoContext).computeDelay (double.literal (1 / 25)) 5000000).2.frameTimer_
      = (({ frameTimer_ := 10, frameLastDelay_ := double.literal (1 / 25), videoClock_ := 3 }
          : VideoContext).computeDelay (double.literal (1 / 25)) 9000000).2.frameTimer_ :=
  (computeDelay_determined { frameTimer_ := 10, frameLastDelay_ := double.literal (1 / 25) }
    { frameTimer_ := 10, frameLastDelay_ := double.literal (1 / 25), videoClock_ := 3 }
    (double.literal (1 / 25)) 5000000 9000000 rfl rfl rfl).2.2.1

/-- C10, as stated, fails.  With a codec time base of 1/30 and a pts of 1 the
call returns 1 and leaves a video clock of 4653719614949513/4503599627370496:
the `double` nearest to 1/30 is not 1/30, and its sum with 1 is rounded again,
so the clock is neither 1 + 1/30 nor 1 plus the `double` frame duration.  With
`repeat_pict = 2` the clock is not the returned value plus twice the frame
duration either. -/
theorem synchronizeVideo_clock_counterexample :
    ¬ (∀ (ctx : VideoContext) (frame : AVFrame) (pts : double) (r : ℚ),
        (ctx.synchronizeVideo frame pts).1 = double.finite r →
        (ctx.synchronizeVideo frame pts).2.videoClock_
          = double.finite (r + (ctx.videoStream_.codec_time_base.num : ℚ)
              / (ctx.videoStream_.codec_time_base.den : ℚ)
              * (1 + (frame.repeat_pict : ℚ) / 2))) ∧
    ¬ (∀ (ctx : VideoContext) (frame : AVFrame) (pts : double) (r d : ℚ),
        (ctx.synchronizeVideo frame pts).1 = double.finite r →
        av_q2d ctx.videoStream_.codec_time_base = double.finite d →
        (ctx.synchronizeVideo frame pts).2.videoClock_
          = double.finite (r + d * (1 + (frame.repeat_pict : ℚ) / 2))) ∧
    ¬ (∀ (ctx : VideoContext) (frame : AVFrame) (pts : double) (r d : ℚ),
        frame.repeat_pict = 2 →
        (ctx.synchronizeVideo frame pts).1 = double.finite r →
        av_q2d ctx.videoStream_.codec_time_base = double.finite d →
        (ctx.synchronizeVideo frame pts).2.videoClock_ = double.finite (r + 2 * d)) := by
  refine ⟨fun h => ?_, fun h => ?_, fun h => ?_⟩
  · have h1 := h { videoStream_ := { codec_time_base := { num := 1, den := 30 } } } {} 1 1
      (by decide!)
    exact absurd h1 (by decide!)
  · have h1 := h { videoStream_ := { codec_time_base := { num := 1, den := 30 } } } {} 1 1
      (4803839602528529 / 144115188075855872) (by decide!) (by decide!)
    exact absurd h1 (by decide!)
  · have h1 := h { videoStream_ := { codec_time_base := { num := 1, den := 30 } } }
      { repeat_pict := 2 } 1 1
      (4803839602528529 / 144115188075855872) rfl (by decide!) (by decide!)
    exact absurd h1 (by decide!)

/-- C10 (amended): `synchronizeVideo(frame, pts)` returns pts and adopts it as the
video clock when `pts > epsilon` holds, and the current video clock otherwise
(also when pts is a NaN); afterwards the video clock is the `double` sum of the
returned value and the frame delay `d + repeat_pict * (d * 0.5)`, where `d` is
`av_q2d` of the codec time base and every step is rounded to `double`: for
finite values the clock is the exact sum of the returned value and the frame
delay, rounded to `double`, which is within `2^-53` of it in relative terms.
For a frame with `repeat_pict = 2` the frame delay is twice the `double` `d`,
without a rounding error. -/
theorem synchronizeVideo_clock (ctx : VideoContext) (frame : AVFrame) (pts : double) :
    (pts.gt double_epsilon = true → (ctx.synchronizeVideo frame pts).1 = pts) ∧
    (pts.gt double_epsilon = false → (ctx.synchronizeVideo frame pts).1 = ctx.videoClock_) ∧
    (ctx.synchronizeVideo frame pts).2.videoClock_
      = (ctx.synchronizeVideo frame pts).1
        + (av_q2d ctx.videoStream_.codec_time_base
            + double.ofInt frame.repeat_pict
              * (av_q2d ctx.videoStream_.codec_time_base * double.literal (1 / 2))) ∧
    (∀ r d : ℚ, (ctx.synchronizeVideo frame pts).1 = double.finite r →
      av_q2d ctx.videoStream_.codec_time_base
          + double.ofInt frame.repeat_pict
            * (av_q2d ctx.videoStream_.codec_time_base * double.literal (1 / 2))
        = double.finite d →
      (ctx.synchronizeVideo frame pts).2.videoClock_ = double.round (r + d) ∧
      ∀ c : ℚ, (ctx.synchronizeVideo frame pts).2.videoClock_ = double.finite c →
        |c - (r + d)| ≤ 1 / 2 ^ 1075 ∨ |c - (r + d)| ≤ |r + d| / 2 ^ 53) ∧
    (frame.repeat_pict = 2 → inInt32 ctx.videoStream_.codec_time_base.num →
      inInt32 ctx.videoStream_.codec_time_base.den →
      (ctx.synchronizeVideo frame pts).2.videoClock_
        = (ctx.synchronizeVideo frame pts).1
          + double.ofInt 2 * av_q2d ctx.videoStream_.codec_time_base ∧
      ∀ r d : ℚ, (ctx.synchronizeVideo frame pts).1 = double.finite r →
        av_q2d ctx.videoStream_.codec_time_base = double.finite d →
        (ctx.synchronizeVideo frame pts).2.videoClock_ = double.round (r + 2 * d)) := by
  have hclock : (ctx.synchronizeVideo frame pts).2.videoClock_
      = (ctx.synchronizeVideo frame pts).1
        + (av_q2d ctx.videoStream_.codec_time_base
            + double.ofInt frame.repeat_pict
              * (av_q2d ctx.videoStream_.codec_time_base * double.literal (1 / 2))) := by
    unfold VideoContext.synchronizeVideo
    dsimp only
    cases h : pts.gt double_epsilon <;> simp
  have hfin : ∀ r d : ℚ, (ctx.synchronizeVideo frame pts).1 = double.finite r →
      av_q2d ctx.videoStream_.codec_time_base
          + double.ofInt frame.repeat_pict
            * (av_q2d ctx.videoStream_.codec_time_base * double.literal (1 / 2))
        = double.finite d →
      (ctx.synchronizeVideo frame pts).2.videoClock_ = double.round (r + d) := by
    intro r d hr hd
    rw [hclock, hd, hr, double.add_finite]
  refine ⟨?_, ?_, hclock, fun r d hr hd => ⟨hfin r d hr hd, fun c hc => ?_⟩,
    fun hrp hn hdn => ?_⟩
  · intro h
    unfold VideoContext.synchronizeVideo
    dsimp only
    rw [h]
    simp
  · intro h
    unfold VideoContext.synchronizeVideo
    dsimp only
    rw [h]
    simp
  · rw [hfin r d hr hd] at hc
    exact double.round_error _ _ hc
  · obtain ⟨h1, h2⟩ := av_q2d_twice ctx.videoStream_.codec_time_base hn hdn
    rw [hrp] at hclock
    rw [h1] at hclock
    refine ⟨hclock, fun r d hr hd => ?_⟩
    rw [hclock, hr, h2 d hd, double.add_finite]

/-! ## Seek: queues and conversion -/

theorem PacketQueue.list_foldl_push (ps : List AVPacket) (q : PacketQueue) :
    (ps.foldl PacketQueue.push q).list_ = q.list_ ++ ps := by
  induction ps generalizing q with
  | nil => simp
  | cons p ps ih => simp [ih, PacketQueue.push]

theorem VideoContext.seekFrame_fail (ctx : VideoContext) (flush_pkt : AVPacket) (res : Int)
    (tsv tsa : Int) (h : res < 0) :
    ctx.seekFrame flush_pkt res tsv tsa = (false, ctx, flush_pkt) := by
  unfold VideoContext.seekFrame; rw [if_pos h]

theorem VideoContext.seekFrame_ok (ctx : VideoContext) (flush_pkt : AVPacket) (res : Int)
    (tsv tsa : Int) (h : ¬ res < 0) :
    ctx.seekFrame flush_pkt res tsv tsa =
      (true,
       (if ctx.enableAudio then
          ({ ctx with videoQueue_ := ctx.videoQueue_.free.1,
                      audioQueue_ := ctx.audioQueue_.free.1 } : VideoContext).pushAudioPacket
            (some { flush_pkt with dts := wrap64 (ctx.startTimeVideo_ + tsv),
                                   pts := wrap64 (ctx.startTimeAudio_ + tsa) })
        else { ctx with videoQueue_ := ctx.videoQueue_.free.1,
                        audioQueue_ := ctx.audioQueue_.free.1 }).pushVideoPacket
         (some { flush_pkt with dts := wrap64 (ctx.startTimeVideo_ + tsv),
                                pts := wrap64 (ctx.startTimeAudio_ + tsa) }),
       { flush_pkt with dts := wrap64 (ctx.startTimeVideo_ + tsv),
                        pts := wrap64 (ctx.startTimeAudio_ + tsa) }) := by
  unfold VideoContext.seekFrame; rw [if_neg h]; rfl

theorem VideoContext.seekFrame_true_iff (ctx : VideoContext) (flush_pkt : AVPacket) (res : Int)
    (tsv tsa : Int) : (ctx.seekFrame flush_pkt res tsv tsa).1 = true ↔ ¬ res < 0 := by
  by_cases h : res < 0
  · rw [VideoContext.seekFrame_fail ctx flush_pkt res tsv tsa h]; simp [h]
  · rw [VideoContext.seekFrame_ok ctx flush_pkt res tsv tsa h]; simp [h]

theorem VideoContext.list_foldl_pushVideoPacket (ps : List AVPacket) (ctx : VideoContext) :
    (ps.foldl (fun c p => c.pushVideoPacket (some p)) ctx).videoQueue_.list_
      = ctx.videoQueue_.list_ ++ ps := by
  induction ps generalizing ctx with
  | nil => simp
  | cons p ps ih =>
    rw [List.foldl_cons, ih]
    simp [VideoContext.pushVideoPacket, PacketQueue.push]

theorem VideoContext.list_foldl_pushAudioPacket (ps : List AVPacket) (ctx : VideoContext) :
    (ps.foldl (fun c p => c.pushAudioPacket (some p)) ctx).audioQueue_.list_
      = ctx.audioQueue_.list_ ++ ps := by
  induction ps generalizing ctx with
  | nil => simp
  | cons p ps ih =>
    rw [List.foldl_cons, ih]
    simp [VideoContext.pushAudioPacket, PacketQueue.push]

theorem VideoContext.seekFrame_video_list (ctx : VideoContext) (flush_pkt : AVPacket)
    (res tsv tsa : Int) (h : ¬ res < 0) :
    (ctx.seekFrame flush_pkt res tsv tsa).2.1.videoQueue_.list_
      = [(ctx.seekFrame flush_pkt res tsv tsa).2.2] := by
  rw [VideoContext.seekFrame_ok ctx flush_pkt res tsv tsa h]
  cases ha : ctx.enableAudio <;>
    simp [VideoContext.pushVideoPacket, VideoContext.pushAudioPacket, PacketQueue.push,
      PacketQueue.free]

theorem VideoContext.seekFrame_audio_list (ctx : VideoContext) (flush_pkt : AVPacket)
    (res tsv tsa : Int) (h : ¬ res < 0) :
    (ctx.seekFrame flush_pkt res tsv tsa).2.1.audioQueue_.list_
      = if ctx.enableAudio then [(ctx.seekFrame flush_pkt res tsv tsa).2.2] else [] := by
  rw [VideoContext.seekFrame_ok ctx flush_pkt res tsv tsa h]
  cases ha : ctx.enableAudio <;>
    simp [VideoContext.pushVideoPacket, VideoContext.pushAudioPacket, PacketQueue.push,
      PacketQueue.free]

/-- C13, as stated, fails: a successful seek on a file without an audio stream
leaves the audio queue empty, not holding one flush marker. -/
theorem seekFrame_queues_counterexample :
    ¬ (∀ (ctx : VideoContext) (flush_pkt : AVPacket) (res tsv tsa : Int),
        (ctx.seekFrame flush_pkt res tsv tsa).1 = true →
          (ctx.seekFrame flush_pkt res tsv tsa).2.1.videoQueue_.list_
            = [(ctx.seekFrame flush_pkt res tsv tsa).2.2] ∧
          (ctx.seekFrame flush_pkt res tsv tsa).2.1.audioQueue_.list_
            = [(ctx.seekFrame flush_pkt res tsv tsa).2.2]) := by
  intro h
  have h1 := (h { audioStream_ := none } flush_pkt_init 0 40 0 (by decide)).2
  rw [VideoContext.seekFrame_audio_list _ _ _ _ _ (by decide)] at h1
  revert h1
  decide

/-- C13 (amended): after a successful seek every packet queued before has been
removed; the video queue holds exactly one packet, the flush marker (the static
`flush_pkt` with the resolved targets as dts and pts), and the audio queue holds
exactly that marker when an audio stream exists and is empty otherwise; packets
pushed afterwards are queued behind the marker. -/
theorem seekFrame_queues (ctx : VideoContext) (flush_pkt : AVPacket) (res tsv tsa : Int)
    (ps : List AVPacket) (h : (ctx.seekFrame flush_pkt res tsv tsa).1 = true) :
    (ctx.seekFrame flush_pkt res tsv tsa).2.2
      = { flush_pkt with dts := wrap64 (ctx.startTimeVideo_ + tsv),
                         pts := wrap64 (ctx.startTimeAudio_ + tsa) } ∧
    (ctx.seekFrame flush_pkt res tsv tsa).2.1.videoQueue_.list_
      = [(ctx.seekFrame flush_pkt res tsv tsa).2.2] ∧
    (ctx.seekFrame flush_pkt res tsv tsa).2.1.audioQueue_.list_
      = (if ctx.enableAudio then [(ctx.seekFrame flush_pkt res tsv tsa).2.2] else []) ∧
    (ps.foldl (fun c p => c.pushVideoPacket (some p))
        (ctx.seekFrame flush_pkt res tsv tsa).2.1).videoQueue_.list_
      = (ctx.seekFrame flush_pkt res tsv tsa).2.2 :: ps ∧
    (ps.foldl (fun c p => c.pushAudioPacket (some p))
        (ctx.seekFrame flush_pkt res tsv tsa).2.1).audioQueue_.list_
      = (if ctx.enableAudio then [(ctx.seekFrame flush_pkt res tsv tsa).2.2] else []) ++ ps := by
  have hr : ¬ res < 0 := (VideoContext.seekFrame_true_iff ctx flush_pkt res tsv tsa).mp h
  refine ⟨?_, VideoContext.seekFrame_video_list ctx flush_pkt res tsv tsa hr,
    VideoContext.seekFrame_audio_list ctx flush_pkt res tsv tsa hr, ?_, ?_⟩
  · rw [VideoContext.seekFrame_ok ctx flush_pkt res tsv tsa hr]
  · rw [VideoContext.list_foldl_pushVideoPacket,
      VideoContext.seekFrame_video_list ctx flush_pkt res tsv tsa hr]
    rfl
  · rw [VideoContext.list_foldl_pushAudioPacket,
      VideoContext.seekFrame_audio_list ctx flush_pkt res tsv tsa hr]

/-- Witness of C13 (amended): a context with an audio stream that holds two
video packets and one audio packet, start time 1000, seek to tick 40. -/
theorem seekFrame_queues_witness :
    (({ audioStream_ := some { index := 1 }, startTimeVideo_ := 1000,
        videoQueue_ := (PacketQueue.new.push { data := DataPtr.buffer 1, size := 10 }).push
          { data := DataPtr.buffer 2, size := 20 },
        audioQueue_ := PacketQueue.new.push { data := DataPtr.buffer 3, size := 5,
                                              stream_index := 1 } }
        : VideoContext).seekFrame flush_pkt_init 0 40 0).2.1.videoQueue_.list_
      = [{ data := DataPtr.flush_pkt, size := 0, stream_index := 0,
           pts := 0, dts := 1040 }] := by
  have h := (seekFrame_queues
    { audioStream_ := some { index := 1 }, startTimeVideo_ := 1000,
      videoQueue_ := (PacketQueue.new.push { data := DataPtr.buffer 1, size := 10 }).push
        { data := DataPtr.buffer 2, size := 20 },
      audioQueue_ := PacketQueue.new.push { data := DataPtr.buffer 3, size := 5,
                                            stream_index := 1 } }
    flush_pkt_init 0 40 0 [] (by decide))
  rw [h.2.1, h.1]
  decide

theorem av_rescale_nonneg_eq (a b c : Int) (ha : 0 ≤ a) (hb : 0 ≤ b) (hc : 0 < c) :
    av_rescale a b c = (a * b + c / 2) / c := by
  unfold av_rescale
  rw [if_neg (by omega), if_neg (by omega)]

theorem rescale_bounds (N c : Int) (hN : 0 ≤ N) (hc : 0 < c) :
    2 * N - c ≤ 2 * ((N + c / 2) / c * c) ∧ 2 * ((N + c / 2) / c * c) ≤ 2 * N + c ∧
    0 ≤ (N + c / 2) / c := by
  have h1 : (N + c / 2) / c * c ≤ N + c / 2 := Int.ediv_mul_le _ (ne_of_gt hc)
  have h2 : N + c / 2 < ((N + c / 2) / c + 1) * c := Int.lt_ediv_add_one_mul_self _ hc
  have h3 : 0 ≤ (N + c / 2) / c := Int.ediv_nonneg (by omega) (le_of_lt hc)
  refine ⟨?_, ?_, h3⟩
  · have h4 : ((N + c / 2) / c + 1) * c = (N + c / 2) / c * c + c := by ring
    omega
  · omega

theorem tdiv_1000_within_tick (N c r : Int) (hN : 0 ≤ N) (hc : 0 < c)
    (hlo : 2 * N - c ≤ 2 * (r * c)) (hhi : 2 * (r * c) ≤ 2 * N + c) :
    |((Int.tdiv r 1000 : Int) : ℚ) - (N : ℚ) / (1000 * (c : ℚ))| < 1 := by
  have hr0 : 0 ≤ r := by
    by_contra hneg
    have h1 : r ≤ -1 := by omega
    have h2 : r * c ≤ -c := by nlinarith
    omega
  rw [Int.tdiv_eq_ediv hr0 (by decide)]
  have hc1 : r / 1000 * 1000 ≤ r := by omega
  have hc2 : r ≤ r / 1000 * 1000 + 999 := by omega
  have hx1 : 2 * (1000 * (r / 1000 * c)) ≤ 2 * N + c := by nlinarith
  have hx2 : 2 * N - c - 1998 * c ≤ 2 * (1000 * (r / 1000 * c)) := by nlinarith
  have hx1q : (2 : ℚ) * (1000 * (((r / 1000 : Int) : ℚ) * (c : ℚ))) ≤ 2 * (N : ℚ) + (c : ℚ) := by
    exact_mod_cast hx1
  have hx2q : (2 : ℚ) * (N : ℚ) - (c : ℚ) - 1998 * (c : ℚ)
      ≤ 2 * (1000 * (((r / 1000 : Int) : ℚ) * (c : ℚ))) := by
    exact_mod_cast hx2
  have hq : (0 : ℚ) < (c : ℚ) := by exact_mod_cast hc
  have hq1000 : (0 : ℚ) < 1000 * (c : ℚ) := by linarith
  have e : ((r / 1000 : Int) : ℚ) - (N : ℚ) / (1000 * (c : ℚ))
      = (((r / 1000 : Int) : ℚ) * (1000 * (c : ℚ)) - (N : ℚ)) / (1000 * (c : ℚ)) := by
    field_simp
  rw [e, abs_div, abs_of_pos hq1000, div_lt_iff₀ hq1000, abs_lt]
  constructor <;> linarith

theorem nearest_bounds (N c r : Int) (hc : 0 < c)
    (h : |((r : Int) : ℚ) - (N : ℚ) / (c : ℚ)| ≤ 1 / 2) :
    2 * N - c ≤ 2 * (r * c) ∧ 2 * (r * c) ≤ 2 * N + c := by
  have hq : (0 : ℚ) < (c : ℚ) := by exact_mod_cast hc
  have e : (r : ℚ) - (N : ℚ) / (c : ℚ) = ((r : ℚ) * (c : ℚ) - (N : ℚ)) / (c : ℚ) := by
    field_simp
  rw [e, abs_div, abs_of_pos hq, div_le_iff₀ hq, abs_le] at h
  obtain ⟨h1, h2⟩ := h
  constructor
  · have : (2 : ℚ) * (N : ℚ) - (c : ℚ) ≤ 2 * ((r : ℚ) * (c : ℚ)) := by linarith
    exact_mod_cast this
  · have : (2 : ℚ) * ((r : ℚ) * (c : ℚ)) ≤ 2 * (N : ℚ) + (c : ℚ) := by linarith
    exact_mod_cast this

/-- C14: for a target `ms >= 0` and a time base `num/den` with `num, den > 0`,
`seekMs` computes `ts` as `av_rescale(ms, den, num)`, an integer nearest to
`ms * den / num`, divided by 1000 with truncation, and `ts` differs from the
exact conversion `ms * den / (1000 * num)` by less than one tick; the bound holds
for every way of rounding `ms * den / num` to a nearest integer.  `seekMs` passes
exactly these values to `seekFrame`: the video target is `ts` of the video
stream's time base, the audio target is `ts` of the audio stream's time base when
there is an audio stream, and 0 when there is none. -/
theorem seekMs_ts_within_tick (ms num den : Int) (hms : 0 ≤ ms) (hnum : 0 < num)
    (hden : 0 < den) :
    (∀ (ctx : VideoContext) (flush_pkt : AVPacket) (res : Int),
      ctx.videoStream_.time_base = { num := num, den := den } →
        ctx.seekMs flush_pkt res ms
          = ctx.seekFrame flush_pkt res
              (VideoContext.seekMs_ts ms { num := num, den := den })
              (match ctx.audioStream_ with
               | some a => VideoContext.seekMs_ts ms a.time_base
               | none => 0)) ∧
    (∀ (ctx : VideoContext) (flush_pkt : AVPacket) (res : Int) (a : AVStream),
      ctx.audioStream_ = some a → a.time_base = { num := num, den := den } →
        ctx.seekMs flush_pkt res ms
          = ctx.seekFrame flush_pkt res
              (VideoContext.seekMs_ts ms ctx.videoStream_.time_base)
              (VideoContext.seekMs_ts ms { num := num, den := den })) ∧
    (∀ (ctx : VideoContext) (flush_pkt : AVPacket) (res : Int),
      ctx.audioStream_ = none →
        ctx.seekMs flush_pkt res ms
          = ctx.seekFrame flush_pkt res
              (VideoContext.seekMs_ts ms ctx.videoStream_.time_base) 0) ∧
    VideoContext.seekMs_ts ms { num := num, den := den }
      = Int.tdiv (av_rescale ms den num) 1000 ∧
    |((av_rescale ms den num : Int) : ℚ) - (ms : ℚ) * (den : ℚ) / (num : ℚ)| ≤ 1 / 2 ∧
    |((VideoContext.seekMs_ts ms { num := num, den := den } : Int) : ℚ)
        - (ms : ℚ) * (den : ℚ) / (1000 * (num : ℚ))| < 1 ∧
    (∀ r : Int, |((r : Int) : ℚ) - (ms : ℚ) * (den : ℚ) / (num : ℚ)| ≤ 1 / 2 →
      |((Int.tdiv r 1000 : Int) : ℚ) - (ms : ℚ) * (den : ℚ) / (1000 * (num : ℚ))| < 1) := by
  have hN : 0 ≤ ms * den := Int.mul_nonneg hms (le_of_lt hden)
  obtain ⟨hlo, hhi, _⟩ := rescale_bounds (ms * den) num hN hnum
  have hres : av_rescale ms den num = (ms * den + num / 2) / num :=
    av_rescale_nonneg_eq ms den num hms (le_of_lt hden) hnum
  have hcast : ((ms * den : Int) : ℚ) = (ms : ℚ) * (den : ℚ) := by push_cast; rfl
  have hq : (0 : ℚ) < (num : ℚ) := by exact_mod_cast hnum
  refine ⟨fun ctx flush_pkt res htb => ?_, fun ctx flush_pkt res a ha htb => ?_,
    fun ctx flush_pkt res ha => ?_, rfl, ?_, ?_, fun r hr => ?_⟩
  · unfold VideoContext.seekMs
    rw [htb]
  · unfold VideoContext.seekMs
    rw [ha, ← htb]
  · unfold VideoContext.seekMs
    rw [ha]
  · rw [hres]
    have hloq : (2 : ℚ) * ((ms : ℚ) * (den : ℚ)) - (num : ℚ)
        ≤ 2 * ((((ms * den + num / 2) / num : Int) : ℚ) * (num : ℚ)) := by
      exact_mod_cast hlo
    have hhiq : (2 : ℚ) * ((((ms * den + num / 2) / num : Int) : ℚ) * (num : ℚ))
        ≤ 2 * ((ms : ℚ) * (den : ℚ)) + (num : ℚ) := by
      exact_mod_cast hhi
    have e : (((ms * den + num / 2) / num : Int) : ℚ) - (ms : ℚ) * (den : ℚ) / (num : ℚ)
        = ((((ms * den + num / 2) / num : Int) : ℚ) * (num : ℚ) - (ms : ℚ) * (den : ℚ))
            / (num : ℚ) := by
      field_simp
    rw [e, abs_div, abs_of_pos hq, div_le_iff₀ hq, abs_le]
    constructor <;> linarith
  · have h := tdiv_1000_within_tick (ms * den) num ((ms * den + num / 2) / num) hN hnum hlo hhi
    rw [hcast] at h
    unfold VideoContext.seekMs_ts
    rw [hres]
    exact h
  · rw [← hcast] at hr
    obtain ⟨h1, h2⟩ := nearest_bounds (ms * den) num r hnum hr
    have h := tdiv_1000_within_tick (ms * den) num r hN hnum h1 h2
    rw [hcast] at h
    exact h

/-- Witness of C14: 5000 ms on the time base 1/90000 is tick 450000, and a
context whose video and audio streams both use that time base passes 450000 to
`seekFrame` for both. -/
theorem seekMs_ts_within_tick_witness :
    VideoContext.seekMs_ts 5000 { num := 1, den := 90000 } = Int.tdiv (av_rescale 5000 90000 1) 1000 ∧
    |((VideoContext.seekMs_ts 5000 { num := 1, den := 90000 } : Int) : ℚ)
        - ((5000 : Int) : ℚ) * ((90000 : Int) : ℚ) / (1000 * ((1 : Int) : ℚ))| < 1 ∧
    VideoContext.seekMs
        { videoStream_ := { time_base := { num := 1, den := 90000 } },
          audioStream_ := some { time_base := { num := 1, den := 90000 } } }
        flush_pkt_init 0 5000
      = VideoContext.seekFrame
        { videoStream_ := { time_base := { num := 1, den := 90000 } },
          audioStream_ := some { time_base := { num := 1, den := 90000 } } }
        flush_pkt_init 0
        (VideoContext.seekMs_ts 5000 { num := 1, den := 90000 })
        (VideoContext.seekMs_ts 5000 { num := 1, den := 90000 }) :=
  ⟨(seekMs_ts_within_tick 5000 1 90000 (by decide) (by decide) (by decide)).2.2.2.1,
   (seekMs_ts_within_tick 5000 1 90000 (by decide) (by decide) (by decide)).2.2.2.2.2.1,
   (seekMs_ts_within_tick 5000 1 90000 (by decide) (by decide) (by decide)).2.1
     { videoStream_ := { time_base := { num := 1, den := 90000 } },
       audioStream_ := some { time_base := { num := 1, den := 90000 } } }
     flush_pkt_init 0 { time_base := { num := 1, den := 90000 } } rfl rfl⟩

/-! ## Start-time offsets -/

theorem VideoContext.setStartTimeVideo_set (ctx : VideoContext) (a : Int)
    (h : ctx.startTimeVideoSet_ = true) : ctx.setStartTimeVideo a = ctx := by
  unfold VideoContext.setStartTimeVideo; rw [if_pos h]

theorem VideoContext.setStartTimeAudio_set (ctx : VideoContext) (a : Int)
    (h : ctx.startTimeAudioSet_ = true) : ctx.setStartTimeAudio a = ctx := by
  unfold VideoContext.setStartTimeAudio; rw [if_pos h]

theorem VideoContext.foldl_setStartTimeVideo_set (later : List Int) (ctx : VideoContext)
    (h : ctx.startTimeVideoSet_ = true) :
    later.foldl VideoContext.setStartTimeVideo ctx = ctx := by
  induction later with
  | nil => rfl
  | cons a later ih => rw [List.foldl_cons, VideoContext.setStartTimeVideo_set ctx a h, ih]

theorem VideoContext.foldl_setStartTimeAudio_set (later : List Int) (ctx : VideoContext)
    (h : ctx.startTimeAudioSet_ = true) :
    later.foldl VideoContext.setStartTimeAudio ctx = ctx := by
  induction later with
  | nil => rfl
  | cons a later ih => rw [List.foldl_cons, VideoContext.setStartTimeAudio_set ctx a h, ih]

/-- C16, as stated, fails: with the video latch set and offset 5 stored, a
successful seek followed by `setStartTimeVideo(9)` leaves the offset at 5. -/
theorem seek_clears_latch_counterexample :
    ¬ (∀ (ctx : VideoContext) (flush_pkt : AVPacket) (res tsv tsa a : Int),
        (ctx.seekFrame flush_pkt res tsv tsa).1 = true →
          ((ctx.seekFrame flush_pkt res tsv tsa).2.1.setStartTimeVideo a).getStartTimeVideo
            = a) := by
  intro h
  have h1 := h { startTimeVideoSet_ := true, startTimeVideo_ := 5 } flush_pkt_init 0 40 0 9
    (by decide)
  revert h1
  decide

/-- C16 (amended): a seek does not clear the start-time latches: `seekFrame`
leaves both latches and both stored offsets as they were, so the first
`setStartTimeVideo` / `setStartTimeAudio` call after a seek stores its argument
only if the latch of that stream was not set before the seek, and leaves the
stored offset unchanged otherwise. -/
theorem seek_keeps_latch (ctx : VideoContext) (flush_pkt : AVPacket) (res tsv tsa a : Int) :
    (ctx.seekFrame flush_pkt res tsv tsa).2.1.startTimeVideoSet_ = ctx.startTimeVideoSet_ ∧
    (ctx.seekFrame flush_pkt res tsv tsa).2.1.startTimeAudioSet_ = ctx.startTimeAudioSet_ ∧
    (ctx.seekFrame flush_pkt res tsv tsa).2.1.getStartTimeVideo = ctx.getStartTimeVideo ∧
    (ctx.seekFrame flush_pkt res tsv tsa).2.1.getStartTimeAudio = ctx.getStartTimeAudio ∧
    ((ctx.seekFrame flush_pkt res tsv tsa).2.1.setStartTimeVideo a).getStartTimeVideo
      = (if ctx.startTimeVideoSet_ then ctx.getStartTimeVideo else a) ∧
    ((ctx.seekFrame flush_pkt res tsv tsa).2.1.setStartTimeAudio a).getStartTimeAudio
      = (if ctx.startTimeAudioSet_ then ctx.getStartTimeAudio else a) := by
  by_cases hr : res < 0
  · rw [VideoContext.seekFrame_fail ctx flush_pkt res tsv tsa hr]
    refine ⟨rfl, rfl, rfl, rfl, ?_, ?_⟩
    · unfold VideoContext.setStartTimeVideo
      cases ctx.startTimeVideoSet_ <;> rfl
    · unfold VideoContext.setStartTimeAudio
      cases ctx.startTimeAudioSet_ <;> rfl
  · rw [VideoContext.seekFrame_ok ctx flush_pkt res tsv tsa hr]
    cases he : ctx.enableAudio
    · refine ⟨rfl, rfl, rfl, rfl, ?_, ?_⟩
      · unfold VideoContext.setStartTimeVideo
        cases hs : ctx.startTimeVideoSet_ <;>
          simp [hs, VideoContext.pushVideoPacket, VideoContext.getStartTimeVideo]
      · unfold VideoContext.setStartTimeAudio
        cases hs : ctx.startTimeAudioSet_ <;>
          simp [hs, VideoContext.pushVideoPacket, VideoContext.getStartTimeAudio]
    · refine ⟨rfl, rfl, rfl, rfl, ?_, ?_⟩
      · unfold VideoContext.setStartTimeVideo
        cases hs : ctx.startTimeVideoSet_ <;>
          simp [hs, VideoContext.pushVideoPacket, VideoContext.pushAudioPacket,
            VideoContext.getStartTimeVideo]
      · unfold VideoContext.setStartTimeAudio
        cases hs : ctx.startTimeAudioSet_ <;>
          simp [hs, VideoContext.pushVideoPacket, VideoContext.pushAudioPacket,
            VideoContext.getStartTimeAudio]

/-! ## Volume and mute -/

theorem AudioDecodeThread.handleMessage_volume (ctx : VideoContext) (msg : ThreadMessage) :
    (AudioDecodeThread.handleMessage ctx msg).volume_
      = (if msg.message_ = thread_message_type.tmt_set_volume then msg.x_ else ctx.volume_) := by
  unfold AudioDecodeThread.handleMessage
  cases hm : msg.message_ <;> simp <;> rfl

theorem AudioDecodeThread.handleMessage_mute (ctx : VideoContext) (msg : ThreadMessage) :
    (AudioDecodeThread.handleMessage ctx msg).mute_
      = (if msg.message_ = thread_message_type.tmt_set_mute then decide (msg.x_ ≠ 0)
          else ctx.mute_) := by
  unfold AudioDecodeThread.handleMessage
  cases hm : msg.message_ <;> simp <;> rfl

theorem AudioDecodeThread.foldl_handleMessage_volume_mute (msgs : List ThreadMessage)
    (ctx : VideoContext) :
    (msgs.foldl AudioDecodeThread.handleMessage ctx).volume_ = latestVolume ctx.volume_ msgs ∧
    (msgs.foldl AudioDecodeThread.handleMessage ctx).mute_ = latestMute ctx.mute_ msgs := by
  induction msgs generalizing ctx with
  | nil => exact ⟨rfl, rfl⟩
  | cons m msgs ih =>
    obtain ⟨hv, hm⟩ := ih (AudioDecodeThread.handleMessage ctx m)
    rw [List.foldl_cons, hv, hm, AudioDecodeThread.handleMessage_volume,
      AudioDecodeThread.handleMessage_mute]
    exact ⟨rfl, rfl⟩

theorem gainNear_all : (List.range 101).all gainNear = true := by decide!

theorem double.gain_near (v : Int) (h0 : 0 ≤ v) (h100 : v ≤ 100) :
    ∃ g : ℚ, (if false = true then double.finite 0
        else double.toFloat (double.floatOfInt v / double.literal 100)) = double.finite g ∧
      |g - (v : ℚ) / 100| ≤ 1 / 33554432 := by
  have h := gainNear_all
  rw [List.all_eq_true] at h
  have hv := h v.toNat (List.mem_range.mpr (by omega))
  have hvv : ((v.toNat : Nat) : Int) = v := Int.toNat_of_nonneg h0
  unfold gainNear at hv
  rw [hvv] at hv
  simp only [Bool.false_eq_true, if_false]
  cases hg : double.toFloat (double.floatOfInt v / double.literal 100) with
  | finite g =>
    rw [hg] at hv
    exact ⟨g, rfl, of_decide_eq_true hv⟩
  | infinity s => rw [hg] at hv; exact absurd hv (by simp)
  | nan => rw [hg] at hv; exact absurd hv (by simp)

/-- C17, as stated, fails: the gain is an `ALfloat`.  From a new context a
set-volume message of 33 leaves a gain of 11072963/33554432 (0.33000001...), the
`float` nearest to the `double` quotient, not 33/100. -/
theorem playNextAudioFrame_gain_counterexample :
    ¬ (∀ (ctx : VideoContext) (msgs : List ThreadMessage),
        latestMute ctx.mute_ msgs = false →
        (msgs.foldl AudioDecodeThread.handleMessage ctx).playNextAudioFrame_volume
          = double.finite ((latestVolume ctx.volume_ msgs : ℚ) / 100)) := by
  intro h
  have h1 := h {} [{ message_ := thread_message_type.tmt_set_volume, x_ := 33 }] (by decide)
  exact absurd h1 (by decide!)

/-- C17 (amended): after the audio thread has handled any sequence of messages,
the gain that `playNextAudioFrame` computes is 0 when the latest mute value is
true, and otherwise the latest volume, converted to `float`, divided by 100 in
`double` arithmetic and converted to `float`; for a volume from 0 to 100 this is
a number within 2^-25 of volume/100.  A set-mute message never changes the
stored volume; from a new context, mute(true) then volume(50) gives gain 0 and
a following mute(false) gives gain 1/2. -/
theorem playNextAudioFrame_gain (ctx : VideoContext) (msgs : List ThreadMessage) (x : Int) :
    (msgs.foldl AudioDecodeThread.handleMessage ctx).playNextAudioFrame_volume
      = (if latestMute ctx.mute_ msgs then double.finite 0
          else double.toFloat
            (double.floatOfInt (latestVolume ctx.volume_ msgs) / double.literal 100)) ∧
    (0 ≤ latestVolume ctx.volume_ msgs → latestVolume ctx.volume_ msgs ≤ 100 →
      latestMute ctx.mute_ msgs = false →
      ∃ g : ℚ, (msgs.foldl AudioDecodeThread.handleMessage ctx).playNextAudioFrame_volume
          = double.finite g ∧
        |g - (latestVolume ctx.volume_ msgs : ℚ) / 100| ≤ 1 / 33554432) ∧
    (AudioDecodeThread.handleMessage ctx
        { message_ := thread_message_type.tmt_set_mute, x_ := x }).volume_ = ctx.volume_ ∧
    ([{ message_ := thread_message_type.tmt_set_mute, x_ := 1 },
      { message_ := thread_message_type.tmt_set_volume, x_ := 50 }].foldl
        AudioDecodeThread.handleMessage ({} : VideoContext)).playNextAudioFrame_volume
      = double.finite 0 ∧
    ([{ message_ := thread_message_type.tmt_set_mute, x_ := 1 },
      { message_ := thread_message_type.tmt_set_volume, x_ := 50 },
      { message_ := thread_message_type.tmt_set_mute, x_ := 0 }].foldl
        AudioDecodeThread.handleMessage ({} : VideoContext)).playNextAudioFrame_volume
      = double.finite (1 / 2) := by
  obtain ⟨hv, hm⟩ := AudioDecodeThread.foldl_handleMessage_volume_mute msgs ctx
  have hgain : (msgs.foldl AudioDecodeThread.handleMessage ctx).playNextAudioFrame_volume
      = (if latestMute ctx.mute_ msgs then double.finite 0
          else double.toFloat
            (double.floatOfInt (latestVolume ctx.volume_ msgs) / double.literal 100)) := by
    unfold VideoContext.playNextAudioFrame_volume
    rw [hv, hm]
    cases latestMute ctx.mute_ msgs
    · rfl
    · rw [if_pos rfl, if_pos rfl]
      decide!
  refine ⟨hgain, fun h0 h100 hmute => ?_, rfl, by decide!, by decide!⟩
  rw [hgain, hmute]
  exact double.gain_near _ h0 h100

/-! ## getNextVideoFrame: the seek guard -/

theorem getNextVideoFrame_fetch_keeps (s s1 : VideoDecodeState)
    (h : getNextVideoFrame_fetch s = some s1) :
    s1.ctx.seek_position_ = s.ctx.seek_position_ ∧ s1.flush_pkt = s.flush_pkt := by
  unfold getNextVideoFrame_fetch at h
  cases hsf : s.stream_finished
  · rw [hsf] at h
    simp only [Bool.false_eq_true, if_false] at h
    cases hl : s.ctx.videoQueue_.list_ with
    | nil => rw [PacketQueue.get_nil _ _ hl] at h; simp at h
    | cons front rest =>
      rw [PacketQueue.get_cons _ _ front rest hl] at h
      simp only [Option.some.injEq] at h
      subst h
      exact ⟨rfl, rfl⟩
  · rw [hsf] at h
    simp only [if_true, Option.some.injEq] at h
    subst h
    exact ⟨rfl, rfl⟩

theorem getNextVideoFrame_decode_guard (s1 : VideoDecodeState) (d : DecodeResult) (T : Int)
    (hT : 0 < T) (hg : s1.ctx.seek_position_ = T) (hf : s1.flush_pkt.dts = T) :
    ((getNextVideoFrame_decode s1 d).1 = LoopStep.ret true ∧
      T ≤ (getNextVideoFrame_decode s1 d).2.frame.pkt_dts) ∨
    ((getNextVideoFrame_decode s1 d).1 ≠ LoopStep.ret true ∧
      (getNextVideoFrame_decode s1 d).2.ctx.seek_position_ = T ∧
      (getNextVideoFrame_decode s1 d).2.flush_pkt.dts = T) := by
  unfold getNextVideoFrame_decode
  dsimp only
  by_cases hfl : s1.packet.data = DataPtr.flush_pkt
  · rw [if_pos hfl]
    exact Or.inr ⟨by simp, hf, hf⟩
  · rw [if_neg hfl]
    by_cases hnull : s1.packet.data = DataPtr.null
    all_goals
      simp only [hnull, if_true, if_false]
      by_cases hlen : d.len < 0
      · rw [if_pos hlen]
        exact Or.inr ⟨by simp, hg, hf⟩
      · rw [if_neg hlen]
        by_cases hgot : d.got_frame ≠ 0
        · simp only [hgot, if_true, not_false_eq_true, ne_eq]
          by_cases hdrop : 0 < s1.ctx.seek_position_ ∧ d.frame.pkt_dts < s1.ctx.seek_position_
          · rw [if_pos hdrop]
            exact Or.inr ⟨by simp, hg, hf⟩
          · rw [if_neg hdrop]
            refine Or.inl ⟨rfl, ?_⟩
            rw [hg] at hdrop
            show T ≤ d.frame.pkt_dts
            by_contra hlt
            exact hdrop ⟨hT, not_le.mp hlt⟩
        · rw [if_neg hgot]
          split_ifs
          all_goals exact Or.inr ⟨by simp, hg, hf⟩

theorem getNextVideoFrame_pass_guard (s : VideoDecodeState) (d : DecodeResult) (T : Int)
    (hT : 0 < T) (hg : s.ctx.seek_position_ = T) (hf : s.flush_pkt.dts = T) :
    ((getNextVideoFrame_pass s d).1 = LoopStep.ret true ∧
      T ≤ (getNextVideoFrame_pass s d).2.frame.pkt_dts) ∨
    ((getNextVideoFrame_pass s d).1 ≠ LoopStep.ret true ∧
      (getNextVideoFrame_pass s d).2.ctx.seek_position_ = T ∧
      (getNextVideoFrame_pass s d).2.flush_pkt.dts = T) := by
  unfold getNextVideoFrame_pass
  by_cases hq : s.ctx.isQuit = true
  · rw [if_pos hq]
    exact Or.inr ⟨by simp, hg, hf⟩
  · rw [if_neg hq]
    unfold getNextVideoFrame_body
    cases hfe : getNextVideoFrame_fetch s with
    | none => exact Or.inr ⟨by simp, hg, hf⟩
    | some s1 =>
      obtain ⟨h1, h2⟩ := getNextVideoFrame_fetch_keeps s s1 hfe
      exact getNextVideoFrame_decode_guard s1 d T hT (h1.trans hg) (by rw [h2]; exact hf)

theorem VideoDecodeState.event_pass_true (s : VideoDecodeState) (d : DecodeResult)
    (h : (getNextVideoFrame_pass s d).1 = LoopStep.ret true) :
    s.event (VideoThreadEvent.pass d)
      = ((getNextVideoFrame_pass s d).2, some (getNextVideoFrame_pass s d).2.frame) := by
  rcases hp : getNextVideoFrame_pass s d with ⟨st, s1⟩
  rw [hp] at h
  simp only at h
  subst h
  simp only [VideoDecodeState.event, hp]

theorem VideoDecodeState.event_pass_other (s : VideoDecodeState) (d : DecodeResult)
    (h : (getNextVideoFrame_pass s d).1 ≠ LoopStep.ret true) :
    s.event (VideoThreadEvent.pass d) = ((getNextVideoFrame_pass s d).2, none) := by
  rcases hp : getNextVideoFrame_pass s d with ⟨st, s1⟩
  rw [hp] at h
  simp only at h
  cases st with
  | next => simp only [VideoDecodeState.event, hp]
  | ret b =>
    cases b with
    | true => exact absurd rfl h
    | false => simp only [VideoDecodeState.event, hp]

theorem VideoDecodeState.returned_cons_none (s : VideoDecodeState) (e : VideoThreadEvent)
    (es : List VideoThreadEvent) (h : (s.event e).2 = none) :
    s.returned (e :: es) = (s.event e).1.returned es := by
  rw [VideoDecodeState.returned, h]

theorem VideoDecodeState.returned_cons_some (s : VideoDecodeState) (e : VideoThreadEvent)
    (es : List VideoThreadEvent) (f : AVFrame) (h : (s.event e).2 = some f) :
    s.returned (e :: es) = f :: (s.event e).1.returned es := by
  rw [VideoDecodeState.returned, h]

/-- While the guard holds a positive target `T` and no seek intervenes, the
first frame returned has `pkt_dts >= T`. -/
theorem VideoDecodeState.returned_head_guard (evs : List VideoThreadEvent)
    (s : VideoDecodeState) (T : Int) (hT : 0 < T) (hg : s.ctx.seek_position_ = T)
    (hf : s.flush_pkt.dts = T) (hns : ∀ e ∈ evs, e.isSeekFrame = false) (f : AVFrame)
    (hh : (s.returned evs).head? = some f) : T ≤ f.pkt_dts := by
  induction evs generalizing s with
  | nil => simp [VideoDecodeState.returned] at hh
  | cons e es ih =>
    have hes : ∀ e ∈ es, e.isSeekFrame = false := fun x hx => hns x (List.mem_cons_of_mem _ hx)
    cases e with
    | pass d =>
      rcases getNextVideoFrame_pass_guard s d T hT hg hf with ⟨h1, h2⟩ | ⟨h1, h2, h3⟩
      · rw [VideoDecodeState.returned_cons_some s _ es _
          (by rw [VideoDecodeState.event_pass_true s d h1])] at hh
        simp only [List.head?_cons, Option.some.injEq] at hh
        rw [← hh]
        exact h2
      · rw [VideoDecodeState.returned_cons_none s _ es
          (by rw [VideoDecodeState.event_pass_other s d h1])] at hh
        rw [VideoDecodeState.event_pass_other s d h1] at hh
        exact ih _ h2 h3 hes hh
    | newCall =>
      rw [VideoDecodeState.returned_cons_none s VideoThreadEvent.newCall es rfl] at hh
      exact ih (s.event VideoThreadEvent.newCall).1 hg hf hes hh
    | resetStreamFinished =>
      rw [VideoDecodeState.returned_cons_none s VideoThreadEvent.resetStreamFinished es rfl] at hh
      exact ih (s.event VideoThreadEvent.resetStreamFinished).1 hg hf hes hh
    | demuxPush p =>
      rw [VideoDecodeState.returned_cons_none s (VideoThreadEvent.demuxPush p) es rfl] at hh
      refine ih (s.event (VideoThreadEvent.demuxPush p)).1 ?_ hf hes hh
      cases p <;> exact hg
    | seekFrame r tv ta =>
      exact absurd (hns _ (List.mem_cons_self _ _)) (by simp [VideoThreadEvent.isSeekFrame])
    | setQuit b =>
      rw [VideoDecodeState.returned_cons_none s (VideoThreadEvent.setQuit b) es rfl] at hh
      exact ih (s.event (VideoThreadEvent.setQuit b)).1 hg hf hes hh

theorem getNextVideoFrame_pass_quit (s : VideoDecodeState) (d : DecodeResult)
    (hq : s.ctx.quit_ = true) : getNextVideoFrame_pass s d = (LoopStep.ret false, s) := by
  unfold getNextVideoFrame_pass VideoContext.isQuit
  rw [if_pos hq]

/-- The pass that finds a flush marker at the head of the video queue takes it,
copies the dts of the static `flush_pkt` into the seek guard and continues. -/
theorem getNextVideoFrame_pass_marker (s : VideoDecodeState) (d : DecodeResult) (m : AVPacket)
    (rest : List AVPacket) (hquit : s.ctx.quit_ = false) (hsf : s.stream_finished = false)
    (hq : s.ctx.videoQueue_.list_ = m :: rest) (hm : m.data = DataPtr.flush_pkt) :
    getNextVideoFrame_pass s d =
      (LoopStep.next,
       { s with
         ctx := { s.ctx with
                  videoQueue_ := { list_ := rest
                                   packets_ := wrap32 (s.ctx.videoQueue_.packets_ - 1)
                                   size_ := wrap32 (s.ctx.videoQueue_.size_ - m.size) }
                  seek_position_ := s.flush_pkt.dts }
         packet := m }) := by
  unfold getNextVideoFrame_pass VideoContext.isQuit
  rw [hquit]
  simp only [Bool.false_eq_true, if_false]
  unfold getNextVideoFrame_body getNextVideoFrame_fetch
  rw [hsf]
  simp only [Bool.false_eq_true, if_false]
  rw [PacketQueue.get_cons _ _ m rest hq]
  simp only
  unfold getNextVideoFrame_decode
  simp only [hm, if_true]

/-- While a flush marker heads the video queue, the stream is not finished, the
static `flush_pkt` holds a positive target `T` and no seek intervenes, the first
frame returned has `pkt_dts >= T`. -/
theorem VideoDecodeState.returned_head_marker (evs : List VideoThreadEvent)
    (s : VideoDecodeState) (m : AVPacket) (rest : List AVPacket) (T : Int) (hT : 0 < T)
    (hq : s.ctx.videoQueue_.list_ = m :: rest) (hm : m.data = DataPtr.flush_pkt)
    (hf : s.flush_pkt.dts = T) (hsf : s.stream_finished = false)
    (hns : ∀ e ∈ evs, e.isSeekFrame = false) (f : AVFrame)
    (hh : (s.returned evs).head? = some f) : T ≤ f.pkt_dts := by
  induction evs generalizing s rest with
  | nil => simp [VideoDecodeState.returned] at hh
  | cons e es ih =>
    have hes : ∀ e ∈ es, e.isSeekFrame = false := fun x hx => hns x (List.mem_cons_of_mem _ hx)
    cases e with
    | pass d =>
      cases hquit : s.ctx.quit_ with
      | true =>
        have hp := getNextVideoFrame_pass_quit s d hquit
        have hne : (getNextVideoFrame_pass s d).1 ≠ LoopStep.ret true := by rw [hp]; simp
        rw [VideoDecodeState.returned_cons_none s _ es
          (by rw [VideoDecodeState.event_pass_other s d hne])] at hh
        rw [VideoDecodeState.event_pass_other s d hne, hp] at hh
        exact ih s rest hq hf hsf hes hh
      | false =>
        have hp := getNextVideoFrame_pass_marker s d m rest hquit hsf hq hm
        have hne : (getNextVideoFrame_pass s d).1 ≠ LoopStep.ret true := by rw [hp]; simp
        rw [VideoDecodeState.returned_cons_none s _ es
          (by rw [VideoDecodeState.event_pass_other s d hne])] at hh
        rw [VideoDecodeState.event_pass_other s d hne] at hh
        have hg2 : (getNextVideoFrame_pass s d).2.ctx.seek_position_ = T := by
          rw [hp]; exact hf
        have hf2 : (getNextVideoFrame_pass s d).2.flush_pkt.dts = T := by
          rw [hp]; exact hf
        exact VideoDecodeState.returned_head_guard es (getNextVideoFrame_pass s d).2 T hT
          hg2 hf2 hes f hh
    | newCall =>
      rw [VideoDecodeState.returned_cons_none s VideoThreadEvent.newCall es rfl] at hh
      exact ih (s.event VideoThreadEvent.newCall).1 rest hq hf hsf hes hh
    | resetStreamFinished =>
      rw [VideoDecodeState.returned_cons_none s VideoThreadEvent.resetStreamFinished es rfl] at hh
      exact ih (s.event VideoThreadEvent.resetStreamFinished).1 rest hq hf rfl hes hh
    | demuxPush p =>
      rw [VideoDecodeState.returned_cons_none s (VideoThreadEvent.demuxPush p) es rfl] at hh
      cases p with
      | none =>
        refine ih (s.event (VideoThreadEvent.demuxPush none)).1
          (rest ++ [{ data := DataPtr.null, size := 0,
                      stream_index := s.ctx.getVideoStreamIndex,
                      pts := AV_NOPTS_VALUE, dts := AV_NOPTS_VALUE }]) ?_ hf hsf hes hh
        show s.ctx.videoQueue_.list_ ++ _ = _
        rw [hq]; rfl
      | some x =>
        refine ih (s.event (VideoThreadEvent.demuxPush (some x))).1 (rest ++ [x]) ?_ hf hsf hes hh
        show s.ctx.videoQueue_.list_ ++ _ = _
        rw [hq]; rfl
    | seekFrame r tv ta =>
      exact absurd (hns _ (List.mem_cons_self _ _)) (by simp [VideoThreadEvent.isSeekFrame])
    | setQuit b =>
      rw [VideoDecodeState.returned_cons_none s (VideoThreadEvent.setQuit b) es rfl] at hh
      exact ih (s.event (VideoThreadEvent.setQuit b)).1 rest hq hf hsf hes hh

theorem VideoStepState.steps_returned_cons_none (t : VideoStepState) (e : VideoStep)
    (es : List VideoStep) (h : (t.step e).2 = none) :
    t.returned (e :: es) = (t.step e).1.returned es := by
  rw [VideoStepState.returned, h]

theorem VideoStepState.steps_returned_cons_some (t : VideoStepState) (e : VideoStep)
    (es : List VideoStep) (f : AVFrame) (h : (t.step e).2 = some f) :
    t.returned (e :: es) = f :: (t.step e).1.returned es := by
  rw [VideoStepState.returned, h]

theorem VideoStepState.step_decode_true (t : VideoStepState) (d : DecodeResult)
    (hf : t.fetched = true) (h : (getNextVideoFrame_decode t.s d).1 = LoopStep.ret true) :
    t.step (VideoStep.decode d)
      = ({ s := (getNextVideoFrame_decode t.s d).2, fetched := false },
         some (getNextVideoFrame_decode t.s d).2.frame) := by
  rcases hp : getNextVideoFrame_decode t.s d with ⟨st, s1⟩
  rw [hp] at h
  simp only at h
  subst h
  simp only [VideoStepState.step, hf, hp, if_true]

theorem VideoStepState.step_decode_other (t : VideoStepState) (d : DecodeResult)
    (hf : t.fetched = true) (h : (getNextVideoFrame_decode t.s d).1 ≠ LoopStep.ret true) :
    t.step (VideoStep.decode d)
      = ({ s := (getNextVideoFrame_decode t.s d).2, fetched := false }, none) := by
  rcases hp : getNextVideoFrame_decode t.s d with ⟨st, s1⟩
  rw [hp] at h
  simp only at h
  cases st with
  | next => simp only [VideoStepState.step, hf, hp, if_true]
  | ret b =>
    cases b with
    | true => exact absurd rfl h
    | false => simp only [VideoStepState.step, hf, hp, if_true]

theorem VideoStepState.step_decode_idle (t : VideoStepState) (d : DecodeResult)
    (hf : t.fetched = false) : t.step (VideoStep.decode d) = (t, none) := by
  simp only [VideoStepState.step, hf, Bool.false_eq_true, if_false]

/-- A `fetch` step hands no frame to the caller, and leaves the seek guard and
the static `flush_pkt` as they are. -/
theorem VideoStepState.step_fetch (t : VideoStepState) :
    (t.step VideoStep.fetch).2 = none ∧
    (t.step VideoStep.fetch).1.s.ctx.seek_position_ = t.s.ctx.seek_position_ ∧
    (t.step VideoStep.fetch).1.s.flush_pkt = t.s.flush_pkt := by
  simp only [VideoStepState.step]
  split_ifs
  · exact ⟨rfl, rfl, rfl⟩
  · exact ⟨rfl, rfl, rfl⟩
  · cases hfe : getNextVideoFrame_fetch t.s with
    | none => exact ⟨rfl, rfl, rfl⟩
    | some s1 =>
      obtain ⟨h1, h2⟩ := getNextVideoFrame_fetch_keeps t.s s1 hfe
      exact ⟨rfl, h1, h2⟩

/-- While the guard holds a positive target `T` and no seek intervenes, the
first frame returned has `pkt_dts >= T`, whatever the other threads do between
the steps of a pass. -/
theorem VideoStepState.steps_returned_head_guard (evs : List VideoStep) (t : VideoStepState)
    (T : Int) (hT : 0 < T) (hg : t.s.ctx.seek_position_ = T) (hf : t.s.flush_pkt.dts = T)
    (hns : ∀ e ∈ evs, e.isSeekFrame = false) (f : AVFrame)
    (hh : (t.returned evs).head? = some f) : T ≤ f.pkt_dts := by
  induction evs generalizing t with
  | nil => simp [VideoStepState.returned] at hh
  | cons e es ih =>
    have hes : ∀ e ∈ es, e.isSeekFrame = false := fun x hx => hns x (List.mem_cons_of_mem _ hx)
    cases e with
    | fetch =>
      obtain ⟨h1, h2, h3⟩ := VideoStepState.step_fetch t
      rw [VideoStepState.steps_returned_cons_none t _ es h1] at hh
      exact ih _ (h2.trans hg) (by rw [h3]; exact hf) hes hh
    | decode d =>
      cases hfe : t.fetched with
      | false =>
        rw [VideoStepState.steps_returned_cons_none t _ es
          (by rw [VideoStepState.step_decode_idle t d hfe])] at hh
        rw [VideoStepState.step_decode_idle t d hfe] at hh
        exact ih t hg hf hes hh
      | true =>
        rcases getNextVideoFrame_decode_guard t.s d T hT hg hf with ⟨h1, h2⟩ | ⟨h1, h2, h3⟩
        · rw [VideoStepState.steps_returned_cons_some t _ es _
            (by rw [VideoStepState.step_decode_true t d hfe h1])] at hh
          simp only [List.head?_cons, Option.some.injEq] at hh
          rw [← hh]
          exact h2
        · rw [VideoStepState.steps_returned_cons_none t _ es
            (by rw [VideoStepState.step_decode_other t d hfe h1])] at hh
          rw [VideoStepState.step_decode_other t d hfe h1] at hh
          exact ih _ h2 h3 hes hh
    | newCall =>
      have h1 : (t.step VideoStep.newCall).2 = none := by
        simp only [VideoStepState.step]; split_ifs <;> rfl
      rw [VideoStepState.steps_returned_cons_none t _ es h1] at hh
      refine ih _ ?_ ?_ hes hh
      · simp only [VideoStepState.step]; split_ifs <;> exact hg
      · simp only [VideoStepState.step]; split_ifs <;> exact hf
    | resetStreamFinished =>
      have h1 : (t.step VideoStep.resetStreamFinished).2 = none := by
        simp only [VideoStepState.step]; split_ifs <;> rfl
      rw [VideoStepState.steps_returned_cons_none t _ es h1] at hh
      refine ih _ ?_ ?_ hes hh
      · simp only [VideoStepState.step]; split_ifs <;> exact hg
      · simp only [VideoStepState.step]; split_ifs <;> exact hf
    | demuxPush p =>
      rw [VideoStepState.steps_returned_cons_none t (VideoStep.demuxPush p) es rfl] at hh
      refine ih (t.step (VideoStep.demuxPush p)).1 ?_ hf hes hh
      cases p <;> exact hg
    | seekFrame r tv ta =>
      exact absurd (hns _ (List.mem_cons_self _ _)) (by simp [VideoStep.isSeekFrame])
    | setQuit b =>
      rw [VideoStepState.steps_returned_cons_none t (VideoStep.setQuit b) es rfl] at hh
      exact ih (t.step (VideoStep.setQuit b)).1 hg hf hes hh

/-- The step that looks at a flush marker copies the dts of the static
`flush_pkt` into the seek guard and ends the pass with `continue`. -/
theorem getNextVideoFrame_decode_marker (s : VideoDecodeState) (d : DecodeResult)
    (hm : s.packet.data = DataPtr.flush_pkt) :
    getNextVideoFrame_decode s d
      = (LoopStep.next, { s with ctx := { s.ctx with seek_position_ := s.flush_pkt.dts } }) := by
  unfold getNextVideoFrame_decode
  rw [if_pos hm]

/-- While the video thread holds a flush marker it has not yet looked at, the
static `flush_pkt` holds a positive target `T` and no seek intervenes, the first
frame returned has `pkt_dts >= T`. -/
theorem VideoStepState.steps_returned_head_fetched (evs : List VideoStep) (t : VideoStepState)
    (T : Int) (hT : 0 < T) (hfe : t.fetched = true) (hm : t.s.packet.data = DataPtr.flush_pkt)
    (hf : t.s.flush_pkt.dts = T) (hns : ∀ e ∈ evs, e.isSeekFrame = false) (f : AVFrame)
    (hh : (t.returned evs).head? = some f) : T ≤ f.pkt_dts := by
  induction evs generalizing t with
  | nil => simp [VideoStepState.returned] at hh
  | cons e es ih =>
    have hes : ∀ e ∈ es, e.isSeekFrame = false := fun x hx => hns x (List.mem_cons_of_mem _ hx)
    cases e with
    | fetch =>
      have h1 : t.step VideoStep.fetch = (t, none) := by
        simp only [VideoStepState.step, hfe, if_true]
      rw [VideoStepState.steps_returned_cons_none t _ es (by rw [h1])] at hh
      rw [h1] at hh
      exact ih t hfe hm hf hes hh
    | decode d =>
      have hd := getNextVideoFrame_decode_marker t.s d hm
      have hne : (getNextVideoFrame_decode t.s d).1 ≠ LoopStep.ret true := by rw [hd]; simp
      rw [VideoStepState.steps_returned_cons_none t _ es
        (by rw [VideoStepState.step_decode_other t d hfe hne])] at hh
      rw [VideoStepState.step_decode_other t d hfe hne] at hh
      refine VideoStepState.steps_returned_head_guard es _ T hT ?_ ?_ hes f hh
      · show (getNextVideoFrame_decode t.s d).2.ctx.seek_position_ = T
        rw [hd]; exact hf
      · show (getNextVideoFrame_decode t.s d).2.flush_pkt.dts = T
        rw [hd]; exact hf
    | newCall =>
      have h1 : t.step VideoStep.newCall = (t, none) := by
        simp only [VideoStepState.step, hfe, if_true]
      rw [VideoStepState.steps_returned_cons_none t _ es (by rw [h1])] at hh
      rw [h1] at hh
      exact ih t hfe hm hf hes hh
    | resetStreamFinished =>
      have h1 : t.step VideoStep.resetStreamFinished = (t, none) := by
        simp only [VideoStepState.step, hfe, if_true]
      rw [VideoStepState.steps_returned_cons_none t _ es (by rw [h1])] at hh
      rw [h1] at hh
      exact ih t hfe hm hf hes hh
    | demuxPush p =>
      rw [VideoStepState.steps_returned_cons_none t (VideoStep.demuxPush p) es rfl] at hh
      exact ih (t.step (VideoStep.demuxPush p)).1 hfe hm hf hes hh
    | seekFrame r tv ta =>
      exact absurd (hns _ (List.mem_cons_self _ _)) (by simp [VideoStep.isSeekFrame])
    | setQuit b =>
      rw [VideoStepState.steps_returned_cons_none t (VideoStep.setQuit b) es rfl] at hh
      exact ih (t.step (VideoStep.setQuit b)).1 hfe hm hf hes hh

/-- The `get` of a pass that finds a flush marker at the head of the video queue
takes it. -/
theorem getNextVideoFrame_fetch_marker (s : VideoDecodeState) (m : AVPacket)
    (rest : List AVPacket) (hsf : s.stream_finished = false)
    (hq : s.ctx.videoQueue_.list_ = m :: rest) :
    ∃ s1, getNextVideoFrame_fetch s = some s1 ∧ s1.packet = m ∧ s1.flush_pkt = s.flush_pkt ∧
      s1.ctx.videoQueue_.list_ = rest ∧ s1.stream_finished = false ∧
      s1.ctx.seek_position_ = s.ctx.seek_position_ := by
  unfold getNextVideoFrame_fetch
  rw [hsf]
  simp only [Bool.false_eq_true, if_false]
  rw [PacketQueue.get_cons _ _ m rest hq]
  exact ⟨_, rfl, rfl, rfl, rfl, rfl, rfl⟩

/-- While a flush marker heads the video queue, the video thread is between two
passes, the stream is not finished, the static `flush_pkt` holds a positive
target `T` and no seek intervenes, the first frame returned has
`pkt_dts >= T`. -/
theorem VideoStepState.steps_returned_head_marker (evs : List VideoStep) (t : VideoStepState)
    (m : AVPacket) (rest : List AVPacket) (T : Int) (hT : 0 < T)
    (hq : t.s.ctx.videoQueue_.list_ = m :: rest) (hm : m.data = DataPtr.flush_pkt)
    (hf : t.s.flush_pkt.dts = T) (hsf : t.s.stream_finished = false)
    (hfe : t.fetched = false) (hns : ∀ e ∈ evs, e.isSeekFrame = false) (f : AVFrame)
    (hh : (t.returned evs).head? = some f) : T ≤ f.pkt_dts := by
  induction evs generalizing t rest with
  | nil => simp [VideoStepState.returned] at hh
  | cons e es ih =>
    have hes : ∀ e ∈ es, e.isSeekFrame = false := fun x hx => hns x (List.mem_cons_of_mem _ hx)
    cases e with
    | fetch =>
      obtain ⟨h1, _, _⟩ := VideoStepState.step_fetch t
      rw [VideoStepState.steps_returned_cons_none t _ es h1] at hh
      cases hquit : t.s.ctx.isQuit with
      | true =>
        have h2 : t.step VideoStep.fetch = (t, none) := by
          simp only [VideoStepState.step, hfe, hquit, Bool.false_eq_true, if_false, if_true]
        rw [h2] at hh
        exact ih t rest hq hf hsf hfe hes hh
      | false =>
        obtain ⟨s1, h3, h4, h5, _, _, _⟩ := getNextVideoFrame_fetch_marker t.s m rest hsf hq
        have h2 : t.step VideoStep.fetch = ({ s := s1, fetched := true }, none) := by
          simp only [VideoStepState.step, hfe, hquit, Bool.false_eq_true, if_false, h3]
        rw [h2] at hh
        exact VideoStepState.steps_returned_head_fetched es _ T hT rfl (by rw [h4]; exact hm)
          (by rw [h5]; exact hf) hes f hh
    | decode d =>
      rw [VideoStepState.steps_returned_cons_none t _ es
        (by rw [VideoStepState.step_decode_idle t d hfe])] at hh
      rw [VideoStepState.step_decode_idle t d hfe] at hh
      exact ih t rest hq hf hsf hfe hes hh
    | newCall =>
      have h1 : t.step VideoStep.newCall
          = ({ t with s := { t.s with frame := av_frame_unref t.s.frame, eof := false } },
             none) := by
        simp only [VideoStepState.step, hfe, Bool.false_eq_true, if_false]
      rw [VideoStepState.steps_returned_cons_none t _ es (by rw [h1])] at hh
      rw [h1] at hh
      exact ih { t with s := { t.s with frame := av_frame_unref t.s.frame, eof := false } }
        rest hq hf hsf hfe hes hh
    | resetStreamFinished =>
      have h1 : t.step VideoStep.resetStreamFinished
          = ({ t with s := { t.s with stream_finished := false } }, none) := by
        simp only [VideoStepState.step, hfe, Bool.false_eq_true, if_false]
      rw [VideoStepState.steps_returned_cons_none t _ es (by rw [h1])] at hh
      rw [h1] at hh
      exact ih { t with s := { t.s with stream_finished := false } } rest hq hf rfl hfe hes hh
    | demuxPush p =>
      rw [VideoStepState.steps_returned_cons_none t (VideoStep.demuxPush p) es rfl] at hh
      cases p with
      | none =>
        refine ih (t.step (VideoStep.demuxPush none)).1
          (rest ++ [{ data := DataPtr.null, size := 0,
                      stream_index := t.s.ctx.getVideoStreamIndex,
                      pts := AV_NOPTS_VALUE, dts := AV_NOPTS_VALUE }]) ?_ hf hsf hfe hes hh
        show t.s.ctx.videoQueue_.list_ ++ _ = _
        rw [hq]; rfl
      | some x =>
        refine ih (t.step (VideoStep.demuxPush (some x))).1 (rest ++ [x]) ?_ hf hsf hfe hes hh
        show t.s.ctx.videoQueue_.list_ ++ _ = _
        rw [hq]; rfl
    | seekFrame r tv ta =>
      exact absurd (hns _ (List.mem_cons_self _ _)) (by simp [VideoStep.isSeekFrame])
    | setQuit b =>
      rw [VideoStepState.steps_returned_cons_none t (VideoStep.setQuit b) es rfl] at hh
      exact ih (t.step (VideoStep.setQuit b)).1 rest hq hf hsf hfe hes hh

/-- C11, as stated, fails in four ways.  (1) The guard is cleared by the first
frame at or after the target: after a seek to target 100 the frames with
`pkt_dts` 100 and then 50 are both returned.  (2) A target that is not positive
arms no guard: after a seek with target -40 a frame with `pkt_dts` -80 is
returned.  (3) While the stream is finished and the decoder is drained the queue
is not read: after a seek to target 100 a frame with `pkt_dts` 50 is returned
without the flush marker being taken.  (4) Only the `get` runs under the mutex of
the queue: the video thread takes a packet, the seek to target 100 runs, and the
packet taken before it is decoded into a frame with `pkt_dts` 50, which is
returned. -/
theorem skip_until_target_counterexample :
    ¬ SkipUntilTarget {} 0 100 0
        [VideoStep.demuxPush (some { data := DataPtr.buffer 1, size := 10 }),
         VideoStep.demuxPush (some { data := DataPtr.buffer 2, size := 10 }),
         VideoStep.fetch, VideoStep.decode {},
         VideoStep.fetch,
         VideoStep.decode { len := 10, got_frame := 1, frame := { pkt_dts := 100 } },
         VideoStep.newCall,
         VideoStep.fetch,
         VideoStep.decode { len := 10, got_frame := 1, frame := { pkt_dts := 50 } }] ∧
    ¬ SkipUntilTarget { s := { ctx := { startTimeVideo_ := -80, startTimeVideoSet_ := true } } }
        0 40 0
        [VideoStep.demuxPush (some { data := DataPtr.buffer 1, size := 10 }),
         VideoStep.fetch, VideoStep.decode {},
         VideoStep.fetch,
         VideoStep.decode { len := 10, got_frame := 1, frame := { pkt_dts := -80 } }] ∧
    ¬ SkipUntilTarget { s := { ctx := { seek_position_ := 0 }, stream_finished := true } } 0 100 0
        [VideoStep.fetch,
         VideoStep.decode { len := 0, got_frame := 1, frame := { pkt_dts := 50 } }] ∧
    ¬ SkipUntilTarget
        (({} : VideoStepState).run
          [VideoStep.demuxPush (some { data := DataPtr.buffer 1, size := 10 }), VideoStep.fetch])
        0 100 0
        [VideoStep.decode { len := 10, got_frame := 1, frame := { pkt_dts := 50 } }] := by
  refine ⟨fun h => ?_, fun h => ?_, fun h => ?_, fun h => ?_⟩
  · have h1 := h { pkt_dts := 50 } (by decide)
    revert h1
    decide
  · have h1 := h { pkt_dts := -80 } (by decide)
    revert h1
    decide
  · have h1 := h { pkt_dts := 50 } (by decide)
    revert h1
    decide
  · have h1 := h { pkt_dts := 50 } (by decide)
    revert h1
    decide

/-- C11 (amended): after a successful seek whose resolved video target `T`
(`startTimeVideo_` plus the converted target) is positive, made while
`getNextVideoFrame` is not draining a finished stream and while the video thread
holds no packet that it has taken from the queue and not yet looked at, the
first frame that `getNextVideoFrame` returns before the next seek has
`pkt_dts >= T`, whatever the other threads do between the `get` of a pass and
the rest of it: frames with `pkt_dts < T` are dropped until then.  Frames
returned after that first one are not filtered. -/
theorem skip_until_target_first_frame (t : VideoStepState) (res tsv tsa : Int)
    (evs : List VideoStep) (f : AVFrame)
    (hfp : t.s.flush_pkt.data = DataPtr.flush_pkt) (hok : ¬ res < 0)
    (hT : 0 < wrap64 (t.s.ctx.startTimeVideo_ + tsv)) (hsf : t.s.stream_finished = false)
    (hfe : t.fetched = false) (hns : ∀ e ∈ evs, e.isSeekFrame = false)
    (hh : (t.returned (VideoStep.seekFrame res tsv tsa :: evs)).head? = some f) :
    wrap64 (t.s.ctx.startTimeVideo_ + tsv) ≤ f.pkt_dts := by
  rw [VideoStepState.steps_returned_cons_none t (VideoStep.seekFrame res tsv tsa) evs rfl] at hh
  have hlist : (t.step (VideoStep.seekFrame res tsv tsa)).1.s.ctx.videoQueue_.list_
      = [(t.s.ctx.seekFrame t.s.flush_pkt res tsv tsa).2.2] :=
    VideoContext.seekFrame_video_list t.s.ctx t.s.flush_pkt res tsv tsa hok
  have hmark : (t.s.ctx.seekFrame t.s.flush_pkt res tsv tsa).2.2
      = { t.s.flush_pkt with dts := wrap64 (t.s.ctx.startTimeVideo_ + tsv),
                             pts := wrap64 (t.s.ctx.startTimeAudio_ + tsa) } := by
    rw [VideoContext.seekFrame_ok t.s.ctx t.s.flush_pkt res tsv tsa hok]
  have hdata : (t.s.ctx.seekFrame t.s.flush_pkt res tsv tsa).2.2.data = DataPtr.flush_pkt := by
    rw [hmark]; exact hfp
  have hdts : (t.step (VideoStep.seekFrame res tsv tsa)).1.s.flush_pkt.dts
      = wrap64 (t.s.ctx.startTimeVideo_ + tsv) := by
    show (t.s.ctx.seekFrame t.s.flush_pkt res tsv tsa).2.2.dts = _
    rw [hmark]
  exact VideoStepState.steps_returned_head_marker evs
    (t.step (VideoStep.seekFrame res tsv tsa)).1 _ [] _ hT hlist hdata hdts hsf hfe hns f hh

/-- Witness of C11 (amended): seek to target 100 on a new state; the demux
thread queues two packets, one of them between the `get` that takes the flush
marker and the rest of that pass; the frame with `pkt_dts` 40 is dropped and the
first frame returned is the one with `pkt_dts` 120. -/
theorem skip_until_target_first_frame_witness :
    (({} : VideoStepState).returned
        [VideoStep.seekFrame 0 100 0,
         VideoStep.demuxPush (some { data := DataPtr.buffer 1, size := 10 }),
         VideoStep.fetch,
         VideoStep.demuxPush (some { data := DataPtr.buffer 2, size := 10 }),
         VideoStep.decode {},
         VideoStep.fetch,
         VideoStep.decode { len := 10, got_frame := 1, frame := { pkt_dts := 40 } },
         VideoStep.fetch,
         VideoStep.decode { len := 10, got_frame := 1, frame := { pkt_dts := 120 } }]).head?
      = some { pkt_dts := 120 } ∧
    wrap64 (({} : VideoStepState).s.ctx.startTimeVideo_ + 100)
      ≤ ({ pkt_dts := 120 } : AVFrame).pkt_dts :=
  ⟨by decide,
   skip_until_target_first_frame {} 0 100 0
    [VideoStep.demuxPush (some { data := DataPtr.buffer 1, size := 10 }),
     VideoStep.fetch,
     VideoStep.demuxPush (some { data := DataPtr.buffer 2, size := 10 }),
     VideoStep.decode {},
     VideoStep.fetch,
     VideoStep.decode { len := 10, got_frame := 1, frame := { pkt_dts := 40 } },
     VideoStep.fetch,
     VideoStep.decode { len := 10, got_frame := 1, frame := { pkt_dts := 120 } }]
    { pkt_dts := 120 } (by decide) (by decide) (by decide) (by decide) (by decide) (by decide)
    (by decide)⟩

/-- C12, as stated, fails: a flush marker carrying the target -1 arms no guard,
and the next frame, with `pkt_dts` -2, is returned. -/
theorem flush_marker_guard_counterexample :
    ¬ (∀ (s : VideoDecodeState) (m : AVPacket) (rest : List AVPacket)
        (evs : List VideoThreadEvent) (f : AVFrame),
        s.ctx.videoQueue_.list_ = m :: rest → m.data = DataPtr.flush_pkt →
        m.dts = s.flush_pkt.dts → s.stream_finished = false →
        (∀ e ∈ evs, e.isSeekFrame = false) →
        (s.returned evs).head? = some f → m.dts ≤ f.pkt_dts) := by
  intro h
  have h1 := h
    { ctx := { videoQueue_ := (PacketQueue.new.push { flush_pkt_init with dts := -1 }).push
                 { data := DataPtr.buffer 1, size := 3 } },
      flush_pkt := { flush_pkt_init with dts := -1 } }
    { flush_pkt_init with dts := -1 } [{ data := DataPtr.buffer 1, size := 3 }]
    [VideoThreadEvent.pass {},
     VideoThreadEvent.pass { len := 3, got_frame := 1, frame := { pkt_dts := -2 } }]
    { pkt_dts := -2 } (by decide) (by decide) (by decide) (by decide) (by decide) (by decide)
  revert h1
  decide

/-- C12 (amended): when a flush marker carrying a positive target `T` (the dts
the static `flush_pkt` holds) heads the video queue and the stream is not
finished, the pass of `getNextVideoFrame` that takes it sets the seek guard to
`T`, and the next frame returned before another seek has `pkt_dts >= T`: frames
decoded after the marker with `pkt_dts < T` are dropped and none is returned
before a frame at or after `T`. -/
theorem flush_marker_guards_next_frame (s : VideoDecodeState) (m : AVPacket)
    (rest : List AVPacket) (evs : List VideoThreadEvent) (d : DecodeResult)
    (hq : s.ctx.videoQueue_.list_ = m :: rest) (hm : m.data = DataPtr.flush_pkt)
    (hmd : m.dts = s.flush_pkt.dts) (hT : 0 < m.dts) (hsf : s.stream_finished = false)
    (hns : ∀ e ∈ evs, e.isSeekFrame = false) :
    (s.ctx.quit_ = false →
      (getNextVideoFrame_pass s d).1 = LoopStep.next ∧
      (getNextVideoFrame_pass s d).2.ctx.seek_position_ = m.dts ∧
      (getNextVideoFrame_pass s d).2.ctx.videoQueue_.list_ = rest) ∧
    (∀ f : AVFrame, (s.returned evs).head? = some f → m.dts ≤ f.pkt_dts) := by
  refine ⟨fun hquit => ?_, fun f hh => ?_⟩
  · rw [getNextVideoFrame_pass_marker s d m rest hquit hsf hq hm]
    exact ⟨rfl, hmd.symm, rfl⟩
  · exact VideoDecodeState.returned_head_marker evs s m rest m.dts hT hq hm hmd.symm hsf hns f hh

/-- Witness of C12 (amended): a marker with target 100 ahead of two packets; the
frame with `pkt_dts` 40 is dropped and the frame with `pkt_dts` 120 is the first
one returned. -/
theorem flush_marker_guards_next_frame_witness :
    (({ ctx := { videoQueue_ := ((PacketQueue.new.push { flush_pkt_init with dts := 100 }).push
                   { data := DataPtr.buffer 1, size := 3 }).push
                   { data := DataPtr.buffer 2, size := 3 } },
        flush_pkt := { flush_pkt_init with dts := 100 } } : VideoDecodeState).returned
        [VideoThreadEvent.pass {},
         VideoThreadEvent.pass { len := 3, got_frame := 1, frame := { pkt_dts := 40 } },
         VideoThreadEvent.pass { len := 3, got_frame := 1, frame := { pkt_dts := 120 } }]).head?
      = some { pkt_dts := 120 } ∧
    ({ flush_pkt_init with dts := 100 } : AVPacket).dts ≤ ({ pkt_dts := 120 } : AVFrame).pkt_dts :=
  ⟨by decide,
   (flush_marker_guards_next_frame
    { ctx := { videoQueue_ := ((PacketQueue.new.push { flush_pkt_init with dts := 100 }).push
                 { data := DataPtr.buffer 1, size := 3 }).push
                 { data := DataPtr.buffer 2, size := 3 } },
      flush_pkt := { flush_pkt_init with dts := 100 } }
    { flush_pkt_init with dts := 100 }
    [{ data := DataPtr.buffer 1, size := 3 }, { data := DataPtr.buffer 2, size := 3 }]
    [VideoThreadEvent.pass {},
     VideoThreadEvent.pass { len := 3, got_frame := 1, frame := { pkt_dts := 40 } },
     VideoThreadEvent.pass { len := 3, got_frame := 1, frame := { pkt_dts := 120 } }]
    {} (by decide) (by decide) (by decide) (by decide) (by decide) (by decide)).2
    { pkt_dts := 120 } (by decide)⟩

/-! ## Demux thread: the backpressure gate -/

theorem DemuxThread.readCount_read (s : DemuxState) (i : DemuxInput) :
    readCount (DemuxThread.read s i).2.2 = 1 := by
  unfold DemuxThread.read readCount
  dsimp only
  split_ifs <;> simp

theorem DemuxThread.readCount_seek (s : DemuxState) (i : DemuxInput) :
    readCount (DemuxThread.seek s i).2 = 0 := by
  unfold DemuxThread.seek readCount
  dsimp only
  split_ifs <;> simp

theorem DemuxThread.queuesFull_iff (ctx : VideoContext) :
    DemuxThread.queuesFull ctx = true ↔
      (wrap32 (ctx.getAudioQueueSize + ctx.getVideoQueueSize) > maxQueueSize ∨
        ((ctx.getAudioQueuePackets > minFramesCount ∨ ctx.enableAudio = false) ∧
         (ctx.getVideoQueuePackets > minFramesCount ∨ ctx.enableVideo = false))) := by
  unfold DemuxThread.queuesFull
  simp

theorem DemuxThread.receive_queues (s : DemuxState) :
    (DemuxThread.receive s).ctx.videoQueue_ = s.ctx.videoQueue_ ∧
    (DemuxThread.receive s).ctx.audioQueue_ = s.ctx.audioQueue_ ∧
    (DemuxThread.receive s).flush_pkt = s.flush_pkt ∧
    (DemuxThread.receive s).ctx.audioStream_ = s.ctx.audioStream_ := by
  unfold DemuxThread.receive
  rcases h : s.ctx.demuxThreadMessageQueue_.getMessage s.locals.msg s.ctx.isQuit with ⟨b, q, m⟩
  cases b <;> exact ⟨rfl, rfl, rfl, rfl⟩


theorem DemuxThread.queuesFull_seekFrame_ok (ctx : VideoContext) (flush_pkt : AVPacket)
    (res tsv tsa : Int) (hr : ¬ res < 0) (hf : flush_pkt.size = 0) :
    DemuxThread.queuesFull (ctx.seekFrame flush_pkt res tsv tsa).2.1 = false := by
  rw [VideoContext.seekFrame_ok ctx flush_pkt res tsv tsa hr]
  have h1 : wrap32 1 = 1 := by decide
  have h0 : wrap32 0 = 0 := by decide
  have hm : (0 : Int) ≤ maxQueueSize := by decide
  have hc : (1 : Int) ≤ minFramesCount := by decide
  cases ha : ctx.enableAudio <;>
    simp [DemuxThread.queuesFull, VideoContext.pushVideoPacket, VideoContext.pushAudioPacket,
      PacketQueue.push, PacketQueue.free, VideoContext.getAudioQueueSize,
      VideoContext.getVideoQueueSize, VideoContext.getAudioQueuePackets,
      VideoContext.getVideoQueuePackets, PacketQueue.getSize, PacketQueue.getPackets,
      VideoContext.enableVideo, hf, h1, h0, hm, hc]

theorem DemuxThread.seek_unchanged_of_full (s : DemuxState) (i : DemuxInput)
    (hf : s.flush_pkt.size = 0)
    (hfull : DemuxThread.queuesFull (DemuxThread.seek s i).1.ctx = true) :
    (DemuxThread.seek s i).1.ctx.videoQueue_ = s.ctx.videoQueue_ ∧
    (DemuxThread.seek s i).1.ctx.audioQueue_ = s.ctx.audioQueue_ := by
  unfold DemuxThread.seek at hfull ⊢
  by_cases hp : s.locals.seekPosition ≥ 0
  · rw [if_pos hp] at hfull ⊢
    dsimp only at hfull ⊢
    unfold VideoContext.seekMs at hfull ⊢
    dsimp only at hfull ⊢
    by_cases hr : i.avformat_seek_file < 0
    · rw [VideoContext.seekFrame_fail _ _ _ _ _ hr]
      exact ⟨rfl, rfl⟩
    · rw [DemuxThread.queuesFull_seekFrame_ok _ _ _ _ _ hr hf] at hfull
      exact absurd hfull (by simp)
  · rw [if_neg hp]
    exact ⟨rfl, rfl⟩

theorem DemuxThread.iteration_not_paused (s : DemuxState) (i : DemuxInput)
    (hp : (DemuxThread.receive s).locals.state ≠ decode_thread_state.dts_paused) :
    DemuxThread.iteration s i =
      ((DemuxThread.gate (DemuxThread.atGate s i) i).1,
       (DemuxThread.gate (DemuxThread.atGate s i) i).2.1,
       DemuxEffect.av_read_play ::
         ((DemuxThread.seek (DemuxThread.receive s) i).2
           ++ (DemuxThread.gate (DemuxThread.atGate s i) i).2.2)) := by
  unfold DemuxThread.iteration DemuxThread.atGate
  dsimp only
  rw [if_neg hp]

theorem DemuxThread.gate_full (s : DemuxState) (i : DemuxInput)
    (h : DemuxThread.queuesFull s.ctx = true) :
    DemuxThread.gate s i
      = (true, { s with locals := { s.locals with waitMsgTimeout := 10 } }, []) := by
  unfold DemuxThread.gate; rw [if_pos h]

theorem DemuxThread.gate_open (s : DemuxState) (i : DemuxInput)
    (h : DemuxThread.queuesFull s.ctx = false) :
    DemuxThread.gate s i = DemuxThread.read s i := by
  unfold DemuxThread.gate; rw [h]; rfl

theorem readCount_cons_play_append (a b : List DemuxEffect) :
    readCount (DemuxEffect.av_read_play :: (a ++ b)) = readCount a + readCount b := by
  unfold readCount
  rw [List.count_cons, List.count_append]
  simp

/-- C18, as stated, fails: the gate compares the `int32_t` sum of the two byte
counters.  With a video stream 0 and an audio stream 1 the demuxer reads a video
packet of 15728640 bytes (the combined size does not exceed `maxQueueSize`, so
the gate stays open) and an audio packet of 2131755008 bytes.  The queues then
hold 2^31 bytes, each counter is exact, their `int32_t` sum is -2^31, and the
next pass, which is not paused, reads a packet. -/
theorem demux_backpressure_bytes_counterexample :
    ¬ (∀ (videoStream : AVStream) (audioStream : Option AVStream) (evs : List PlayerEvent)
        (i : DemuxInput),
        (DemuxThread.receive ((PlayerState.start videoStream audioStream).run evs).d).locals.state
            ≠ decode_thread_state.dts_paused →
        sizeSum (DemuxThread.atGate
              ((PlayerState.start videoStream audioStream).run evs).d i).ctx.audioQueue_.list_
          + sizeSum (DemuxThread.atGate
              ((PlayerState.start videoStream audioStream).run evs).d i).ctx.videoQueue_.list_
          > 15 * 1024 * 1024 →
        readCount (DemuxThread.iteration
          ((PlayerState.start videoStream audioStream).run evs).d i).2.2 = 0) ∧
    ¬ (∀ (videoStream : AVStream) (audioStream : Option AVStream) (evs : List PlayerEvent)
        (i : DemuxInput),
        (DemuxThread.receive ((PlayerState.start videoStream audioStream).run evs).d).locals.state
            ≠ decode_thread_state.dts_paused →
        (DemuxThread.atGate
              ((PlayerState.start videoStream audioStream).run evs).d i).ctx.getAudioQueueSize
          + (DemuxThread.atGate
              ((PlayerState.start videoStream audioStream).run evs).d i).ctx.getVideoQueueSize
          > 15 * 1024 * 1024 →
        readCount (DemuxThread.iteration
          ((PlayerState.start videoStream audioStream).run evs).d i).2.2 = 0) := by
  constructor
  · intro h
    have h1 := h { index := 0 } (some { index := 1 })
      [PlayerEvent.demux
         { packet := { data := DataPtr.buffer 1, size := 15728640, stream_index := 0 } },
       PlayerEvent.demux
         { packet := { data := DataPtr.buffer 2, size := 2131755008, stream_index := 1 } }]
      {}
    revert h1
    decide
  · intro h
    have h1 := h { index := 0 } (some { index := 1 })
      [PlayerEvent.demux
         { packet := { data := DataPtr.buffer 1, size := 15728640, stream_index := 0 } },
       PlayerEvent.demux
         { packet := { data := DataPtr.buffer 2, size := 2131755008, stream_index := 1 } }]
      {}
    revert h1
    decide

/-- C18 (amended): in a pass of the demux loop that is not paused, the gate of
lines 1182-1184 holds exactly when the `int32_t` sum of the two byte counters
exceeds `maxQueueSize`, or every existing stream's queue counts more than
`minFramesCount` packets (the check of a missing stream is skipped).  While the
counters agree with the queues and the bytes held and the packet numbers lie in
the `int32_t` range, this is the condition on the bytes and packets held: audio
bytes + video bytes > 15 * 1024 * 1024, or more than 25 packets in every
existing stream's queue.  When the gate holds, the pass reads no packet and
leaves both packet queues as they were; otherwise the pass calls
`av_read_frame` exactly once. -/
theorem demux_backpressure_gate (s : DemuxState) (i : DemuxInput)
    (hp : (DemuxThread.receive s).locals.state ≠ decode_thread_state.dts_paused) :
    (DemuxThread.queuesFull (DemuxThread.atGate s i).ctx = true ↔
      (wrap32 ((DemuxThread.atGate s i).ctx.getAudioQueueSize
          + (DemuxThread.atGate s i).ctx.getVideoQueueSize) > 15 * 1024 * 1024 ∨
        (((DemuxThread.atGate s i).ctx.getAudioQueuePackets > 25 ∨
            (DemuxThread.atGate s i).ctx.enableAudio = false) ∧
         ((DemuxThread.atGate s i).ctx.getVideoQueuePackets > 25 ∨
            (DemuxThread.atGate s i).ctx.enableVideo = false)))) ∧
    (inInt32 ((DemuxThread.atGate s i).ctx.getAudioQueueSize
        + (DemuxThread.atGate s i).ctx.getVideoQueueSize) →
      wrap32 ((DemuxThread.atGate s i).ctx.getAudioQueueSize
          + (DemuxThread.atGate s i).ctx.getVideoQueueSize)
        = (DemuxThread.atGate s i).ctx.getAudioQueueSize
          + (DemuxThread.atGate s i).ctx.getVideoQueueSize) ∧
    ((DemuxThread.atGate s i).ctx.audioQueue_.Consistent →
      (DemuxThread.atGate s i).ctx.videoQueue_.Consistent →
      inInt32 (sizeSum (DemuxThread.atGate s i).ctx.audioQueue_.list_
        + sizeSum (DemuxThread.atGate s i).ctx.videoQueue_.list_) →
      inInt32 ((DemuxThread.atGate s i).ctx.audioQueue_.list_.length : Int) →
      inInt32 ((DemuxThread.atGate s i).ctx.videoQueue_.list_.length : Int) →
      (DemuxThread.queuesFull (DemuxThread.atGate s i).ctx = true ↔
        (sizeSum (DemuxThread.atGate s i).ctx.audioQueue_.list_
            + sizeSum (DemuxThread.atGate s i).ctx.videoQueue_.list_ > 15 * 1024 * 1024 ∨
          ((((DemuxThread.atGate s i).ctx.audioQueue_.list_.length : Int) > 25 ∨
              (DemuxThread.atGate s i).ctx.enableAudio = false) ∧
           (((DemuxThread.atGate s i).ctx.videoQueue_.list_.length : Int) > 25 ∨
              (DemuxThread.atGate s i).ctx.enableVideo = false))))) ∧
    (DemuxThread.queuesFull (DemuxThread.atGate s i).ctx = true →
      readCount (DemuxThread.iteration s i).2.2 = 0 ∧
      (DemuxThread.iteration s i).2.1.ctx.videoQueue_
        = (DemuxThread.atGate s i).ctx.videoQueue_ ∧
      (DemuxThread.iteration s i).2.1.ctx.audioQueue_
        = (DemuxThread.atGate s i).ctx.audioQueue_ ∧
      (s.flush_pkt.size = 0 →
        (DemuxThread.iteration s i).2.1.ctx.videoQueue_ = s.ctx.videoQueue_ ∧
        (DemuxThread.iteration s i).2.1.ctx.audioQueue_ = s.ctx.audioQueue_)) ∧
    (DemuxThread.queuesFull (DemuxThread.atGate s i).ctx = false →
      readCount (DemuxThread.iteration s i).2.2 = 1) := by
  have hit := DemuxThread.iteration_not_paused s i hp
  have hm : maxQueueSize = 15 * 1024 * 1024 := by decide
  have hc : minFramesCount = 25 := rfl
  refine ⟨?_, fun h => wrap32_of_inInt32 _ h, fun ha hv hs hla hlv => ?_,
    fun hfull => ?_, fun hopen => ?_⟩
  · rw [DemuxThread.queuesFull_iff, hm, hc]
  · rw [DemuxThread.queuesFull_iff, hm, hc]
    have e1 : (DemuxThread.atGate s i).ctx.getAudioQueueSize
        = wrap32 (sizeSum (DemuxThread.atGate s i).ctx.audioQueue_.list_) := ha.1
    have e2 : (DemuxThread.atGate s i).ctx.getVideoQueueSize
        = wrap32 (sizeSum (DemuxThread.atGate s i).ctx.videoQueue_.list_) := hv.1
    have e3 : (DemuxThread.atGate s i).ctx.getAudioQueuePackets
        = ((DemuxThread.atGate s i).ctx.audioQueue_.list_.length : Int) :=
      ha.2.trans (wrap32_of_inInt32 _ hla)
    have e4 : (DemuxThread.atGate s i).ctx.getVideoQueuePackets
        = ((DemuxThread.atGate s i).ctx.videoQueue_.list_.length : Int) :=
      hv.2.trans (wrap32_of_inInt32 _ hlv)
    rw [e1, e2, e3, e4, wrap32_add_wrap32, add_comm (sizeSum _) (wrap32 _), wrap32_add_wrap32,
      add_comm (sizeSum _) (sizeSum _), wrap32_of_inInt32 _ hs]
  · rw [hit, DemuxThread.gate_full _ i hfull]
    refine ⟨?_, rfl, rfl, fun hf => ?_⟩
    · rw [readCount_cons_play_append, DemuxThread.readCount_seek]
      rfl
    · obtain ⟨hr1, hr2, hr3, _⟩ := DemuxThread.receive_queues s
      have hsk := DemuxThread.seek_unchanged_of_full (DemuxThread.receive s) i
        (by rw [hr3]; exact hf) hfull
      exact ⟨hsk.1.trans hr1, hsk.2.trans hr2⟩
  · rw [hit, DemuxThread.gate_open _ i hopen, readCount_cons_play_append,
      DemuxThread.readCount_seek, DemuxThread.readCount_read]

/-- Witness of C18: no audio stream, 16000000 bytes in the video queue: the pass
reads nothing; with an empty video queue it reads once. -/
theorem demux_backpressure_gate_witness :
    readCount (DemuxThread.iteration
        { ctx := { videoQueue_ := PacketQueue.new.push
                     { data := DataPtr.buffer 1, size := 16000000 } } } {}).2.2 = 0 ∧
    readCount (DemuxThread.iteration {} {}).2.2 = 1 :=
  ⟨((demux_backpressure_gate
      { ctx := { videoQueue_ := PacketQueue.new.push
                   { data := DataPtr.buffer 1, size := 16000000 } } } {}
      (by decide)).2.2.2.1 (by decide)).1,
   (demux_backpressure_gate {} {} (by decide)).2.2.2.2 (by decide)⟩

/-! ## Demux thread: end of file -/

theorem DemuxThread.read_eof_first (s : DemuxState) (i : DemuxInput)
    (hfail : i.av_read_frame < 0)
    (heof : VideoContext.isEof i.av_read_frame i.avio_feof = true)
    (hclear : s.locals.eof = false) :
    (DemuxThread.read s i).2.1.ctx
      = (if s.ctx.enableAudio then s.ctx.pushAudioPacket none else s.ctx).pushVideoPacket none ∧
    (DemuxThread.read s i).2.1.locals.eof = true ∧
    (DemuxThread.read s i).2.1.flush_pkt = s.flush_pkt ∧
    packetsPushed (DemuxThread.read s i).2.2
      = (if s.ctx.enableAudio then
          [{ data := DataPtr.null, size := 0, stream_index := s.ctx.getAudioStreamIndex,
             pts := AV_NOPTS_VALUE, dts := AV_NOPTS_VALUE }]
         else [])
        ++ [{ data := DataPtr.null, size := 0, stream_index := s.ctx.getVideoStreamIndex,
              pts := AV_NOPTS_VALUE, dts := AV_NOPTS_VALUE }] := by
  unfold DemuxThread.read
  dsimp only
  rw [if_pos hfail, heof, hclear]
  cases i.stream_error <;> cases s.ctx.enableAudio <;>
    simp [packetsPushed, DemuxEffect.pushed]

theorem DemuxThread.read_eof_again (s : DemuxState) (i : DemuxInput)
    (hfail : i.av_read_frame < 0) (hset : s.locals.eof = true) :
    (DemuxThread.read s i).2.1.ctx = s.ctx ∧
    (DemuxThread.read s i).2.1.locals.eof = true ∧
    (DemuxThread.read s i).2.1.locals.seekPosition = s.locals.seekPosition ∧
    (DemuxThread.read s i).2.1.flush_pkt = s.flush_pkt ∧
    packetsPushed (DemuxThread.read s i).2.2 = [] := by
  unfold DemuxThread.read
  dsimp only
  rw [if_pos hfail, hset]
  cases i.stream_error <;>
    simp [packetsPushed, DemuxEffect.pushed, hset]


theorem DemuxThread.receive_keeps_eof (s : DemuxState)
    (hno : ∀ m ∈ s.ctx.demuxThreadMessageQueue_.messages_,
      m.message_ ≠ thread_message_type.tmt_seek_position) :
    (DemuxThread.receive s).locals.eof = s.locals.eof ∧
    (DemuxThread.receive s).locals.seekPosition = s.locals.seekPosition ∧
    (∀ m ∈ (DemuxThread.receive s).ctx.demuxThreadMessageQueue_.messages_,
      m.message_ ≠ thread_message_type.tmt_seek_position) := by
  unfold DemuxThread.receive
  cases hq : s.ctx.isQuit with
  | true =>
    rw [ThreadMessagesQueue.getMessage_quit]
    exact ⟨rfl, rfl, hno⟩
  | false =>
    cases hl : s.ctx.demuxThreadMessageQueue_.messages_ with
    | nil =>
      rw [ThreadMessagesQueue.getMessage_nil _ _ _ hl]
      exact ⟨rfl, rfl, hno⟩
    | cons front rest =>
      rw [ThreadMessagesQueue.getMessage_cons _ _ front rest hl]
      have hfront : front.message_ ≠ thread_message_type.tmt_seek_position :=
        hno front (by rw [hl]; exact List.mem_cons_self _ _)
      have hrest : ∀ m ∈ rest, m.message_ ≠ thread_message_type.tmt_seek_position :=
        fun m hm => hno m (by rw [hl]; exact List.mem_cons_of_mem _ hm)
      dsimp only
      cases hm : front.message_ <;> first
        | exact absurd hm hfront
        | exact ⟨rfl, rfl, hrest⟩

theorem DemuxThread.seek_none (s : DemuxState) (i : DemuxInput)
    (h : s.locals.seekPosition < 0) : DemuxThread.seek s i = (s, []) := by
  unfold DemuxThread.seek
  rw [if_neg (by omega)]

theorem packetsPushed_append (a b : List DemuxEffect) :
    packetsPushed (a ++ b) = packetsPushed a ++ packetsPushed b := by
  unfold packetsPushed
  rw [List.filterMap_append]

theorem DemuxThread.iteration_keeps_eof (s : DemuxState) (i : DemuxInput)
    (heof : s.locals.eof = true) (hseek : s.locals.seekPosition < 0)
    (hno : ∀ m ∈ s.ctx.demuxThreadMessageQueue_.messages_,
      m.message_ ≠ thread_message_type.tmt_seek_position)
    (hfail : i.av_read_frame < 0) :
    (DemuxThread.iteration s i).2.1.locals.eof = true ∧
    (DemuxThread.iteration s i).2.1.locals.seekPosition < 0 ∧
    (∀ m ∈ (DemuxThread.iteration s i).2.1.ctx.demuxThreadMessageQueue_.messages_,
      m.message_ ≠ thread_message_type.tmt_seek_position) ∧
    (DemuxThread.iteration s i).2.1.ctx.videoQueue_ = s.ctx.videoQueue_ ∧
    (DemuxThread.iteration s i).2.1.ctx.audioQueue_ = s.ctx.audioQueue_ ∧
    packetsPushed (DemuxThread.iteration s i).2.2 = [] := by
  obtain ⟨h1, h2, h3⟩ := DemuxThread.receive_keeps_eof s hno
  obtain ⟨hv, ha, _, _⟩ := DemuxThread.receive_queues s
  by_cases hp : (DemuxThread.receive s).locals.state = decode_thread_state.dts_paused
  · unfold DemuxThread.iteration
    dsimp only
    rw [if_pos hp]
    exact ⟨h1.trans heof, by rw [← h2] at hseek; exact hseek, h3, hv, ha, rfl⟩
  · rw [DemuxThread.iteration_not_paused s i hp]
    have hsk : DemuxThread.seek (DemuxThread.receive s) i = (DemuxThread.receive s, []) :=
      DemuxThread.seek_none _ i (by rw [h2]; exact hseek)
    have hg : DemuxThread.atGate s i = DemuxThread.receive s := by
      unfold DemuxThread.atGate; rw [hsk]
    rw [hg, hsk]
    cases hfull : DemuxThread.queuesFull (DemuxThread.receive s).ctx with
    | true =>
      rw [DemuxThread.gate_full _ i hfull]
      exact ⟨h1.trans heof, by rw [← h2] at hseek; exact hseek, h3, hv, ha, rfl⟩
    | false =>
      rw [DemuxThread.gate_open _ i hfull]
      obtain ⟨r1, r2, r3, _, r5⟩ :=
        DemuxThread.read_eof_again (DemuxThread.receive s) i hfail (h1.trans heof)
      refine ⟨r2, by rw [r3, h2]; exact hseek, by rw [r1]; exact h3, by rw [r1]; exact hv,
        by rw [r1]; exact ha, ?_⟩
      show packetsPushed (DemuxEffect.av_read_play :: ([] ++ _)) = []
      rw [List.nil_append]
      show packetsPushed ([DemuxEffect.av_read_play] ++ _) = []
      rw [packetsPushed_append, r5]
      rfl

theorem PlayerState.step_demux_run (p : PlayerState) (i : DemuxInput)
    (hr : (p.running && !p.d.ctx.isQuit) = true) :
    p.step (PlayerEvent.demux i) =
      { d := (DemuxThread.iteration p.d i).2.1
        running := (DemuxThread.iteration p.d i).1
        effects := p.effects ++ (DemuxThread.iteration p.d i).2.2 } := by
  show (if (p.running && !p.d.ctx.isQuit) = true then _ else _) = _
  rw [if_pos hr]

theorem PlayerState.step_demux_stop (p : PlayerState) (i : DemuxInput)
    (hr : ¬ (p.running && !p.d.ctx.isQuit) = true) :
    p.step (PlayerEvent.demux i) = { p with running := false } := by
  show (if (p.running && !p.d.ctx.isQuit) = true then _ else _) = _
  rw [if_neg hr]

theorem PlayerState.step_keeps_eof (p : PlayerState) (e : PlayerEvent) (h : EofHeld p)
    (he : e.keepsEof) :
    EofHeld (p.step e) ∧ packetsPushed (p.step e).effects = packetsPushed p.effects := by
  obtain ⟨h1, h2, h3⟩ := h
  cases e with
  | demux i =>
    by_cases hr : (p.running && !p.d.ctx.isQuit) = true
    · rw [PlayerState.step_demux_run p i hr]
      obtain ⟨k1, k2, k3, _, _, k6⟩ := DemuxThread.iteration_keeps_eof p.d i h1 h2 h3 he
      refine ⟨⟨k1, k2, k3⟩, ?_⟩
      show packetsPushed (p.effects ++ _) = _
      rw [packetsPushed_append, k6, List.append_nil]
    · rw [PlayerState.step_demux_stop p i hr]
      exact ⟨⟨h1, h2, h3⟩, rfl⟩
  | videoGet => exact ⟨⟨h1, h2, h3⟩, rfl⟩
  | audioGet => exact ⟨⟨h1, h2, h3⟩, rfl⟩
  | post m =>
    refine ⟨⟨h1, h2, ?_⟩, rfl⟩
    intro x hx
    have hx2 : x ∈ p.d.ctx.demuxThreadMessageQueue_.messages_ ++ [m] := hx
    rcases List.mem_append.mp hx2 with hx3 | hx3
    · exact h3 x hx3
    · rw [List.mem_singleton.mp hx3]; exact he
  | setQuit b => exact ⟨⟨h1, h2, h3⟩, rfl⟩

theorem PlayerState.run_keeps_eof (evs : List PlayerEvent) (p : PlayerState) (h : EofHeld p)
    (he : ∀ e ∈ evs, e.keepsEof) :
    EofHeld (p.run evs) ∧ packetsPushed (p.run evs).effects = packetsPushed p.effects := by
  induction evs generalizing p with
  | nil => exact ⟨h, rfl⟩
  | cons e es ih =>
    obtain ⟨k1, k2⟩ := PlayerState.step_keeps_eof p e h (he e (List.mem_cons_self _ _))
    obtain ⟨j1, j2⟩ := ih (p.step e) k1 (fun x hx => he x (List.mem_cons_of_mem _ hx))
    exact ⟨j1, j2.trans k2⟩

/-- C20: a failed read that is an EOF while the eof flag is clear pushes one null
packet (`data = NULL`, size 0) into the video queue, one into the audio queue
exactly when an audio stream exists, and sets the eof flag; a failed read while
the flag is set pushes nothing and leaves the context as it was; as long as the
flag is not cleared (no successful read, no seek) the demux loop pushes nothing
more, whatever else happens; a successful read and a pending seek clear the
flag. -/
theorem demux_eof_signalled_once (s : DemuxState) (i : DemuxInput)
    (hfail : i.av_read_frame < 0)
    (heof : VideoContext.isEof i.av_read_frame i.avio_feof = true) :
    (s.locals.eof = false →
      (DemuxThread.read s i).2.1.locals.eof = true ∧
      (DemuxThread.read s i).2.1.ctx.videoQueue_.list_
        = s.ctx.videoQueue_.list_ ++
          [{ data := DataPtr.null, size := 0, stream_index := s.ctx.getVideoStreamIndex,
             pts := AV_NOPTS_VALUE, dts := AV_NOPTS_VALUE }] ∧
      (DemuxThread.read s i).2.1.ctx.audioQueue_.list_
        = s.ctx.audioQueue_.list_ ++
          (if s.ctx.enableAudio then
            [{ data := DataPtr.null, size := 0, stream_index := s.ctx.getAudioStreamIndex,
               pts := AV_NOPTS_VALUE, dts := AV_NOPTS_VALUE }]
           else []) ∧
      packetsPushed (DemuxThread.read s i).2.2
        = (if s.ctx.enableAudio then
            [{ data := DataPtr.null, size := 0, stream_index := s.ctx.getAudioStreamIndex,
               pts := AV_NOPTS_VALUE, dts := AV_NOPTS_VALUE }]
           else [])
          ++ [{ data := DataPtr.null, size := 0, stream_index := s.ctx.getVideoStreamIndex,
                pts := AV_NOPTS_VALUE, dts := AV_NOPTS_VALUE }]) ∧
    (s.locals.eof = true →
      (DemuxThread.read s i).2.1.ctx = s.ctx ∧
      (DemuxThread.read s i).2.1.locals.eof = true ∧
      packetsPushed (DemuxThread.read s i).2.2 = []) ∧
    (∀ (p : PlayerState) (evs : List PlayerEvent), EofHeld p → (∀ e ∈ evs, e.keepsEof) →
      (p.run evs).d.locals.eof = true ∧
      packetsPushed (p.run evs).effects = packetsPushed p.effects) ∧
    (∀ j : DemuxInput, ¬ j.av_read_frame < 0 → (DemuxThread.read s j).2.1.locals.eof = false) ∧
    (∀ j : DemuxInput, s.locals.seekPosition ≥ 0 →
      (DemuxThread.seek s j).1.locals.eof = false) := by
  refine ⟨fun hclear => ?_, fun hset => ?_, fun p evs hp he => ?_, fun j hj => ?_,
    fun j hj => ?_⟩
  · obtain ⟨h1, h2, _, h4⟩ := DemuxThread.read_eof_first s i hfail heof hclear
    refine ⟨h2, ?_, ?_, h4⟩
    · rw [h1]
      cases s.ctx.enableAudio <;>
        simp [VideoContext.pushVideoPacket, VideoContext.pushAudioPacket, pushNullPacket,
          PacketQueue.push, VideoContext.getVideoStreamIndex]
    · rw [h1]
      cases s.ctx.enableAudio <;>
        simp [VideoContext.pushVideoPacket, VideoContext.pushAudioPacket, pushNullPacket,
          PacketQueue.push]
  · obtain ⟨h1, h2, _, _, h5⟩ := DemuxThread.read_eof_again s i hfail hset
    exact ⟨h1, h2, h5⟩
  · obtain ⟨⟨k1, _, _⟩, k2⟩ := PlayerState.run_keeps_eof evs p hp he
    exact ⟨k1, k2⟩
  · unfold DemuxThread.read
    dsimp only
    rw [if_neg hj]
    split_ifs <;> rfl
  · unfold DemuxThread.seek
    rw [if_pos hj]

/-- Witness of C20: a file with an audio stream; the first EOF read pushes a
null packet into each queue, the second EOF read pushes nothing. -/
theorem demux_eof_signalled_once_witness :
    packetsPushed (DemuxThread.read
        { ctx := { audioStream_ := some { index := 1 } } }
        { av_read_frame := -541478725 }).2.2
      = [{ data := DataPtr.null, size := 0, stream_index := 1,
           pts := AV_NOPTS_VALUE, dts := AV_NOPTS_VALUE },
         { data := DataPtr.null, size := 0, stream_index := 0,
           pts := AV_NOPTS_VALUE, dts := AV_NOPTS_VALUE }] ∧
    packetsPushed (DemuxThread.read
        { ctx := { audioStream_ := some { index := 1 } }, locals := { eof := true } }
        { av_read_frame := -541478725 }).2.2 = [] :=
  ⟨((demux_eof_signalled_once { ctx := { audioStream_ := some { index := 1 } } }
      { av_read_frame := -541478725 } (by decide) (by decide)).1 rfl).2.2.2,
   ((demux_eof_signalled_once
      { ctx := { audioStream_ := some { index := 1 } }, locals := { eof := true } }
      { av_read_frame := -541478725 } (by decide) (by decide)).2.1 rfl).2.2⟩

/-! ## Demux thread: the memory bound -/

theorem maxQueueSize_eq : maxQueueSize = 15728640 := by decide

theorem maxPacketSize_eq : maxPacketSize = 2131755007 := by decide

theorem sizeSum_nonneg (l : List AVPacket) (h : ∀ x ∈ l, 0 ≤ x.size) : 0 ≤ sizeSum l := by
  induction l with
  | nil => exact le_refl _
  | cons x l ih =>
    rw [sizeSum_cons]
    have h1 := h x (List.mem_cons_self _ _)
    have h2 := ih (fun y hy => h y (List.mem_cons_of_mem _ hy))
    omega

theorem lastPushedSize_append_singleton (ps : List AVPacket) (p : AVPacket) :
    lastPushedSize (ps ++ [p]) = p.size := by
  unfold lastPushedSize
  simp

theorem MemoryInv.counters {v a : PacketQueue} {f : AVPacket} {ps : List AVPacket}
    (h : MemoryInv v a f ps) :
    v.size_ = sizeSum v.list_ ∧ a.size_ = sizeSum a.list_ ∧
    0 ≤ sizeSum v.list_ ∧ 0 ≤ sizeSum a.list_ ∧
    sizeSum v.list_ + sizeSum a.list_ ≤ 2147483647 := by
  obtain ⟨hv, ha, hvn, han, htot, hl0, hl1, _⟩ := h
  have h1 := sizeSum_nonneg _ hvn
  have h2 := sizeSum_nonneg _ han
  have hm := maxQueueSize_eq
  have hp := maxPacketSize_eq
  have h3 : sizeSum v.list_ + sizeSum a.list_ ≤ 2147483647 := by omega
  refine ⟨?_, ?_, h1, h2, h3⟩
  · exact hv.1.trans (wrap32_of_inInt32 _ ⟨by omega, by omega⟩)
  · exact ha.1.trans (wrap32_of_inInt32 _ ⟨by omega, by omega⟩)

theorem MemoryInv.push_video {v a : PacketQueue} {f : AVPacket} {ps : List AVPacket}
    (h : MemoryInv v a f ps) (p : AVPacket)
    (htot : sizeSum v.list_ + sizeSum a.list_ ≤ maxQueueSize) (h0 : 0 ≤ p.size)
    (h1 : p.size ≤ maxPacketSize) : MemoryInv (v.push p) a f (ps ++ [p]) := by
  obtain ⟨hv, ha, hvn, han, _, _, _, hf⟩ := h
  refine ⟨PacketQueue.consistent_push v p hv, ha, ?_, han, ?_, ?_, ?_, hf⟩
  · intro x hx
    have hx2 : x ∈ v.list_ ++ [p] := hx
    rcases List.mem_append.mp hx2 with hx3 | hx3
    · exact hvn x hx3
    · rw [List.mem_singleton.mp hx3]; exact h0
  · show sizeSum (v.list_ ++ [p]) + _ ≤ _
    rw [sizeSum_append_singleton, lastPushedSize_append_singleton]
    omega
  · rw [lastPushedSize_append_singleton]; exact h0
  · rw [lastPushedSize_append_singleton]; exact h1

theorem MemoryInv.push_audio {v a : PacketQueue} {f : AVPacket} {ps : List AVPacket}
    (h : MemoryInv v a f ps) (p : AVPacket)
    (htot : sizeSum v.list_ + sizeSum a.list_ ≤ maxQueueSize) (h0 : 0 ≤ p.size)
    (h1 : p.size ≤ maxPacketSize) : MemoryInv v (a.push p) f (ps ++ [p]) := by
  obtain ⟨hv, ha, hvn, han, _, _, _, hf⟩ := h
  refine ⟨hv, PacketQueue.consistent_push a p ha, hvn, ?_, ?_, ?_, ?_, hf⟩
  · intro x hx
    have hx2 : x ∈ a.list_ ++ [p] := hx
    rcases List.mem_append.mp hx2 with hx3 | hx3
    · exact han x hx3
    · rw [List.mem_singleton.mp hx3]; exact h0
  · show _ + sizeSum (a.list_ ++ [p]) ≤ _
    rw [sizeSum_append_singleton, lastPushedSize_append_singleton]
    omega
  · rw [lastPushedSize_append_singleton]; exact h0
  · rw [lastPushedSize_append_singleton]; exact h1

theorem MemoryInv.get_video {v a : PacketQueue} {f : AVPacket} {ps : List AVPacket}
    (h : MemoryInv v a f ps) (out : AVPacket) : MemoryInv (v.get out).2.1 a f ps := by
  obtain ⟨hv, ha, hvn, han, htot, hl0, hl1, hf⟩ := h
  refine ⟨PacketQueue.consistent_get v out hv, ha, ?_, han, ?_, hl0, hl1, hf⟩
  · cases hl : v.list_ with
    | nil => rw [PacketQueue.get_nil v out hl]; exact hvn
    | cons front rest =>
      rw [PacketQueue.get_cons v out front rest hl]
      intro x hx
      exact hvn x (by rw [hl]; exact List.mem_cons_of_mem _ hx)
  · cases hl : v.list_ with
    | nil => rw [PacketQueue.get_nil v out hl]; exact htot
    | cons front rest =>
      rw [PacketQueue.get_cons v out front rest hl]
      show sizeSum rest + _ ≤ _
      rw [hl, sizeSum_cons] at htot
      have := hvn front (by rw [hl]; exact List.mem_cons_self _ _)
      omega

theorem MemoryInv.get_audio {v a : PacketQueue} {f : AVPacket} {ps : List AVPacket}
    (h : MemoryInv v a f ps) (out : AVPacket) : MemoryInv v (a.get out).2.1 f ps := by
  obtain ⟨hv, ha, hvn, han, htot, hl0, hl1, hf⟩ := h
  refine ⟨hv, PacketQueue.consistent_get a out ha, hvn, ?_, ?_, hl0, hl1, hf⟩
  · cases hl : a.list_ with
    | nil => rw [PacketQueue.get_nil a out hl]; exact han
    | cons front rest =>
      rw [PacketQueue.get_cons a out front rest hl]
      intro x hx
      exact han x (by rw [hl]; exact List.mem_cons_of_mem _ hx)
  · cases hl : a.list_ with
    | nil => rw [PacketQueue.get_nil a out hl]; exact htot
    | cons front rest =>
      rw [PacketQueue.get_cons a out front rest hl]
      show _ + sizeSum rest ≤ _
      rw [hl, sizeSum_cons] at htot
      have := han front (by rw [hl]; exact List.mem_cons_self _ _)
      omega

theorem MemoryInv.free {v a : PacketQueue} {f : AVPacket} {ps : List AVPacket}
    (h : MemoryInv v a f ps) (f1 : AVPacket) (hf1 : f1.size = 0) :
    MemoryInv v.free.1 a.free.1 f1 ps := by
  obtain ⟨_, _, _, _, _, hl0, hl1, _⟩ := h
  refine ⟨PacketQueue.consistent_free v, PacketQueue.consistent_free a, ?_, ?_, ?_, hl0, hl1,
    hf1⟩
  · intro x hx; exact absurd hx (List.not_mem_nil x)
  · intro x hx; exact absurd hx (List.not_mem_nil x)
  · show sizeSum [] + sizeSum [] ≤ _
    have hm := maxQueueSize_eq
    rw [sizeSum_nil]
    omega

theorem MemoryInv.gate_total {ctx : VideoContext} {f : AVPacket} {ps : List AVPacket}
    (h : MemoryInv ctx.videoQueue_ ctx.audioQueue_ f ps)
    (hopen : DemuxThread.queuesFull ctx = false) :
    sizeSum ctx.videoQueue_.list_ + sizeSum ctx.audioQueue_.list_ ≤ maxQueueSize := by
  obtain ⟨c1, c2, c3, c4, c5⟩ := h.counters
  have hnot : ¬ (wrap32 (ctx.getAudioQueueSize + ctx.getVideoQueueSize) > maxQueueSize) := by
    intro hgt
    have : DemuxThread.queuesFull ctx = true :=
      (DemuxThread.queuesFull_iff ctx).mpr (Or.inl hgt)
    rw [hopen] at this
    exact absurd this (by simp)
  have hsum : ctx.getAudioQueueSize + ctx.getVideoQueueSize
      = sizeSum ctx.audioQueue_.list_ + sizeSum ctx.videoQueue_.list_ := by
    show ctx.audioQueue_.size_ + ctx.videoQueue_.size_ = _
    rw [c1, c2]
  rw [hsum, wrap32_of_inInt32 _ ⟨by omega, by omega⟩] at hnot
  omega


theorem VideoContext.memoryInv_seekFrame (ctx : VideoContext) (flush_pkt : AVPacket)
    (res tsv tsa : Int) (ps : List AVPacket)
    (h : MemoryInv ctx.videoQueue_ ctx.audioQueue_ flush_pkt ps) :
    MemoryInv (ctx.seekFrame flush_pkt res tsv tsa).2.1.videoQueue_
      (ctx.seekFrame flush_pkt res tsv tsa).2.1.audioQueue_
      (ctx.seekFrame flush_pkt res tsv tsa).2.2
      (ps ++ (if (ctx.seekFrame flush_pkt res tsv tsa).1 then
                (if ctx.enableAudio then [(ctx.seekFrame flush_pkt res tsv tsa).2.2] else [])
                  ++ [(ctx.seekFrame flush_pkt res tsv tsa).2.2]
              else [])) := by
  by_cases hr : res < 0
  · rw [VideoContext.seekFrame_fail _ _ _ _ _ hr]
    show MemoryInv _ _ _ (ps ++ [])
    rw [List.append_nil]
    exact h
  · rw [VideoContext.seekFrame_ok _ _ _ _ _ hr]
    have hf : ({ flush_pkt with dts := wrap64 (ctx.startTimeVideo_ + tsv),
                                pts := wrap64 (ctx.startTimeAudio_ + tsa) } : AVPacket).size = 0 :=
      h.2.2.2.2.2.2.2
    generalize ({ flush_pkt with dts := wrap64 (ctx.startTimeVideo_ + tsv),
                                 pts := wrap64 (ctx.startTimeAudio_ + tsa) } : AVPacket) = m
      at hf ⊢
    have hm := maxQueueSize_eq
    have hpz := maxPacketSize_eq
    have h1 : MemoryInv ctx.videoQueue_.free.1 ctx.audioQueue_.free.1 m ps := MemoryInv.free h m hf
    have hz : sizeSum ([] : List AVPacket) + sizeSum ([] : List AVPacket) ≤ maxQueueSize := by
      rw [sizeSum_nil]; omega
    cases ha : ctx.enableAudio with
    | false =>
      have h2 := MemoryInv.push_video h1 m hz (by omega) (by omega)
      simpa [VideoContext.pushVideoPacket] using h2
    | true =>
      have h2 := MemoryInv.push_audio h1 m hz (by omega) (by omega)
      have hz2 : sizeSum ctx.videoQueue_.free.1.list_ + sizeSum (ctx.audioQueue_.free.1.push m).list_
          ≤ maxQueueSize := by
        show sizeSum [] + sizeSum ([] ++ [m]) ≤ _
        rw [sizeSum_append_singleton, sizeSum_nil]
        omega
      have h3 := MemoryInv.push_video h2 m hz2 (by omega) (by omega)
      simpa [VideoContext.pushVideoPacket, VideoContext.pushAudioPacket] using h3

theorem DemuxThread.memoryInv_seek (s : DemuxState) (i : DemuxInput) (ps : List AVPacket)
    (h : MemoryInv s.ctx.videoQueue_ s.ctx.audioQueue_ s.flush_pkt ps) :
    MemoryInv (DemuxThread.seek s i).1.ctx.videoQueue_ (DemuxThread.seek s i).1.ctx.audioQueue_
      (DemuxThread.seek s i).1.flush_pkt (ps ++ packetsPushed (DemuxThread.seek s i).2) := by
  by_cases hp : s.locals.seekPosition < 0
  · rw [DemuxThread.seek_none s i hp]
    show MemoryInv _ _ _ (ps ++ [])
    rw [List.append_nil]
    exact h
  · unfold DemuxThread.seek
    rw [if_pos (by omega)]
    dsimp only
    unfold VideoContext.seekMs
    dsimp only
    have h1 := VideoContext.memoryInv_seekFrame s.ctx s.flush_pkt i.avformat_seek_file
      (VideoContext.seekMs_ts (wrap32 s.locals.seekPosition) s.ctx.videoStream_.time_base)
      (match s.ctx.audioStream_ with
        | some a => VideoContext.seekMs_ts (wrap32 s.locals.seekPosition) a.time_base
        | none => 0) ps h
    have e : ∀ (b c : Bool) (m : AVPacket),
        packetsPushed (if b = true then
            (if c = true then [DemuxEffect.pushAudio m] else []) ++ [DemuxEffect.pushVideo m]
          else [])
        = (if b = true then (if c = true then [m] else []) ++ [m] else []) := by
      intro b c m
      cases b <;> cases c <;> rfl
    rw [e]
    exact h1


theorem MemoryInv.append_nil {v a : PacketQueue} {f : AVPacket} {ps : List AVPacket}
    (h : MemoryInv v a f ps) : MemoryInv v a f (ps ++ []) := by
  rw [List.append_nil]; exact h

theorem DemuxThread.memoryInv_read (s : DemuxState) (i : DemuxInput) (ps : List AVPacket)
    (h : MemoryInv s.ctx.videoQueue_ s.ctx.audioQueue_ s.flush_pkt ps)
    (htot : sizeSum s.ctx.videoQueue_.list_ + sizeSum s.ctx.audioQueue_.list_ ≤ maxQueueSize)
    (h0 : 0 ≤ i.packet.size) (h1 : i.packet.size ≤ maxPacketSize) :
    MemoryInv (DemuxThread.read s i).2.1.ctx.videoQueue_
      (DemuxThread.read s i).2.1.ctx.audioQueue_ (DemuxThread.read s i).2.1.flush_pkt
      (ps ++ packetsPushed (DemuxThread.read s i).2.2) := by
  have hpz := maxPacketSize_eq
  have hnullA := MemoryInv.push_audio h
    { data := DataPtr.null, size := 0, stream_index := s.ctx.getAudioStreamIndex,
      pts := AV_NOPTS_VALUE, dts := AV_NOPTS_VALUE } htot (le_refl _) (by
        show (0 : Int) ≤ maxPacketSize
        omega)
  have hnullV := MemoryInv.push_video h
    { data := DataPtr.null, size := 0, stream_index := s.ctx.getVideoStreamIndex,
      pts := AV_NOPTS_VALUE, dts := AV_NOPTS_VALUE } htot (le_refl _) (by
        show (0 : Int) ≤ maxPacketSize
        omega)
  have hnullAV := MemoryInv.push_video hnullA
    { data := DataPtr.null, size := 0, stream_index := s.ctx.getVideoStreamIndex,
      pts := AV_NOPTS_VALUE, dts := AV_NOPTS_VALUE } (by
        show _ + sizeSum (s.ctx.audioQueue_.list_ ++ [_]) ≤ _
        rw [sizeSum_append_singleton]
        simpa using htot) (le_refl _) (by
        show (0 : Int) ≤ maxPacketSize
        omega)
  unfold DemuxThread.read
  dsimp only
  by_cases hfail : i.av_read_frame < 0
  · rw [if_pos hfail]
    cases hsig : (VideoContext.isEof i.av_read_frame i.avio_feof && !s.locals.eof) <;>
      cases hse : i.stream_error <;> cases hea : s.ctx.enableAudio <;>
      simp only [hsig, hse, hea, if_true, if_false, Bool.false_eq_true] <;>
      first
        | exact h.append_nil
        | simpa [packetsPushed, DemuxEffect.pushed, VideoContext.pushVideoPacket,
            VideoContext.pushAudioPacket, pushNullPacket] using hnullV
        | simpa [packetsPushed, DemuxEffect.pushed, VideoContext.pushVideoPacket,
            VideoContext.pushAudioPacket, pushNullPacket] using hnullAV
  · rw [if_neg hfail]
    simp only [hfail, if_false]
    have hpV := MemoryInv.push_video h i.packet htot h0 h1
    have hpA := MemoryInv.push_audio h i.packet htot h0 h1
    by_cases hv : i.packet.stream_index = s.locals.videoStreamIndex
    · simp only [hv, if_true]
      cases s.locals.init <;>
        simpa [packetsPushed, DemuxEffect.pushed, VideoContext.pushVideoPacket] using hpV
    · simp only [hv, if_false]
      by_cases ha : i.packet.stream_index = s.locals.audioStreamIndex
      · simp only [ha, if_true]
        cases s.locals.init <;>
          simpa [packetsPushed, DemuxEffect.pushed, VideoContext.pushAudioPacket] using hpA
      · simp only [ha, if_false]
        cases s.locals.init <;>
          simpa [packetsPushed, DemuxEffect.pushed] using h


theorem DemuxThread.memoryInv_gate (s : DemuxState) (i : DemuxInput) (ps : List AVPacket)
    (h : MemoryInv s.ctx.videoQueue_ s.ctx.audioQueue_ s.flush_pkt ps)
    (h0 : 0 ≤ i.packet.size) (h1 : i.packet.size ≤ maxPacketSize) :
    MemoryInv (DemuxThread.gate s i).2.1.ctx.videoQueue_
      (DemuxThread.gate s i).2.1.ctx.audioQueue_ (DemuxThread.gate s i).2.1.flush_pkt
      (ps ++ packetsPushed (DemuxThread.gate s i).2.2) := by
  cases hfull : DemuxThread.queuesFull s.ctx with
  | true =>
    rw [DemuxThread.gate_full s i hfull]
    exact h.append_nil
  | false =>
    rw [DemuxThread.gate_open s i hfull]
    exact DemuxThread.memoryInv_read s i ps h (h.gate_total hfull) h0 h1

theorem DemuxThread.memoryInv_atGate (s : DemuxState) (i : DemuxInput) (ps : List AVPacket)
    (h : MemoryInv s.ctx.videoQueue_ s.ctx.audioQueue_ s.flush_pkt ps) :
    MemoryInv (DemuxThread.atGate s i).ctx.videoQueue_ (DemuxThread.atGate s i).ctx.audioQueue_
      (DemuxThread.atGate s i).flush_pkt
      (ps ++ packetsPushed (DemuxThread.seek (DemuxThread.receive s) i).2) := by
  obtain ⟨hv, ha, hf, _⟩ := DemuxThread.receive_queues s
  have hr : MemoryInv (DemuxThread.receive s).ctx.videoQueue_
      (DemuxThread.receive s).ctx.audioQueue_ (DemuxThread.receive s).flush_pkt ps := by
    rw [hv, ha, hf]; exact h
  exact DemuxThread.memoryInv_seek (DemuxThread.receive s) i ps hr

theorem DemuxThread.memoryInv_iteration (s : DemuxState) (i : DemuxInput) (ps : List AVPacket)
    (h : MemoryInv s.ctx.videoQueue_ s.ctx.audioQueue_ s.flush_pkt ps)
    (h0 : 0 ≤ i.packet.size) (h1 : i.packet.size ≤ maxPacketSize) :
    MemoryInv (DemuxThread.iteration s i).2.1.ctx.videoQueue_
      (DemuxThread.iteration s i).2.1.ctx.audioQueue_ (DemuxThread.iteration s i).2.1.flush_pkt
      (ps ++ packetsPushed (DemuxThread.iteration s i).2.2) := by
  by_cases hp : (DemuxThread.receive s).locals.state = decode_thread_state.dts_paused
  · obtain ⟨hv, ha, hf, _⟩ := DemuxThread.receive_queues s
    unfold DemuxThread.iteration
    dsimp only
    rw [if_pos hp]
    show MemoryInv (DemuxThread.receive s).ctx.videoQueue_
      (DemuxThread.receive s).ctx.audioQueue_ (DemuxThread.receive s).flush_pkt (ps ++ [])
    rw [hv, ha, hf]
    exact h.append_nil
  · rw [DemuxThread.iteration_not_paused s i hp]
    have hg := DemuxThread.memoryInv_gate (DemuxThread.atGate s i) i _
      (DemuxThread.memoryInv_atGate s i ps h) h0 h1
    have e : ps ++ packetsPushed (DemuxEffect.av_read_play ::
          ((DemuxThread.seek (DemuxThread.receive s) i).2
            ++ (DemuxThread.gate (DemuxThread.atGate s i) i).2.2))
        = (ps ++ packetsPushed (DemuxThread.seek (DemuxThread.receive s) i).2)
            ++ packetsPushed (DemuxThread.gate (DemuxThread.atGate s i) i).2.2 := by
      have e1 : ∀ l : List DemuxEffect,
          packetsPushed (DemuxEffect.av_read_play :: l) = packetsPushed l := fun _ => rfl
      rw [e1, packetsPushed_append, List.append_assoc]
    rw [e]
    exact hg

theorem DemuxThread.readCount_iteration (s : DemuxState) (i : DemuxInput)
    (hp : (DemuxThread.receive s).locals.state ≠ decode_thread_state.dts_paused) :
    readCount (DemuxThread.iteration s i).2.2
      = if DemuxThread.queuesFull (DemuxThread.atGate s i).ctx then 0 else 1 := by
  rw [DemuxThread.iteration_not_paused s i hp, readCount_cons_play_append,
    DemuxThread.readCount_seek]
  cases hfull : DemuxThread.queuesFull (DemuxThread.atGate s i).ctx with
  | true => rw [DemuxThread.gate_full _ i hfull]; rfl
  | false => rw [DemuxThread.gate_open _ i hfull, DemuxThread.readCount_read]; rfl

theorem PlayerState.bounded_start (videoStream : AVStream) (audioStream : Option AVStream) :
    (PlayerState.start videoStream audioStream).Bounded := by
  have hm := maxQueueSize_eq
  have hpz := maxPacketSize_eq
  refine ⟨PacketQueue.consistent_push _ _ PacketQueue.consistent_new,
    PacketQueue.consistent_push _ _ PacketQueue.consistent_new, ?_, ?_, ?_, ?_, ?_, rfl⟩
  · intro x hx
    have hx2 : x ∈ [flush_pkt_init] := hx
    rw [List.mem_singleton.mp hx2]; decide
  · intro x hx
    have hx2 : x ∈ [flush_pkt_init] := hx
    rw [List.mem_singleton.mp hx2]; decide
  · show sizeSum [flush_pkt_init] + sizeSum [flush_pkt_init] ≤ maxQueueSize + 0
    have : sizeSum [flush_pkt_init] = 0 := by decide
    omega
  · exact le_refl _
  · show (0 : Int) ≤ maxPacketSize
    omega

theorem PlayerState.bounded_step (p : PlayerState) (e : PlayerEvent) (h : p.Bounded)
    (he : e.sizeOk) : (p.step e).Bounded := by
  cases e with
  | demux i =>
    by_cases hr : (p.running && !p.d.ctx.isQuit) = true
    · rw [PlayerState.step_demux_run p i hr]
      unfold PlayerState.Bounded
      show MemoryInv _ _ _ (packetsPushed (p.effects ++ _))
      rw [packetsPushed_append]
      exact DemuxThread.memoryInv_iteration p.d i _ h he.1 he.2
    · rw [PlayerState.step_demux_stop p i hr]
      exact h
  | videoGet => exact MemoryInv.get_video h {}
  | audioGet => exact MemoryInv.get_audio h {}
  | post m => exact h
  | setQuit b => exact h

theorem PlayerState.bounded_run (evs : List PlayerEvent) (p : PlayerState) (h : p.Bounded)
    (he : ∀ e ∈ evs, e.sizeOk) : (p.run evs).Bounded := by
  induction evs generalizing p with
  | nil => exact h
  | cons e es ih =>
    exact ih (p.step e) (PlayerState.bounded_step p e h (he e (List.mem_cons_self _ _)))
      (fun x hx => he x (List.mem_cons_of_mem _ hx))

/-- C19, as stated, fails: the byte counters are `int32_t`.  With no audio
stream the demuxer reads packets of 6, 2147483647, 1000000000, 1000000000 and
100 bytes (the counter wraps to a negative value at the second push, so the gate
stays open); after the video thread has taken the flush marker and the first two
packets, the queue holds 2000000100 bytes, and `getVideoQueueSize()` says so,
while `maxQueueSize` plus the size of the last pushed packet is 15728740. -/
theorem demux_memory_bound_counterexample :
    ¬ (∀ (videoStream : AVStream) (audioStream : Option AVStream) (evs : List PlayerEvent),
        sizeSum ((PlayerState.start videoStream audioStream).run evs).d.ctx.videoQueue_.list_
          + sizeSum ((PlayerState.start videoStream audioStream).run evs).d.ctx.audioQueue_.list_
        ≤ maxQueueSize
          + lastPushedSize
              (packetsPushed ((PlayerState.start videoStream audioStream).run evs).effects)) ∧
    ¬ (∀ (videoStream : AVStream) (audioStream : Option AVStream) (evs : List PlayerEvent),
        ((PlayerState.start videoStream audioStream).run evs).d.ctx.getAudioQueueSize
          + ((PlayerState.start videoStream audioStream).run evs).d.ctx.getVideoQueueSize
        ≤ maxQueueSize
          + lastPushedSize
              (packetsPushed ((PlayerState.start videoStream audioStream).run evs).effects)) := by
  constructor
  · intro h
    have h1 := h {} none
      [PlayerEvent.demux { packet := { data := DataPtr.buffer 1, size := 6 } },
       PlayerEvent.demux { packet := { data := DataPtr.buffer 2, size := 2147483647 } },
       PlayerEvent.demux { packet := { data := DataPtr.buffer 3, size := 1000000000 } },
       PlayerEvent.demux { packet := { data := DataPtr.buffer 4, size := 1000000000 } },
       PlayerEvent.demux { packet := { data := DataPtr.buffer 5, size := 100 } },
       PlayerEvent.videoGet, PlayerEvent.videoGet, PlayerEvent.videoGet]
    revert h1
    decide
  · intro h
    have h1 := h {} none
      [PlayerEvent.demux { packet := { data := DataPtr.buffer 1, size := 6 } },
       PlayerEvent.demux { packet := { data := DataPtr.buffer 2, size := 2147483647 } },
       PlayerEvent.demux { packet := { data := DataPtr.buffer 3, size := 1000000000 } },
       PlayerEvent.demux { packet := { data := DataPtr.buffer 4, size := 1000000000 } },
       PlayerEvent.demux { packet := { data := DataPtr.buffer 5, size := 100 } },
       PlayerEvent.videoGet, PlayerEvent.videoGet, PlayerEvent.videoGet]
    revert h1
    decide

/-- C19 (amended): provided every packet the demuxer reads has a size between 0
and `INT32_MAX - maxQueueSize`, in every state reached from the start through
passes of the demux loop, decoder gets, posted messages (seeks among them) and
changes of the quit flag, the byte counters equal the bytes held, their sum is
at most `maxQueueSize` plus the size of the most recently pushed packet, and a
pass that reads a packet found a combined byte-size of at most `maxQueueSize` at
its gate. -/
theorem demux_memory_bound (videoStream : AVStream) (audioStream : Option AVStream)
    (evs : List PlayerEvent) (hsz : ∀ e ∈ evs, e.sizeOk) :
    ((PlayerState.start videoStream audioStream).run evs).d.ctx.getVideoQueueSize
      = sizeSum ((PlayerState.start videoStream audioStream).run evs).d.ctx.videoQueue_.list_ ∧
    ((PlayerState.start videoStream audioStream).run evs).d.ctx.getAudioQueueSize
      = sizeSum ((PlayerState.start videoStream audioStream).run evs).d.ctx.audioQueue_.list_ ∧
    ((PlayerState.start videoStream audioStream).run evs).d.ctx.getAudioQueueSize
        + ((PlayerState.start videoStream audioStream).run evs).d.ctx.getVideoQueueSize
      ≤ maxQueueSize
        + lastPushedSize
            (packetsPushed ((PlayerState.start videoStream audioStream).run evs).effects) ∧
    (∀ i : DemuxInput,
      (DemuxThread.receive ((PlayerState.start videoStream audioStream).run evs).d).locals.state
        ≠ decode_thread_state.dts_paused →
      readCount
        (DemuxThread.iteration ((PlayerState.start videoStream audioStream).run evs).d i).2.2
        = 1 →
      (DemuxThread.atGate
          ((PlayerState.start videoStream audioStream).run evs).d i).ctx.getAudioQueueSize
        + (DemuxThread.atGate
            ((PlayerState.start videoStream audioStream).run evs).d i).ctx.getVideoQueueSize
        ≤ maxQueueSize) := by
  have hb := PlayerState.bounded_run evs _ (PlayerState.bounded_start videoStream audioStream) hsz
  obtain ⟨c1, c2, _, _, _⟩ := MemoryInv.counters hb
  refine ⟨c1, c2, ?_, fun i hp hread => ?_⟩
  · show ((PlayerState.start videoStream audioStream).run evs).d.ctx.audioQueue_.size_
      + ((PlayerState.start videoStream audioStream).run evs).d.ctx.videoQueue_.size_ ≤ _
    rw [c1, c2]
    have := hb.2.2.2.2.1
    omega
  · have hg := DemuxThread.memoryInv_atGate _ i _ hb
    have hopen : DemuxThread.queuesFull
        (DemuxThread.atGate ((PlayerState.start videoStream audioStream).run evs).d i).ctx
          = false := by
      rw [DemuxThread.readCount_iteration _ i hp] at hread
      cases hfull : DemuxThread.queuesFull
        (DemuxThread.atGate ((PlayerState.start videoStream audioStream).run evs).d i).ctx with
      | true => rw [hfull] at hread; exact absurd hread (by decide)
      | false => rfl
    obtain ⟨g1, g2, _, _, _⟩ := MemoryInv.counters hg
    have ht := MemoryInv.gate_total hg hopen
    show (DemuxThread.atGate _ i).ctx.audioQueue_.size_
      + (DemuxThread.atGate _ i).ctx.videoQueue_.size_ ≤ _
    rw [g1, g2]
    omega

/-- Witness of C19 (amended): no audio stream, packets of 15000000 and 5000000
bytes read, then one taken by the video thread. -/
theorem demux_memory_bound_witness :
    ((PlayerState.start {} none).run
        [PlayerEvent.demux { packet := { data := DataPtr.buffer 1, size := 15000000 } },
         PlayerEvent.demux { packet := { data := DataPtr.buffer 2, size := 5000000 } },
         PlayerEvent.videoGet]).d.ctx.getAudioQueueSize
      + ((PlayerState.start {} none).run
        [PlayerEvent.demux { packet := { data := DataPtr.buffer 1, size := 15000000 } },
         PlayerEvent.demux { packet := { data := DataPtr.buffer 2, size := 5000000 } },
         PlayerEvent.videoGet]).d.ctx.getVideoQueueSize
      ≤ maxQueueSize
        + lastPushedSize (packetsPushed ((PlayerState.start {} none).run
            [PlayerEvent.demux { packet := { data := DataPtr.buffer 1, size := 15000000 } },
             PlayerEvent.demux { packet := { data := DataPtr.buffer 2, size := 5000000 } },
             PlayerEvent.videoGet]).effects) :=
  (demux_memory_bound {} none
    [PlayerEvent.demux { packet := { data := DataPtr.buffer 1, size := 15000000 } },
     PlayerEvent.demux { packet := { data := DataPtr.buffer 2, size := 5000000 } },
     PlayerEvent.videoGet]
    (by
      intro e he
      rcases List.mem_cons.mp he with rfl | he
      · exact ⟨by decide, by decide⟩
      rcases List.mem_cons.mp he with rfl | he
      · exact ⟨by decide, by decide⟩
      rcases List.mem_cons.mp he with rfl | he
      · exact trivial
      · exact absurd he (List.not_mem_nil _))).2.2.1

/-! ## Seek: failure leaves everything in place -/

/-- C29: seek is atomic on failure.  When the container-level seek
`avformat_seek_file` fails (returns a negative value), `seekFrame` returns false
and leaves the context, hence both packet queues with their lists and their
counters `size_` and `packets_`, and the static `flush_pkt`, hence the target
`dts` and `pts` of the flush marker, exactly as they were before the call. -/
theorem seekFrame_failure_atomic (ctx : VideoContext) (flush_pkt : AVPacket)
    (avformat_seek_file _ts_video _ts_audio : Int) (h : avformat_seek_file < 0) :
    (ctx.seekFrame flush_pkt avformat_seek_file _ts_video _ts_audio).1 = false ∧
    (ctx.seekFrame flush_pkt avformat_seek_file _ts_video _ts_audio).2.1 = ctx ∧
    (ctx.seekFrame flush_pkt avformat_seek_file _ts_video _ts_audio).2.1.videoQueue_.list_ =
      ctx.videoQueue_.list_ ∧
    (ctx.seekFrame flush_pkt avformat_seek_file _ts_video _ts_audio).2.1.getVideoQueueSize =
      ctx.getVideoQueueSize ∧
    (ctx.seekFrame flush_pkt avformat_seek_file _ts_video _ts_audio).2.1.getVideoQueuePackets =
      ctx.getVideoQueuePackets ∧
    (ctx.seekFrame flush_pkt avformat_seek_file _ts_video _ts_audio).2.1.audioQueue_.list_ =
      ctx.audioQueue_.list_ ∧
    (ctx.seekFrame flush_pkt avformat_seek_file _ts_video _ts_audio).2.1.getAudioQueueSize =
      ctx.getAudioQueueSize ∧
    (ctx.seekFrame flush_pkt avformat_seek_file _ts_video _ts_audio).2.1.getAudioQueuePackets =
      ctx.getAudioQueuePackets ∧
    (ctx.seekFrame flush_pkt avformat_seek_file _ts_video _ts_audio).2.2 = flush_pkt ∧
    (ctx.seekFrame flush_pkt avformat_seek_file _ts_video _ts_audio).2.2.dts = flush_pkt.dts ∧
    (ctx.seekFrame flush_pkt avformat_seek_file _ts_video _ts_audio).2.2.pts = flush_pkt.pts := by
  rw [VideoContext.seekFrame_fail ctx flush_pkt avformat_seek_file _ts_video _ts_audio h]
  exact ⟨rfl, rfl, rfl, rfl, rfl, rfl, rfl, rfl, rfl, rfl, rfl⟩

/-- Witness of C29: a failing seek (`avformat_seek_file` returns -1) on a
context that holds a marker and a data packet in the video queue and a data
packet in the audio queue. -/
theorem seekFrame_failure_atomic_witness :
    ((({ videoStream_ := { index := 0 }, audioStream_ := some { index := 1 } } :
          VideoContext).init flush_pkt_init).pushVideoPacket
        (some { data := DataPtr.buffer 1, size := 10 })).seekFrame
      { flush_pkt_init with dts := 5, pts := 6 } (-1) 90000 44100 =
    (false,
     (({ videoStream_ := { index := 0 }, audioStream_ := some { index := 1 } } :
          VideoContext).init flush_pkt_init).pushVideoPacket
        (some { data := DataPtr.buffer 1, size := 10 }),
     { flush_pkt_init with dts := 5, pts := 6 }) :=
  Prod.ext
    (seekFrame_failure_atomic _ { flush_pkt_init with dts := 5, pts := 6 } (-1) 90000 44100
      (by decide)).1
    (Prod.ext
      (seekFrame_failure_atomic _ { flush_pkt_init with dts := 5, pts := 6 } (-1) 90000 44100
        (by decide)).2.1
      (seekFrame_failure_atomic _ { flush_pkt_init with dts := 5, pts := 6 } (-1) 90000 44100
        (by decide)).2.2.2.2.2.2.2.2.1)

/-! ## Demux thread: routing by stream index -/

theorem DemuxThread.read_ok (s : DemuxState) (i : DemuxInput) (h : ¬ i.av_read_frame < 0) :
    (DemuxThread.read s i).2.1.ctx =
      (if i.packet.stream_index = s.locals.videoStreamIndex then
         s.ctx.pushVideoPacket (some i.packet)
       else if i.packet.stream_index = s.locals.audioStreamIndex then
         s.ctx.pushAudioPacket (some i.packet)
       else s.ctx) ∧
    (DemuxThread.read s i).2.2 =
      DemuxEffect.av_read_frame ::
        ((if i.packet.stream_index = s.locals.videoStreamIndex then
            [DemuxEffect.pushVideo i.packet]
          else if i.packet.stream_index = s.locals.audioStreamIndex then
            [DemuxEffect.pushAudio i.packet]
          else [DemuxEffect.av_packet_unref i.packet]) ++
         (if s.locals.init then [DemuxEffect.dataReady] else [])) ∧
    (DemuxThread.read s i).1 = true ∧
    (DemuxThread.read s i).2.1.locals.videoStreamIndex = s.locals.videoStreamIndex ∧
    (DemuxThread.read s i).2.1.locals.audioStreamIndex = s.locals.audioStreamIndex := by
  unfold DemuxThread.read
  dsimp only
  rw [if_neg h, if_neg h]
  split_ifs <;> exact ⟨rfl, rfl, rfl, rfl, rfl⟩

/-- C21: routing by stream index.  For a packet that `av_read_frame` reads
successfully: when its stream index equals the index of the selected video
stream it is appended to the video queue and the audio queue is unchanged;
otherwise, when it equals the index of the selected audio stream, it is appended
to the audio queue and the video queue is unchanged; otherwise it is released
with `av_packet_unref` and neither queue changes.  The two indices the thread
compares with are those of the context, taken when the thread starts, and a read
does not change them; without an audio stream no packet with a stream index of
0 or more reaches the audio queue. -/
theorem demux_routes_by_stream_index (s : DemuxState) (i : DemuxInput)
    (h : ¬ i.av_read_frame < 0) :
    (i.packet.stream_index = s.locals.videoStreamIndex →
      (DemuxThread.read s i).2.1.ctx.videoQueue_ = s.ctx.videoQueue_.push i.packet ∧
      (DemuxThread.read s i).2.1.ctx.videoQueue_.list_ = s.ctx.videoQueue_.list_ ++ [i.packet] ∧
      (DemuxThread.read s i).2.1.ctx.audioQueue_ = s.ctx.audioQueue_) ∧
    (i.packet.stream_index ≠ s.locals.videoStreamIndex →
      i.packet.stream_index = s.locals.audioStreamIndex →
      (DemuxThread.read s i).2.1.ctx.audioQueue_ = s.ctx.audioQueue_.push i.packet ∧
      (DemuxThread.read s i).2.1.ctx.audioQueue_.list_ = s.ctx.audioQueue_.list_ ++ [i.packet] ∧
      (DemuxThread.read s i).2.1.ctx.videoQueue_ = s.ctx.videoQueue_) ∧
    (i.packet.stream_index ≠ s.locals.videoStreamIndex →
      i.packet.stream_index ≠ s.locals.audioStreamIndex →
      (DemuxThread.read s i).2.1.ctx.videoQueue_ = s.ctx.videoQueue_ ∧
      (DemuxThread.read s i).2.1.ctx.audioQueue_ = s.ctx.audioQueue_ ∧
      DemuxEffect.av_packet_unref i.packet ∈ (DemuxThread.read s i).2.2 ∧
      packetsPushed (DemuxThread.read s i).2.2 = []) ∧
    (DemuxThread.read s i).2.1.locals.videoStreamIndex = s.locals.videoStreamIndex ∧
    (DemuxThread.read s i).2.1.locals.audioStreamIndex = s.locals.audioStreamIndex ∧
    (∀ flush_pkt : AVPacket,
      (DemuxThread.start s.ctx flush_pkt).locals.videoStreamIndex = s.ctx.getVideoStreamIndex ∧
      (DemuxThread.start s.ctx flush_pkt).locals.audioStreamIndex = s.ctx.getAudioStreamIndex) ∧
    (s.ctx.audioStream_ = none → s.locals.audioStreamIndex = s.ctx.getAudioStreamIndex →
      0 ≤ i.packet.stream_index →
      (DemuxThread.read s i).2.1.ctx.audioQueue_ = s.ctx.audioQueue_) := by
  obtain ⟨hc, he, -, hvi, hai⟩ := DemuxThread.read_ok s i h
  refine ⟨?_, ?_, ?_, hvi, hai, fun _ => ⟨rfl, rfl⟩, ?_⟩
  · intro hv
    rw [hc, if_pos hv]
    exact ⟨rfl, rfl, rfl⟩
  · intro hv ha
    rw [hc, if_neg hv, if_pos ha]
    exact ⟨rfl, rfl, rfl⟩
  · intro hv ha
    rw [hc, he, if_neg hv, if_neg ha, if_neg hv, if_neg ha]
    refine ⟨rfl, rfl, by simp, ?_⟩
    by_cases hi : s.locals.init = true <;> simp [hi, packetsPushed, DemuxEffect.pushed]
  · intro hn hidx hp
    have hm : s.locals.audioStreamIndex = -1 := by
      rw [hidx]; unfold VideoContext.getAudioStreamIndex; rw [hn]
    rw [hc]
    by_cases hv : i.packet.stream_index = s.locals.videoStreamIndex
    · rw [if_pos hv]; rfl
    · have ha : i.packet.stream_index ≠ s.locals.audioStreamIndex := by rw [hm]; omega
      rw [if_neg hv, if_neg ha]

/-- Witness of C21: streams 0 (video) and 1 (audio); a packet of stream 1 is
appended to the audio queue, which held the marker of `init`. -/
theorem demux_routes_by_stream_index_witness :
    (DemuxThread.read
        (DemuxThread.start
          (({ videoStream_ := { index := 0 }, audioStream_ := some { index := 1 } } :
            VideoContext).init flush_pkt_init) flush_pkt_init)
        { packet := { data := DataPtr.buffer 7, size := 3, stream_index := 1 } }).2.1.ctx.audioQueue_.list_
      = [flush_pkt_init, { data := DataPtr.buffer 7, size := 3, stream_index := 1 }] :=
  ((demux_routes_by_stream_index
      (DemuxThread.start
        (({ videoStream_ := { index := 0 }, audioStream_ := some { index := 1 } } :
          VideoContext).init flush_pkt_init) flush_pkt_init)
      { packet := { data := DataPtr.buffer 7, size := 3, stream_index := 1 } }
      (by decide)).2.1 (by decide) (by decide)).2.1

/-! ## Demux thread: quit -/

theorem PlayerState.step_quit_inv (p : PlayerState) (e : PlayerEvent)
    (h : p.d.ctx.isQuit = true ∨ p.running = false) (he : e ≠ PlayerEvent.setQuit false) :
    ((p.step e).d.ctx.isQuit = true ∨ (p.step e).running = false) ∧
    (p.step e).effects = p.effects := by
  cases e with
  | demux i =>
    have hr : ¬ (p.running && !p.d.ctx.isQuit) = true := by
      rcases h with h | h <;> simp [h]
    rw [PlayerState.step_demux_stop p i hr]
    exact ⟨Or.inr rfl, rfl⟩
  | videoGet => exact ⟨h, rfl⟩
  | audioGet => exact ⟨h, rfl⟩
  | post m => exact ⟨h, rfl⟩
  | setQuit b =>
    cases b with
    | true => exact ⟨Or.inl rfl, rfl⟩
    | false => exact absurd rfl he

theorem PlayerState.run_quit_inv (evs : List PlayerEvent) (p : PlayerState)
    (h : p.d.ctx.isQuit = true ∨ p.running = false)
    (he : ∀ e ∈ evs, e ≠ PlayerEvent.setQuit false) :
    ((p.run evs).d.ctx.isQuit = true ∨ (p.run evs).running = false) ∧
    (p.run evs).effects = p.effects := by
  induction evs generalizing p with
  | nil => exact ⟨h, rfl⟩
  | cons e es ih =>
    have h1 := PlayerState.step_quit_inv p e h (he e (List.mem_cons_self e es))
    have h2 := ih (p.step e) h1.1 (fun x hx => he x (List.mem_cons_of_mem e hx))
    exact ⟨h2.1, h2.2.trans h1.2⟩

theorem VideoDecodeThread.getNextFrame_terminal (t : VideoThreadState) (ds : List DecodeResult)
    (h : t.locals.current_state = decode_thread_state.dts_end_of_media ∨
      t.locals.current_state = decode_thread_state.dts_failed) :
    VideoDecodeThread.getNextFrame t ds = some (t, []) := by
  unfold VideoDecodeThread.getNextFrame; rw [if_pos h]

theorem VideoDecodeThread.getNextFrame_none (t : VideoThreadState) (ds : List DecodeResult)
    (h : ¬ (t.locals.current_state = decode_thread_state.dts_end_of_media ∨
      t.locals.current_state = decode_thread_state.dts_failed))
    (hg : getNextVideoFrame { t.s with frame := av_frame_unref t.s.frame, eof := false } ds
      = none) :
    VideoDecodeThread.getNextFrame t ds = none := by
  unfold VideoDecodeThread.getNextFrame; rw [if_neg h, hg]

theorem VideoDecodeThread.getNextFrame_eof (t : VideoThreadState) (ds : List DecodeResult)
    (s1 : VideoDecodeState)
    (h : ¬ (t.locals.current_state = decode_thread_state.dts_end_of_media ∨
      t.locals.current_state = decode_thread_state.dts_failed))
    (hg : getNextVideoFrame { t.s with frame := av_frame_unref t.s.frame, eof := false } ds
      = some (false, s1)) (he : s1.eof = true) :
    VideoDecodeThread.getNextFrame t ds =
      some ({ s := { s1 with stream_finished := false }
              locals := { t.locals with
                          current_state := decode_thread_state.dts_end_of_media } },
            [{ image := QImage.null, pts := 0, eof := true }]) := by
  unfold VideoDecodeThread.getNextFrame; rw [if_neg h, hg]; dsimp only; rw [if_pos he]

theorem VideoDecodeThread.getNextFrame_false (t : VideoThreadState) (ds : List DecodeResult)
    (s1 : VideoDecodeState)
    (h : ¬ (t.locals.current_state = decode_thread_state.dts_end_of_media ∨
      t.locals.current_state = decode_thread_state.dts_failed))
    (hg : getNextVideoFrame { t.s with frame := av_frame_unref t.s.frame, eof := false } ds
      = some (false, s1)) (he : ¬ s1.eof = true) :
    VideoDecodeThread.getNextFrame t ds = some ({ t with s := s1 }, []) := by
  unfold VideoDecodeThread.getNextFrame; rw [if_neg h, hg]; dsimp only; rw [if_neg he]

theorem VideoDecodeThread.getNextFrame_true (t : VideoThreadState) (ds : List DecodeResult)
    (s1 : VideoDecodeState)
    (h : ¬ (t.locals.current_state = decode_thread_state.dts_end_of_media ∨
      t.locals.current_state = decode_thread_state.dts_failed))
    (hg : getNextVideoFrame { t.s with frame := av_frame_unref t.s.frame, eof := false } ds
      = some (true, s1)) :
    ∃ t1 out, VideoDecodeThread.getNextFrame t ds = some (t1, out) ∧
      (∀ e ∈ out, e.eof = false) ∧ t1.locals = t.locals := by
  unfold VideoDecodeThread.getNextFrame; rw [if_neg h, hg]; dsimp only
  split_ifs <;> exact ⟨_, _, rfl, by simp, rfl⟩

theorem VideoDecodeThread.handleMessage_get (t : VideoThreadState) (msg : ThreadMessage)
    (ds : List DecodeResult)
    (hm : msg.message_ = thread_message_type.tmt_get_next_video_frame) :
    VideoDecodeThread.handleMessage t msg ds =
      VideoDecodeThread.getNextFrame { t with locals := { t.locals with msg := msg } } ds := by
  unfold VideoDecodeThread.handleMessage; simp only [hm]

/-- The video thread in `end_of_media` or `failed` handling a message that is
neither pause nor play: only `msg` changes and nothing is emitted. -/
theorem VideoDecodeThread.handleMessage_terminal (t : VideoThreadState) (msg : ThreadMessage)
    (ds : List DecodeResult)
    (h : t.locals.current_state = decode_thread_state.dts_end_of_media ∨
      t.locals.current_state = decode_thread_state.dts_failed)
    (hp : msg.message_ ≠ thread_message_type.tmt_pause)
    (hq : msg.message_ ≠ thread_message_type.tmt_play) :
    VideoDecodeThread.handleMessage t msg ds =
      some ({ t with locals := { t.locals with msg := msg } }, []) := by
  by_cases hg : msg.message_ = thread_message_type.tmt_get_next_video_frame
  · rw [VideoDecodeThread.handleMessage_get t msg ds hg]
    exact VideoDecodeThread.getNextFrame_terminal _ ds h
  · unfold VideoDecodeThread.handleMessage
    rcases hm : msg.message_ with _ | _ | _ | _ | _ | _ | _ | _ <;> simp_all

theorem VideoDecodeThread.handleMessage_failed (t : VideoThreadState) (msg : ThreadMessage)
    (ds : List DecodeResult)
    (h : t.locals.current_state = decode_thread_state.dts_failed) :
    VideoDecodeThread.handleMessage t msg ds =
      some ({ t with locals := { t.locals with msg := msg } }, []) := by
  by_cases hg : msg.message_ = thread_message_type.tmt_get_next_video_frame
  · rw [VideoDecodeThread.handleMessage_get t msg ds hg]
    exact VideoDecodeThread.getNextFrame_terminal _ ds (Or.inr h)
  · unfold VideoDecodeThread.handleMessage
    rcases hm : msg.message_ with _ | _ | _ | _ | _ | _ | _ | _ <;> simp_all

theorem VideoDecodeThread.handleAll_terminal
    (msgs : List (ThreadMessage × List DecodeResult)) (t : VideoThreadState)
    (h : t.locals.current_state = decode_thread_state.dts_end_of_media ∨
      t.locals.current_state = decode_thread_state.dts_failed)
    (hm : ∀ m ∈ msgs, m.1.message_ ≠ thread_message_type.tmt_pause ∧
      m.1.message_ ≠ thread_message_type.tmt_play) :
    ∃ t2, VideoDecodeThread.handleAll t msgs = some (t2, []) ∧ t2.s = t.s ∧
      t2.locals.current_state = t.locals.current_state := by
  induction msgs generalizing t with
  | nil => exact ⟨t, rfl, rfl, rfl⟩
  | cons m rest ih =>
    obtain ⟨m1, ds⟩ := m
    have h1 := hm (m1, ds) (List.mem_cons_self _ _)
    obtain ⟨t2, h2, h3, h4⟩ :=
      ih { t with locals := { t.locals with msg := m1 } } h
        (fun x hx => hm x (List.mem_cons_of_mem _ hx))
    refine ⟨t2, ?_, h3, h4⟩
    unfold VideoDecodeThread.handleAll
    rw [VideoDecodeThread.handleMessage_terminal t m1 ds h h1.1 h1.2]
    dsimp only
    rw [h2]
    rfl

theorem AudioDecodeThread.handleMessage_state (ctx : VideoContext) (msg : ThreadMessage)
    (hp : msg.message_ ≠ thread_message_type.tmt_pause)
    (hq : msg.message_ ≠ thread_message_type.tmt_play) :
    (AudioDecodeThread.handleMessage ctx msg).getAudioThreadState = ctx.getAudioThreadState := by
  unfold AudioDecodeThread.handleMessage
  rcases hm : msg.message_ with _ | _ | _ | _ | _ | _ | _ | _ <;> simp_all <;> rfl

theorem AudioDecodeThread.passState_not_playing (ctx : VideoContext) (msg : Option ThreadMessage)
    (play_eof : Bool)
    (h : (match msg with
          | some m => AudioDecodeThread.handleMessage ctx m
          | none => ctx).getAudioThreadState ≠ decode_thread_state.dts_playing) :
    AudioDecodeThread.passState ctx msg play_eof =
      (match msg with
       | some m => AudioDecodeThread.handleMessage ctx m
       | none => ctx).getAudioThreadState := by
  unfold AudioDecodeThread.passState
  dsimp only
  rw [if_neg h]
  simp

/-- Counterexample to C23.  The video thread reaches `end_of_media` (the null
packet is in its queue and the decoder has no frame left) and emits the
end-of-stream frame; the pause message that follows changes its state to
`paused`.  In the audio thread a pause message changes `end_of_media` to
`paused`, and `failed` to `paused` as well. -/
theorem terminal_state_pause_counterexample :
    (VideoDecodeThread.handleAll
        { s := { ctx := { videoQueue_ := PacketQueue.new.push { data := DataPtr.null } } } }
        [({ message_ := thread_message_type.tmt_get_next_video_frame }, [{}])]).map
      (fun r => (r.1.locals.current_state, r.2))
      = some (decode_thread_state.dts_end_of_media,
              [{ image := QImage.null, pts := 0, eof := true }]) ∧
    (VideoDecodeThread.handleAll
        { s := { ctx := { videoQueue_ := PacketQueue.new.push { data := DataPtr.null } } } }
        [({ message_ := thread_message_type.tmt_get_next_video_frame }, [{}]),
         ({ message_ := thread_message_type.tmt_pause }, [])]).map
      (fun r => (r.1.locals.current_state, r.2))
      = some (decode_thread_state.dts_paused,
              [{ image := QImage.null, pts := 0, eof := true }]) ∧
    AudioDecodeThread.passState { audioData_state_ := decode_thread_state.dts_end_of_media }
      (some { message_ := thread_message_type.tmt_pause }) false
      = decode_thread_state.dts_paused ∧
    AudioDecodeThread.passState { audioData_state_ := decode_thread_state.dts_failed }
      (some { message_ := thread_message_type.tmt_pause }) false
      = decode_thread_state.dts_paused := by
  decide

/-- C23 (amended): which messages leave the terminal states in place.  In the
video thread `failed` is kept under every control message, and `end_of_media` is
kept under every control message other than pause and play (quit, seek,
get-next-frame, set-volume, set-mute and scaled-size-changed change nothing but
`msg`, and nothing is emitted); pause makes `end_of_media` `paused` and play
makes it `playing`.  In the audio thread `end_of_media` and `failed` are kept by
a pass of the loop that receives no message or any message other than pause and
play; a pause message makes either of them `paused` and a play message makes
either of them `playing`.  A seek message resets the state of neither thread. -/
theorem decode_thread_terminal_states (t : VideoThreadState) (msg : ThreadMessage)
    (ds : List DecodeResult) (ctx : VideoContext) (play_eof : Bool) :
    (t.locals.current_state = decode_thread_state.dts_failed →
      VideoDecodeThread.handleMessage t msg ds =
        some ({ t with locals := { t.locals with msg := msg } }, [])) ∧
    (t.locals.current_state = decode_thread_state.dts_end_of_media →
      msg.message_ ≠ thread_message_type.tmt_pause →
      msg.message_ ≠ thread_message_type.tmt_play →
      VideoDecodeThread.handleMessage t msg ds =
        some ({ t with locals := { t.locals with msg := msg } }, [])) ∧
    (t.locals.current_state = decode_thread_state.dts_end_of_media →
      msg.message_ = thread_message_type.tmt_pause →
      VideoDecodeThread.handleMessage t msg ds =
        some ({ t with locals := { t.locals with
                                   msg := msg
                                   current_state := decode_thread_state.dts_paused } }, [])) ∧
    (t.locals.current_state = decode_thread_state.dts_end_of_media →
      msg.message_ = thread_message_type.tmt_play →
      VideoDecodeThread.handleMessage t msg ds =
        some ({ t with locals := { t.locals with
                                   msg := msg
                                   current_state := decode_thread_state.dts_playing } }, [])) ∧
    ((ctx.getAudioThreadState = decode_thread_state.dts_end_of_media ∨
        ctx.getAudioThreadState = decode_thread_state.dts_failed) →
      msg.message_ ≠ thread_message_type.tmt_pause →
      msg.message_ ≠ thread_message_type.tmt_play →
      AudioDecodeThread.passState ctx (some msg) play_eof = ctx.getAudioThreadState ∧
      AudioDecodeThread.passState ctx none play_eof = ctx.getAudioThreadState) ∧
    (msg.message_ = thread_message_type.tmt_pause →
      AudioDecodeThread.passState ctx (some msg) play_eof = decode_thread_state.dts_paused) ∧
    (msg.message_ = thread_message_type.tmt_play →
      AudioDecodeThread.passState ctx (some msg) false = decode_thread_state.dts_playing) := by
  refine ⟨fun h => VideoDecodeThread.handleMessage_failed t msg ds h,
    fun h hp hq => VideoDecodeThread.handleMessage_terminal t msg ds (Or.inl h) hp hq,
    ?_, ?_, ?_, ?_, ?_⟩
  · intro h hm
    unfold VideoDecodeThread.handleMessage
    simp only [hm]
    rw [if_neg (by rw [h]; decide)]
  · intro h hm
    unfold VideoDecodeThread.handleMessage
    simp only [hm]
    rw [if_neg (by rw [h]; decide)]
  · intro h hp hq
    have hs := AudioDecodeThread.handleMessage_state ctx msg hp hq
    constructor
    · rw [AudioDecodeThread.passState_not_playing ctx (some msg) play_eof
        (by dsimp only; rw [hs]; rcases h with h | h <;> rw [h] <;> decide)]
      exact hs
    · rw [AudioDecodeThread.passState_not_playing ctx none play_eof
        (by dsimp only; rcases h with h | h <;> rw [h] <;> decide)]
  · intro hm
    rw [AudioDecodeThread.passState_not_playing ctx (some msg) play_eof
      (by dsimp only; unfold AudioDecodeThread.handleMessage; simp only [hm]
          show decode_thread_state.dts_paused ≠ decode_thread_state.dts_playing; decide)]
    dsimp only; unfold AudioDecodeThread.handleMessage; simp only [hm]; rfl
  · intro hm
    unfold AudioDecodeThread.passState AudioDecodeThread.handleMessage
    simp only [hm]
    simp [VideoContext.setAudioThreadState, VideoContext.getAudioThreadState]

theorem VideoDecodeThread.getNextFrame_eof_only (t : VideoThreadState) (ds : List DecodeResult)
    (t1 : VideoThreadState) (out : List NextFrameReady)
    (hr : VideoDecodeThread.getNextFrame t ds = some (t1, out))
    (hex : ∃ e ∈ out, e.eof = true) :
    ¬ (t.locals.current_state = decode_thread_state.dts_end_of_media ∨
        t.locals.current_state = decode_thread_state.dts_failed) ∧
    (∃ s1 : VideoDecodeState,
      getNextVideoFrame { t.s with frame := av_frame_unref t.s.frame, eof := false } ds
        = some (false, s1) ∧ s1.eof = true) ∧
    out = [{ image := QImage.null, pts := 0, eof := true }] ∧
    t1.locals.current_state = decode_thread_state.dts_end_of_media ∧
    t1.s.stream_finished = false ∧
    ∀ msgs : List (ThreadMessage × List DecodeResult),
      (∀ m ∈ msgs, m.1.message_ ≠ thread_message_type.tmt_pause ∧
        m.1.message_ ≠ thread_message_type.tmt_play) →
      ∃ t2, VideoDecodeThread.handleAll t1 msgs = some (t2, []) ∧ t2.s = t1.s ∧
        t2.locals.current_state = decode_thread_state.dts_end_of_media := by
  by_cases hterm : t.locals.current_state = decode_thread_state.dts_end_of_media ∨
      t.locals.current_state = decode_thread_state.dts_failed
  · rw [VideoDecodeThread.getNextFrame_terminal t ds hterm] at hr
    simp only [Option.some.injEq, Prod.mk.injEq] at hr
    obtain ⟨e, he, -⟩ := hex
    rw [← hr.2] at he
    simp at he
  · rcases hg : getNextVideoFrame { t.s with frame := av_frame_unref t.s.frame, eof := false } ds
      with _ | ⟨b, s1⟩
    · rw [VideoDecodeThread.getNextFrame_none t ds hterm hg] at hr
      simp at hr
    · cases b with
      | true =>
        obtain ⟨t1', out', h1, h2, -⟩ := VideoDecodeThread.getNextFrame_true t ds s1 hterm hg
        rw [h1] at hr
        simp only [Option.some.injEq, Prod.mk.injEq] at hr
        obtain ⟨e, he, he2⟩ := hex
        rw [← hr.2] at he
        rw [h2 e he] at he2
        simp at he2
      | false =>
        by_cases he : s1.eof = true
        · rw [VideoDecodeThread.getNextFrame_eof t ds s1 hterm hg he] at hr
          simp only [Option.some.injEq, Prod.mk.injEq] at hr
          refine ⟨hterm, ⟨s1, rfl, he⟩, hr.2.symm, by rw [← hr.1], by rw [← hr.1], ?_⟩
          intro msgs hmsgs
          have h3 := VideoDecodeThread.handleAll_terminal msgs t1
            (Or.inl (by rw [← hr.1])) hmsgs
          obtain ⟨t2, h4, h5, h6⟩ := h3
          exact ⟨t2, h4, h5, by rw [h6, ← hr.1]⟩
        · rw [VideoDecodeThread.getNextFrame_false t ds s1 hterm hg he] at hr
          simp only [Option.some.injEq, Prod.mk.injEq] at hr
          obtain ⟨e, he1, -⟩ := hex
          rw [← hr.2] at he1
          simp at he1

/-- C24: the end-of-stream frame event of the video thread.  Handling a
get-next-frame message: while the state is `end_of_media` or `failed` nothing is
emitted and nothing but `msg` changes, so no packet is taken from the video
queue; otherwise, when `getNextVideoFrame` returns false with `eof` set, the
thread emits one event, the null image with pts 0 and the finished flag, sets
its state to `end_of_media` and clears `stream_finished`; an event with the
finished flag is emitted in no other case; and after it the messages that
follow, as long as none is pause or play, emit nothing and leave the state
`getNextVideoFrame` works on, the video queue included, as it is. -/
theorem video_eof_event_once (t : VideoThreadState) (msg : ThreadMessage)
    (ds : List DecodeResult)
    (hm : msg.message_ = thread_message_type.tmt_get_next_video_frame) :
    ((t.locals.current_state = decode_thread_state.dts_end_of_media ∨
        t.locals.current_state = decode_thread_state.dts_failed) →
      VideoDecodeThread.handleMessage t msg ds =
        some ({ t with locals := { t.locals with msg := msg } }, [])) ∧
    (¬ (t.locals.current_state = decode_thread_state.dts_end_of_media ∨
        t.locals.current_state = decode_thread_state.dts_failed) →
      ∀ s1 : VideoDecodeState,
        getNextVideoFrame { t.s with frame := av_frame_unref t.s.frame, eof := false } ds
          = some (false, s1) →
        s1.eof = true →
        VideoDecodeThread.handleMessage t msg ds =
          some ({ s := { s1 with stream_finished := false }
                  locals := { t.locals with
                              msg := msg
                              current_state := decode_thread_state.dts_end_of_media } },
                [{ image := QImage.null, pts := 0, eof := true }])) ∧
    (∀ (t1 : VideoThreadState) (out : List NextFrameReady),
      VideoDecodeThread.handleMessage t msg ds = some (t1, out) →
      (∃ e ∈ out, e.eof = true) →
      ¬ (t.locals.current_state = decode_thread_state.dts_end_of_media ∨
          t.locals.current_state = decode_thread_state.dts_failed) ∧
      (∃ s1 : VideoDecodeState,
        getNextVideoFrame { t.s with frame := av_frame_unref t.s.frame, eof := false } ds
          = some (false, s1) ∧ s1.eof = true) ∧
      out = [{ image := QImage.null, pts := 0, eof := true }] ∧
      t1.locals.current_state = decode_thread_state.dts_end_of_media ∧
      t1.s.stream_finished = false ∧
      ∀ msgs : List (ThreadMessage × List DecodeResult),
        (∀ m ∈ msgs, m.1.message_ ≠ thread_message_type.tmt_pause ∧
          m.1.message_ ≠ thread_message_type.tmt_play) →
        ∃ t2, VideoDecodeThread.handleAll t1 msgs = some (t2, []) ∧ t2.s = t1.s ∧
          t2.locals.current_state = decode_thread_state.dts_end_of_media) := by
  rw [VideoDecodeThread.handleMessage_get t msg ds hm]
  exact ⟨fun h => VideoDecodeThread.getNextFrame_terminal
      { t with locals := { t.locals with msg := msg } } ds h,
    fun h s1 hg he => VideoDecodeThread.getNextFrame_eof
      { t with locals := { t.locals with msg := msg } } ds s1 h hg he,
    fun t1 out hr hex => VideoDecodeThread.getNextFrame_eof_only
      { t with locals := { t.locals with msg := msg } } ds t1 out hr hex⟩

/-- Witness of C24: the null packet is in the video queue and the decoder has
no frame left: the get-next-frame message emits the end-of-stream frame and the
state becomes `end_of_media`; in that state a get-next-frame message emits
nothing. -/
theorem video_eof_event_once_witness :
    VideoDecodeThread.handleMessage
        { s := { ctx := { videoQueue_ := PacketQueue.new.push { data := DataPtr.null } } } }
        { message_ := thread_message_type.tmt_get_next_video_frame } [{}]
      = some ({ s := { frame := av_frame_unref {}, eof := true }
                locals := { current_state := decode_thread_state.dts_end_of_media
                            msg := { message_ := thread_message_type.tmt_get_next_video_frame } } },
              [{ image := QImage.null, pts := 0, eof := true }]) ∧
    VideoDecodeThread.handleMessage
        { s := { frame := av_frame_unref {}, eof := true }
          locals := { current_state := decode_thread_state.dts_end_of_media } }
        { message_ := thread_message_type.tmt_get_next_video_frame } [{}]
      = some ({ s := { frame := av_frame_unref {}, eof := true }
                locals := { current_state := decode_thread_state.dts_end_of_media
                            msg := { message_ := thread_message_type.tmt_get_next_video_frame } } },
              []) :=
  ⟨(video_eof_event_once
      { s := { ctx := { videoQueue_ := PacketQueue.new.push { data := DataPtr.null } } } }
      { message_ := thread_message_type.tmt_get_next_video_frame } [{}] rfl).2.1
      (by decide) { frame := av_frame_unref {}, stream_finished := true, eof := true }
      (by decide) rfl,
   (video_eof_event_once
      { s := { frame := av_frame_unref {}, eof := true }
        locals := { current_state := decode_thread_state.dts_end_of_media } }
      { message_ := thread_message_type.tmt_get_next_video_frame } [{}] rfl).1 (Or.inl rfl)⟩

/-! ## The flush marker is first in its queue -/

theorem MarkerFirst.nil (f : AVPacket) : MarkerFirst [] f := by
  constructor <;> intro m hm <;> simp at hm

theorem MarkerFirst.singleton (f : AVPacket) : MarkerFirst [f] f := by
  constructor
  · intro m hm; simp at hm
  · intro m hm _
    simp at hm
    exact hm.symm

theorem MarkerFirst.push {l : List AVPacket} {f : AVPacket} (h : MarkerFirst l f) (p : AVPacket)
    (hp : p.isFlush = false) : MarkerFirst (l ++ [p]) f := by
  cases l with
  | nil =>
    constructor
    · intro m hm; simp at hm
    · intro m hm hf
      simp at hm
      rw [← hm, hp] at hf
      exact absurd hf (by decide)
  | cons x xs =>
    constructor
    · intro m hm
      simp only [List.cons_append, List.tail_cons, List.mem_append, List.mem_singleton] at hm
      rcases hm with hm | hm
      · exact h.1 m (by simpa using hm)
      · rw [hm]; exact hp
    · intro m hm hf
      exact h.2 m (by simpa using hm) hf

theorem MarkerFirst.tail {l : List AVPacket} {f : AVPacket} (h : MarkerFirst l f) (g : AVPacket) :
    MarkerFirst l.tail g := by
  constructor
  · intro m hm
    exact h.1 m (List.mem_of_mem_tail hm)
  · intro m hm hf
    have hmem : m ∈ l.tail := by
      cases ht : l.tail with
      | nil => rw [ht] at hm; simp at hm
      | cons y ys =>
        rw [ht] at hm
        simp at hm
        rw [← hm]
        exact List.mem_cons_self _ _
    rw [h.1 m hmem] at hf
    exact absurd hf (by decide)

/-- What the invariant says in terms of the queue: at most one marker, a marker
held is the first packet, and it carries the `dts` and `pts` of the static
`flush_pkt`. -/
theorem MarkerFirst.spec {l : List AVPacket} {f : AVPacket} (h : MarkerFirst l f) :
    (l.filter AVPacket.isFlush).length ≤ 1 ∧
    (∀ m ∈ l, m.isFlush = true → l.head? = some m ∧ m = f) := by
  cases l with
  | nil => simp
  | cons x xs =>
    have hxs : xs.filter AVPacket.isFlush = [] := by
      rw [List.filter_eq_nil_iff]
      intro a ha
      rw [h.1 a (by simpa using ha)]
      decide
    constructor
    · rw [List.filter_cons]
      split_ifs <;> simp [hxs]
    · intro m hm hf
      rcases List.mem_cons.mp hm with hm | hm
      · subst hm
        exact ⟨rfl, h.2 m (by simp) hf⟩
      · rw [h.1 m (by simpa using hm)] at hf
        exact absurd hf (by decide)

theorem PacketQueue.get_list (q : PacketQueue) (p : AVPacket) :
    (q.get p).2.1.list_ = q.list_.tail := by
  cases hl : q.list_ with
  | nil => rw [PacketQueue.get_nil q p hl]; exact hl
  | cons front rest => rw [PacketQueue.get_cons q p front rest hl]; rfl

theorem VideoContext.pushVideoPacket_lists (ctx : VideoContext) (p : Option AVPacket) :
    ∃ x : AVPacket, (ctx.pushVideoPacket p).videoQueue_.list_ = ctx.videoQueue_.list_ ++ [x] ∧
      (ctx.pushVideoPacket p).audioQueue_ = ctx.audioQueue_ ∧
      (∀ y, p = some y → x = y) ∧ (p = none → x.data = DataPtr.null) := by
  cases p with
  | none =>
    exact ⟨_, rfl, rfl, fun y hy => by simp at hy, fun _ => rfl⟩
  | some y =>
    exact ⟨y, rfl, rfl, fun z hz => by simp at hz; exact hz, fun h => by simp at h⟩

theorem VideoContext.pushAudioPacket_lists (ctx : VideoContext) (p : Option AVPacket) :
    ∃ x : AVPacket, (ctx.pushAudioPacket p).audioQueue_.list_ = ctx.audioQueue_.list_ ++ [x] ∧
      (ctx.pushAudioPacket p).videoQueue_ = ctx.videoQueue_ ∧
      (∀ y, p = some y → x = y) ∧ (p = none → x.data = DataPtr.null) := by
  cases p with
  | none =>
    exact ⟨_, rfl, rfl, fun y hy => by simp at hy, fun _ => rfl⟩
  | some y =>
    exact ⟨y, rfl, rfl, fun z hz => by simp at hz; exact hz, fun h => by simp at h⟩

theorem QueuesState.markerFirst_start (ctx : VideoContext) (hv : ctx.videoQueue_.list_ = [])
    (ha : ctx.audioQueue_.list_ = []) :
    MarkerFirst (QueuesState.start ctx).ctx.videoQueue_.list_ (QueuesState.start ctx).flush_pkt ∧
    MarkerFirst (QueuesState.start ctx).ctx.audioQueue_.list_ (QueuesState.start ctx).flush_pkt := by
  have h1 : (QueuesState.start ctx).ctx.videoQueue_.list_ = [flush_pkt_init] := by
    show ctx.videoQueue_.list_ ++ [flush_pkt_init] = _
    rw [hv]; rfl
  have h2 : (QueuesState.start ctx).ctx.audioQueue_.list_ = [flush_pkt_init] := by
    show ctx.audioQueue_.list_ ++ [flush_pkt_init] = _
    rw [ha]; rfl
  rw [h1, h2]
  exact ⟨MarkerFirst.singleton _, MarkerFirst.singleton _⟩

theorem QueuesState.markerFirst_event (s : QueuesState) (e : QueueEvent)
    (hv : MarkerFirst s.ctx.videoQueue_.list_ s.flush_pkt)
    (ha : MarkerFirst s.ctx.audioQueue_.list_ s.flush_pkt) (he : e.pushesData) :
    MarkerFirst (s.event e).ctx.videoQueue_.list_ (s.event e).flush_pkt ∧
    MarkerFirst (s.event e).ctx.audioQueue_.list_ (s.event e).flush_pkt := by
  cases e with
  | seekFrame r tv ta =>
    show MarkerFirst (s.ctx.seekFrame s.flush_pkt r tv ta).2.1.videoQueue_.list_
        (s.ctx.seekFrame s.flush_pkt r tv ta).2.2 ∧
      MarkerFirst (s.ctx.seekFrame s.flush_pkt r tv ta).2.1.audioQueue_.list_
        (s.ctx.seekFrame s.flush_pkt r tv ta).2.2
    by_cases hr : r < 0
    · rw [VideoContext.seekFrame_fail s.ctx s.flush_pkt r tv ta hr]
      exact ⟨hv, ha⟩
    · rw [VideoContext.seekFrame_video_list s.ctx s.flush_pkt r tv ta hr,
        VideoContext.seekFrame_audio_list s.ctx s.flush_pkt r tv ta hr]
      refine ⟨MarkerFirst.singleton _, ?_⟩
      split_ifs
      · exact MarkerFirst.singleton _
      · exact MarkerFirst.nil _
  | pushVideoPacket p =>
    obtain ⟨x, h1, h2, h3, h4⟩ := VideoContext.pushVideoPacket_lists s.ctx p
    show MarkerFirst (s.ctx.pushVideoPacket p).videoQueue_.list_ s.flush_pkt ∧
      MarkerFirst (s.ctx.pushVideoPacket p).audioQueue_.list_ s.flush_pkt
    rw [h1, h2]
    refine ⟨MarkerFirst.push hv x ?_, ha⟩
    cases p with
    | none => unfold AVPacket.isFlush; rw [h4 rfl]; decide
    | some y =>
      rw [h3 y rfl]
      unfold AVPacket.isFlush
      exact decide_eq_false he
  | pushAudioPacket p =>
    obtain ⟨x, h1, h2, h3, h4⟩ := VideoContext.pushAudioPacket_lists s.ctx p
    show MarkerFirst (s.ctx.pushAudioPacket p).videoQueue_.list_ s.flush_pkt ∧
      MarkerFirst (s.ctx.pushAudioPacket p).audioQueue_.list_ s.flush_pkt
    rw [h1, h2]
    refine ⟨hv, MarkerFirst.push ha x ?_⟩
    cases p with
    | none => unfold AVPacket.isFlush; rw [h4 rfl]; decide
    | some y =>
      rw [h3 y rfl]
      unfold AVPacket.isFlush
      exact decide_eq_false he
  | getVideo =>
    show MarkerFirst (s.ctx.videoQueue_.get {}).2.1.list_ s.flush_pkt ∧
      MarkerFirst s.ctx.audioQueue_.list_ s.flush_pkt
    rw [PacketQueue.get_list]
    exact ⟨MarkerFirst.tail hv _, ha⟩
  | getAudio =>
    show MarkerFirst s.ctx.videoQueue_.list_ s.flush_pkt ∧
      MarkerFirst (s.ctx.audioQueue_.get {}).2.1.list_ s.flush_pkt
    rw [PacketQueue.get_list]
    exact ⟨hv, MarkerFirst.tail ha _⟩

theorem QueuesState.markerFirst_run (evs : List QueueEvent) (s : QueuesState)
    (hv : MarkerFirst s.ctx.videoQueue_.list_ s.flush_pkt)
    (ha : MarkerFirst s.ctx.audioQueue_.list_ s.flush_pkt) (he : ∀ e ∈ evs, e.pushesData) :
    MarkerFirst (s.run evs).ctx.videoQueue_.list_ (s.run evs).flush_pkt ∧
    MarkerFirst (s.run evs).ctx.audioQueue_.list_ (s.run evs).flush_pkt := by
  induction evs generalizing s with
  | nil => exact ⟨hv, ha⟩
  | cons e es ih =>
    have h1 := QueuesState.markerFirst_event s e hv ha (he e (List.mem_cons_self _ _))
    exact ih (s.event e) h1.1 h1.2 (fun x hx => he x (List.mem_cons_of_mem _ hx))

theorem QueuesState.event_flush_pkt (s : QueuesState) (e : QueueEvent)
    (h : e.isSeekOk = false) : (s.event e).flush_pkt = s.flush_pkt := by
  cases e with
  | seekFrame r tv ta =>
    have hr : r < 0 := by
      simp only [QueueEvent.isSeekOk, decide_eq_false_iff_not, not_not] at h
      exact h
    show (s.ctx.seekFrame s.flush_pkt r tv ta).2.2 = s.flush_pkt
    rw [VideoContext.seekFrame_fail s.ctx s.flush_pkt r tv ta hr]
  | pushVideoPacket p => rfl
  | pushAudioPacket p => rfl
  | getVideo => rfl
  | getAudio => rfl

/-- Calls other than a `seekFrame` that succeeds leave the static `flush_pkt` as
it is. -/
theorem QueuesState.run_flush_pkt (evs : List QueueEvent) (s : QueuesState)
    (h : ∀ e ∈ evs, e.isSeekOk = false) : (s.run evs).flush_pkt = s.flush_pkt := by
  induction evs generalizing s with
  | nil => rfl
  | cons e es ih =>
    show ((s.event e).run es).flush_pkt = s.flush_pkt
    rw [ih (s.event e) (fun x hx => h x (List.mem_cons_of_mem _ hx)),
      QueuesState.event_flush_pkt s e (h e (List.mem_cons_self _ _))]

/-- C30, as stated, fails: the decoder reads the target from the static
`flush_pkt` after its `get` has released the mutex of the queue, and `seekFrame`
writes the static without a lock.  A seek to video target 100 and audio target
200 queues its markers; the video thread takes the marker; a second seek, to
5000 and 6000, succeeds; the video thread then reads 5000 into its seek guard,
not the 100 of the marker it holds.  Likewise the audio thread reads 6000, not
the 200 of the marker it has taken. -/
theorem flush_marker_target_counterexample :
    ¬ (∀ (ctx0 : VideoContext) (evs mid : List QueueEvent) (s : VideoDecodeState)
        (d : DecodeResult) (m : AVPacket) (rest : List AVPacket),
        ctx0.videoQueue_.list_ = [] → ctx0.audioQueue_.list_ = [] →
        (∀ e ∈ evs, e.pushesData) → (∀ e ∈ mid, e.pushesData) →
        s.ctx = ((QueuesState.start ctx0).run evs).ctx →
        s.flush_pkt = ((QueuesState.start ctx0).run evs).flush_pkt →
        s.stream_finished = false →
        s.ctx.videoQueue_.list_ = m :: rest → m.data = DataPtr.flush_pkt →
        (getNextVideoFrame_fetch s).map
            (fun s1 => (getNextVideoFrame_decode (s1.after mid) d).2.ctx.seek_position_)
          = some m.dts) ∧
    ¬ (∀ (ctx0 : VideoContext) (evs mid : List QueueEvent) (pkt m : AVPacket)
        (rest : List AVPacket) (sf : Bool) (sp : Int),
        ctx0.videoQueue_.list_ = [] → ctx0.audioQueue_.list_ = [] →
        (∀ e ∈ evs, e.pushesData) → (∀ e ∈ mid, e.pushesData) →
        ((QueuesState.start ctx0).run evs).ctx.audioQueue_.list_ = m :: rest →
        m.data = DataPtr.flush_pkt →
        (readFrameAudio_marker
            ((((QueuesState.start ctx0).run evs).event QueueEvent.getAudio).run mid).flush_pkt
            (((QueuesState.start ctx0).run evs).ctx.audioQueue_.get pkt).2.2 sf sp).2.2
          = m.pts) := by
  refine ⟨fun h => ?_, fun h => ?_⟩
  · have h1 := h {} [QueueEvent.seekFrame 0 100 200] [QueueEvent.seekFrame 0 5000 6000]
      { ctx := ((QueuesState.start {}).run [QueueEvent.seekFrame 0 100 200]).ctx
        flush_pkt := ((QueuesState.start {}).run [QueueEvent.seekFrame 0 100 200]).flush_pkt }
      {} { flush_pkt_init with dts := 100, pts := 200 } []
      rfl rfl
      (fun e he => by simp only [List.mem_singleton] at he; subst he; exact trivial)
      (fun e he => by simp only [List.mem_singleton] at he; subst he; exact trivial)
      rfl rfl rfl (by decide) rfl
    revert h1
    decide
  · have h1 := h { audioStream_ := some { index := 1 } } [QueueEvent.seekFrame 0 100 200]
      [QueueEvent.seekFrame 0 5000 6000] {} { flush_pkt_init with dts := 100, pts := 200 } []
      false (-1) rfl rfl
      (fun e he => by simp only [List.mem_singleton] at he; subst he; exact trivial)
      (fun e he => by simp only [List.mem_singleton] at he; subst he; exact trivial)
      (by decide) rfl
    revert h1
    decide

/-- C30 (amended): the flush marker is first in its queue.  In every state
reached from `VideoContext::init` on empty queues through `seekFrame` calls,
pushes of data packets and of null packets and `get` calls of the decoders, each
packet queue holds at most one flush marker, a marker held is the first packet
of its queue, and it carries the `dts` and the `pts` of the static `flush_pkt`,
the targets the seek that queued it wrote (`startTimeVideo_ + _ts_video` and
`startTimeAudio_ + _ts_audio` as `int64_t`).  A decoder that takes a marker with
its `get` reads its target afterwards from the static `flush_pkt` (the video
thread the `dts`, the audio thread the `pts`), whatever calls of other threads
run between the `get` and the read: the target read is what the static holds at
the read, and it is the target of the marker taken when no `seekFrame` succeeds
between the `get` and the read. -/
theorem flush_marker_first_in_queue (ctx0 : VideoContext) (evs : List QueueEvent)
    (hv0 : ctx0.videoQueue_.list_ = []) (ha0 : ctx0.audioQueue_.list_ = [])
    (hd : ∀ e ∈ evs, e.pushesData) :
    (((QueuesState.start ctx0).run evs).ctx.videoQueue_.list_.filter AVPacket.isFlush).length ≤ 1 ∧
    (((QueuesState.start ctx0).run evs).ctx.audioQueue_.list_.filter AVPacket.isFlush).length ≤ 1 ∧
    (∀ m ∈ ((QueuesState.start ctx0).run evs).ctx.videoQueue_.list_, m.data = DataPtr.flush_pkt →
      ((QueuesState.start ctx0).run evs).ctx.videoQueue_.list_.head? = some m ∧
      m.dts = ((QueuesState.start ctx0).run evs).flush_pkt.dts ∧
      m.pts = ((QueuesState.start ctx0).run evs).flush_pkt.pts) ∧
    (∀ m ∈ ((QueuesState.start ctx0).run evs).ctx.audioQueue_.list_, m.data = DataPtr.flush_pkt →
      ((QueuesState.start ctx0).run evs).ctx.audioQueue_.list_.head? = some m ∧
      m.dts = ((QueuesState.start ctx0).run evs).flush_pkt.dts ∧
      m.pts = ((QueuesState.start ctx0).run evs).flush_pkt.pts) ∧
    (∀ (s : VideoDecodeState) (d : DecodeResult) (m : AVPacket) (rest : List AVPacket)
        (mid : List QueueEvent),
      s.ctx = ((QueuesState.start ctx0).run evs).ctx →
      s.flush_pkt = ((QueuesState.start ctx0).run evs).flush_pkt →
      s.stream_finished = false →
      s.ctx.videoQueue_.list_ = m :: rest → m.data = DataPtr.flush_pkt →
      ∃ s1 : VideoDecodeState, getNextVideoFrame_fetch s = some s1 ∧ s1.packet = m ∧
        (getNextVideoFrame_decode (s1.after mid) d).2.ctx.seek_position_
          = (s1.after mid).flush_pkt.dts ∧
        ((∀ e ∈ mid, e.isSeekOk = false) →
          (getNextVideoFrame_decode (s1.after mid) d).2.ctx.seek_position_ = m.dts)) ∧
    (∀ (pkt m : AVPacket) (rest : List AVPacket) (mid : List QueueEvent) (sf : Bool) (sp : Int),
      ((QueuesState.start ctx0).run evs).ctx.audioQueue_.list_ = m :: rest →
      m.data = DataPtr.flush_pkt →
      (((QueuesState.start ctx0).run evs).ctx.audioQueue_.get pkt).1 = true ∧
      (((QueuesState.start ctx0).run evs).ctx.audioQueue_.get pkt).2.2 = m ∧
      readFrameAudio_marker
          ((((QueuesState.start ctx0).run evs).event QueueEvent.getAudio).run mid).flush_pkt
          m sf sp
        = (true, sf,
           ((((QueuesState.start ctx0).run evs).event QueueEvent.getAudio).run mid).flush_pkt.pts) ∧
      ((∀ e ∈ mid, e.isSeekOk = false) →
        readFrameAudio_marker
            ((((QueuesState.start ctx0).run evs).event QueueEvent.getAudio).run mid).flush_pkt
            m sf sp
          = (true, sf, m.pts))) ∧
    (∀ r tv ta : Int, ¬ r < 0 →
      (((QueuesState.start ctx0).run evs).event (QueueEvent.seekFrame r tv ta)).ctx.videoQueue_.list_
        = [{ ((QueuesState.start ctx0).run evs).flush_pkt with
             dts := wrap64 (((QueuesState.start ctx0).run evs).ctx.startTimeVideo_ + tv)
             pts := wrap64 (((QueuesState.start ctx0).run evs).ctx.startTimeAudio_ + ta) }] ∧
      (((QueuesState.start ctx0).run evs).event (QueueEvent.seekFrame r tv ta)).flush_pkt
        = { ((QueuesState.start ctx0).run evs).flush_pkt with
            dts := wrap64 (((QueuesState.start ctx0).run evs).ctx.startTimeVideo_ + tv)
            pts := wrap64 (((QueuesState.start ctx0).run evs).ctx.startTimeAudio_ + ta) }) := by
  obtain ⟨h1, h2⟩ := QueuesState.markerFirst_start ctx0 hv0 ha0
  obtain ⟨hv, ha⟩ := QueuesState.markerFirst_run evs _ h1 h2 hd
  have hfl : ∀ m : AVPacket, m.data = DataPtr.flush_pkt → m.isFlush = true :=
    fun m hm => by unfold AVPacket.isFlush; exact decide_eq_true hm
  have hne : DataPtr.flush_pkt ≠ DataPtr.null := by decide
  refine ⟨hv.spec.1, ha.spec.1, ?_, ?_, ?_, ?_, ?_⟩
  · intro m hm hf
    obtain ⟨h3, h4⟩ := hv.spec.2 m hm (hfl m hf)
    exact ⟨h3, by rw [h4], by rw [h4]⟩
  · intro m hm hf
    obtain ⟨h3, h4⟩ := ha.spec.2 m hm (hfl m hf)
    exact ⟨h3, by rw [h4], by rw [h4]⟩
  · intro s d m rest mid hc hf hsf hl hm
    obtain ⟨s1, h3, h4, h5, _, _, _⟩ := getNextVideoFrame_fetch_marker s m rest hsf hl
    have hp : (s1.after mid).packet.data = DataPtr.flush_pkt := by
      show s1.packet.data = _
      rw [h4]; exact hm
    have hdec := getNextVideoFrame_decode_marker (s1.after mid) d hp
    refine ⟨s1, h3, h4, by rw [hdec], fun hmid => ?_⟩
    rw [hdec]
    show (QueuesState.run { ctx := s1.ctx, flush_pkt := s1.flush_pkt } mid).flush_pkt.dts = m.dts
    rw [QueuesState.run_flush_pkt mid _ hmid]
    show s1.flush_pkt.dts = m.dts
    have hmem : m ∈ ((QueuesState.start ctx0).run evs).ctx.videoQueue_.list_ := by
      rw [← hc, hl]; exact List.mem_cons_self _ _
    rw [h5, hf, (hv.spec.2 m hmem (hfl m hm)).2]
  · intro pkt m rest mid sf sp hl hm
    have hmem : m ∈ ((QueuesState.start ctx0).run evs).ctx.audioQueue_.list_ := by
      rw [hl]; exact List.mem_cons_self _ _
    have hmark : ∀ fp : AVPacket, readFrameAudio_marker fp m sf sp = (true, sf, fp.pts) := by
      intro fp
      unfold readFrameAudio_marker
      rw [hm, if_neg hne, if_pos rfl]
    refine ⟨?_, ?_, hmark _, fun hmid => ?_⟩
    · rw [PacketQueue.get_cons _ _ m rest hl]
    · rw [PacketQueue.get_cons _ _ m rest hl]
    · rw [hmark, QueuesState.run_flush_pkt mid _ hmid]
      show (true, sf, ((QueuesState.start ctx0).run evs).flush_pkt.pts) = _
      rw [(ha.spec.2 m hmem (hfl m hm)).2]
  · intro r tv ta hr
    constructor
    · show (((QueuesState.start ctx0).run evs).ctx.seekFrame
        ((QueuesState.start ctx0).run evs).flush_pkt r tv ta).2.1.videoQueue_.list_ = _
      rw [VideoContext.seekFrame_video_list _ _ r tv ta hr,
        VideoContext.seekFrame_ok _ _ r tv ta hr]
    · show (((QueuesState.start ctx0).run evs).ctx.seekFrame
        ((QueuesState.start ctx0).run evs).flush_pkt r tv ta).2.2 = _
      rw [VideoContext.seekFrame_ok _ _ r tv ta hr]

/-- Witness of C30 (amended): a file with an audio stream; a packet is queued
behind the marker of `init`, a seek to video tick 100 and audio tick 200
succeeds, two packets and the null packet follow, a failed seek and a `get` of
the audio thread: the marker of the seek is first in the video queue and the
static `flush_pkt` holds its targets.  The video thread then takes the marker,
the demux thread queues a packet and a seek fails, and the video thread reads
the target 100 of the marker it holds. -/
theorem flush_marker_first_in_queue_witness :
    ((QueuesState.start { audioStream_ := some { index := 1 } }).run
        [QueueEvent.pushVideoPacket (some { data := DataPtr.buffer 1, size := 10 }),
         QueueEvent.seekFrame 0 100 200,
         QueueEvent.pushVideoPacket (some { data := DataPtr.buffer 2, size := 20 }),
         QueueEvent.pushAudioPacket (some { data := DataPtr.buffer 3, size := 30 }),
         QueueEvent.pushVideoPacket none,
         QueueEvent.seekFrame (-1) 7 8,
         QueueEvent.getAudio]).ctx.videoQueue_.list_.head?
      = some { flush_pkt_init with dts := 100, pts := 200 } ∧
    ((QueuesState.start { audioStream_ := some { index := 1 } }).run
        [QueueEvent.pushVideoPacket (some { data := DataPtr.buffer 1, size := 10 }),
         QueueEvent.seekFrame 0 100 200,
         QueueEvent.pushVideoPacket (some { data := DataPtr.buffer 2, size := 20 }),
         QueueEvent.pushAudioPacket (some { data := DataPtr.buffer 3, size := 30 }),
         QueueEvent.pushVideoPacket none,
         QueueEvent.seekFrame (-1) 7 8,
         QueueEvent.getAudio]).flush_pkt.dts = 100 ∧
    (∃ s1 : VideoDecodeState,
      getNextVideoFrame_fetch
          { ctx := ((QueuesState.start {}).run [QueueEvent.seekFrame 0 100 200]).ctx
            flush_pkt := ((QueuesState.start {}).run [QueueEvent.seekFrame 0 100 200]).flush_pkt }
        = some s1 ∧
      (getNextVideoFrame_decode
          (s1.after [QueueEvent.pushVideoPacket (some { data := DataPtr.buffer 2, size := 20 }),
                     QueueEvent.seekFrame (-1) 7 8]) {}).2.ctx.seek_position_ = 100) :=
  ⟨((flush_marker_first_in_queue { audioStream_ := some { index := 1 } }
        [QueueEvent.pushVideoPacket (some { data := DataPtr.buffer 1, size := 10 }),
         QueueEvent.seekFrame 0 100 200,
         QueueEvent.pushVideoPacket (some { data := DataPtr.buffer 2, size := 20 }),
         QueueEvent.pushAudioPacket (some { data := DataPtr.buffer 3, size := 30 }),
         QueueEvent.pushVideoPacket none,
         QueueEvent.seekFrame (-1) 7 8,
         QueueEvent.getAudio] rfl rfl
        (by
          intro e he
          simp only [List.mem_cons, List.mem_singleton, List.not_mem_nil, or_false] at he
          rcases he with rfl | rfl | rfl | rfl | rfl | rfl | rfl <;>
            first
              | exact trivial
              | (show (_ : DataPtr) ≠ DataPtr.flush_pkt; decide))).2.2.1
      { flush_pkt_init with dts := 100, pts := 200 } (by decide) rfl).1,
   rfl,
   (((flush_marker_first_in_queue {} [QueueEvent.seekFrame 0 100 200] rfl rfl
        (fun e he => by simp only [List.mem_singleton] at he; subst he; exact trivial)).2.2.2.2.1
      { ctx := ((QueuesState.start {}).run [QueueEvent.seekFrame 0 100 200]).ctx
        flush_pkt := ((QueuesState.start {}).run [QueueEvent.seekFrame 0 100 200]).flush_pkt }
      {} { flush_pkt_init with dts := 100, pts := 200 } []
      [QueueEvent.pushVideoPacket (some { data := DataPtr.buffer 2, size := 20 }),
       QueueEvent.seekFrame (-1) 7 8] rfl rfl rfl (by decide) rfl).imp
    (fun s1 h => ⟨h.1, h.2.2.2 (by decide)⟩))⟩

/-! ## initDecodeAudioData: direct copy or resampler -/

theorem VideoContext.initDecodeAudioData_native_layout (d : AudioData) (a : AVStream) :
    (VideoContext.initDecodeAudioData_native d a).freq_ = a.codec_sample_rate ∧
    (VideoContext.initDecodeAudioData_native d a).layout_ = a.audioLayout := by
  unfold VideoContext.initDecodeAudioData_native AVStream.audioLayout
  dsimp only
  constructor <;> split_ifs <;> first | rfl | (split <;> rfl)

/-- The sample size lines 568-618 leave, as a function of the rate, the layout
and the sample format. -/
theorem VideoContext.initDecodeAudioData_native_sampleSize (d : AudioData) (a : AVStream) :
    (VideoContext.initDecodeAudioData_native d a).sampleSize_ =
      if a.codec_sample_rate ≠ 44100 ∧ a.codec_sample_rate ≠ 48000 then -1
      else if a.audioLayout = AV_CH_LAYOUT_MONO then
        (if a.codec_sample_fmt = AVSampleFormat.AV_SAMPLE_FMT_U8 ∨
            a.codec_sample_fmt = AVSampleFormat.AV_SAMPLE_FMT_U8P then 1
         else if a.codec_sample_fmt = AVSampleFormat.AV_SAMPLE_FMT_S16 ∨
            a.codec_sample_fmt = AVSampleFormat.AV_SAMPLE_FMT_S16P then 2
         else -1)
      else if a.audioLayout = AV_CH_LAYOUT_STEREO then
        (if a.codec_sample_fmt = AVSampleFormat.AV_SAMPLE_FMT_U8 then 2
         else if a.codec_sample_fmt = AVSampleFormat.AV_SAMPLE_FMT_S16 then 4
         else -1)
      else -1 := by
  have hL : (if a.codec_channel_layout = 0 ∧ a.codec_channels > 0 then
        if a.codec_channels = 1 then
          ({ d with layout_ := AV_CH_LAYOUT_MONO, channels_ := a.codec_channels,
                    freq_ := a.codec_sample_rate } : AudioData)
        else { d with layout_ := AV_CH_LAYOUT_STEREO, channels_ := a.codec_channels,
                      freq_ := a.codec_sample_rate }
      else { d with layout_ := a.codec_channel_layout, channels_ := a.codec_channels,
                    freq_ := a.codec_sample_rate }) =
      { d with layout_ := a.audioLayout, channels_ := a.codec_channels,
               freq_ := a.codec_sample_rate } := by
    unfold AVStream.audioLayout
    split_ifs <;> rfl
  unfold VideoContext.initDecodeAudioData_native
  dsimp only
  rw [hL]
  dsimp only
  by_cases hr : a.codec_sample_rate ≠ 44100 ∧ a.codec_sample_rate ≠ 48000
  · rw [if_pos hr]
    have : ∀ x : AudioData, x.freq_ = a.codec_sample_rate →
        (if x.freq_ ≠ 44100 ∧ x.freq_ ≠ 48000 then { x with sampleSize_ := -1 } else x).sampleSize_
          = -1 := by
      intro x hx
      rw [hx, if_pos hr]
    apply this
    split_ifs <;> first | rfl | (split <;> rfl)
  · rw [if_neg hr]
    have : ∀ x : AudioData, x.freq_ = a.codec_sample_rate →
        (if x.freq_ ≠ 44100 ∧ x.freq_ ≠ 48000 then { x with sampleSize_ := -1 } else x).sampleSize_
          = x.sampleSize_ := by
      intro x hx
      rw [hx, if_neg hr]
    rw [this _ (by split_ifs <;> first | rfl | (split <;> rfl))]
    by_cases hm : a.audioLayout = AV_CH_LAYOUT_MONO
    · rw [if_pos hm, if_pos hm]
      rcases hf : a.codec_sample_fmt <;> simp
    · rw [if_neg hm, if_neg hm]
      by_cases hs : a.audioLayout = AV_CH_LAYOUT_STEREO
      · rw [if_pos hs, if_pos hs]
        rcases hf : a.codec_sample_fmt <;> simp
      · rw [if_neg hs, if_neg hs]

theorem VideoContext.initDecodeAudioData_native_size (d : AudioData) (a : AVStream) :
    (VideoContext.initDecodeAudioData_native d a).sampleSize_ < 0 ↔ ¬ a.directCopy := by
  rw [VideoContext.initDecodeAudioData_native_sampleSize]
  unfold AVStream.directCopy
  have hms : AV_CH_LAYOUT_MONO ≠ AV_CH_LAYOUT_STEREO := by decide
  by_cases hr : a.codec_sample_rate ≠ 44100 ∧ a.codec_sample_rate ≠ 48000
  · rw [if_pos hr]
    have : ¬ (a.codec_sample_rate = 44100 ∨ a.codec_sample_rate = 48000) := by
      rintro (h | h)
      · exact hr.1 h
      · exact hr.2 h
    simp [this]
  · rw [if_neg hr]
    have hr2 : a.codec_sample_rate = 44100 ∨ a.codec_sample_rate = 48000 := by
      by_contra hn
      exact hr ⟨fun h => hn (Or.inl h), fun h => hn (Or.inr h)⟩
    by_cases hm : a.audioLayout = AV_CH_LAYOUT_MONO
    · have hs : ¬ a.audioLayout = AV_CH_LAYOUT_STEREO := by rw [hm]; exact hms
      rw [if_pos hm]
      rcases hf : a.codec_sample_fmt <;> simp [hr2, hm, hs]
    · rw [if_neg hm]
      by_cases hs : a.audioLayout = AV_CH_LAYOUT_STEREO
      · rw [if_pos hs]
        have hsm : ¬ AV_CH_LAYOUT_STEREO = AV_CH_LAYOUT_MONO := fun h => hms h.symm
        rcases hf : a.codec_sample_fmt <;> simp [hr2, hs, hsm]
      · rw [if_neg hs]
        simp [hm, hs]

theorem VideoContext.initDecodeAudioData_direct (ctx : VideoContext) (audio : AudioConstants)
    (i : AudioInitInput) (a : AVStream) (ha : ctx.audioStream_ = some a)
    (hd : ¬ (VideoContext.initDecodeAudioData_native ctx.audioData_ a).sampleSize_ < 0) :
    ctx.initDecodeAudioData audio i =
      (true, { ctx with audioData_ := VideoContext.initDecodeAudioData_native ctx.audioData_ a },
       [AudioInitCall.alGenBuffers audio.num_buffers, AudioInitCall.alGenSources]) := by
  unfold VideoContext.initDecodeAudioData
  rw [ha]
  dsimp only
  rw [if_neg hd]

theorem VideoContext.initDecodeAudioData_resample (ctx : VideoContext) (audio : AudioConstants)
    (i : AudioInitInput) (a : AVStream) (ha : ctx.audioStream_ = some a)
    (hd : (VideoContext.initDecodeAudioData_native ctx.audioData_ a).sampleSize_ < 0) :
    (ctx.initDecodeAudioData audio i).2.2.take 3 =
      [AudioInitCall.alGenBuffers audio.num_buffers, AudioInitCall.alGenSources,
       AudioInitCall.swr_alloc] ∧
    (i.swr_alloc = false → (ctx.initDecodeAudioData audio i).1 = false) ∧
    (i.swr_alloc = true →
      AudioInitCall.av_opt_set a.audioLayout a.codec_sample_rate a.codec_sample_fmt
          audio.outChannelLayout
          (if a.codec_sample_rate ≠ 44100 ∧ a.codec_sample_rate ≠ 48000 then audio.outFrequency
           else a.codec_sample_rate)
          audio.outFormat ∈ (ctx.initDecodeAudioData audio i).2.2 ∧
      (ctx.initDecodeAudioData audio i).2.1.audioData_.swrContext_ = true ∧
      (i.swr_init < 0 → (ctx.initDecodeAudioData audio i).1 = false) ∧
      (¬ i.swr_init < 0 →
        ((ctx.initDecodeAudioData audio i).1 =
            decide (¬ i.av_samples_alloc_array_and_samples < 0)) ∧
        (ctx.initDecodeAudioData audio i).2.1.audioData_.fmt_ = ALFormat.AL_FORMAT_STEREO16 ∧
        (ctx.initDecodeAudioData audio i).2.1.audioData_.sampleSize_ =
          wrap32 (audio.outChannels * 2) ∧
        (ctx.initDecodeAudioData audio i).2.1.audioData_.freq_ =
          (if a.codec_sample_rate ≠ 44100 ∧ a.codec_sample_rate ≠ 48000 then audio.outFrequency
           else a.codec_sample_rate))) := by
  obtain ⟨hfreq, hlay⟩ := VideoContext.initDecodeAudioData_native_layout ctx.audioData_ a
  unfold VideoContext.initDecodeAudioData
  rw [ha]
  dsimp only
  rw [if_pos hd, hfreq, hlay]
  cases hsa : i.swr_alloc with
  | false =>
    simp
  | true =>
    simp only [Bool.not_true, Bool.false_eq_true, if_false]
    by_cases hsi : i.swr_init < 0
    · rw [if_pos hsi]
      simp [hsi]
    · rw [if_neg hsi]
      by_cases hal : i.av_samples_alloc_array_and_samples < 0
      · rw [if_pos hal]
        simp [hsi, hal]
      · rw [if_neg hal]
        simp [hsi, hal]

/-- A tick of the timer on a player that is quitting or not in the state
`playing` emits no `mediaFinished` and changes neither the state nor the queue
of decoded frames. -/
theorem FFMpegPlayer.onTimer_idle (p : FFMpegPlayer) (a b : Int)
    (h : p.ctx.isQuit = true ∨ p.state_ ≠ decode_thread_state.dts_playing) :
    PlayerSignal.mediaFinished ∉ (p.onTimer a b).2 ∧ (p.onTimer a b).1.state_ = p.state_ ∧
    (p.onTimer a b).1.decodedFrames_ = p.decodedFrames_ := by
  unfold FFMpegPlayer.onTimer
  dsimp only
  by_cases hq : p.ctx.isQuit = true
  · have hq1 : (if p.isFirstFrame_ = true then
          ({ p with isFirstFrame_ := false, ctx := p.ctx.resetFrameTimer a } : FFMpegPlayer)
        else p).ctx.isQuit = true := by
      split_ifs
      · exact hq
      · exact hq
    rw [if_pos hq1]
    refine ⟨by simp, ?_, ?_⟩ <;> split_ifs <;> rfl
  · have hs : p.state_ ≠ decode_thread_state.dts_playing := h.resolve_left hq
    have hq1 : ¬ (if p.isFirstFrame_ = true then
          ({ p with isFirstFrame_ := false, ctx := p.ctx.resetFrameTimer a } : FFMpegPlayer)
        else p).ctx.isQuit = true := by
      split_ifs
      · exact hq
      · exact hq
    have hs1 : (if p.isFirstFrame_ = true then
          ({ p with isFirstFrame_ := false, ctx := p.ctx.resetFrameTimer a } : FFMpegPlayer)
        else p).state_ ≠ decode_thread_state.dts_playing := by
      split_ifs
      · exact hs
      · exact hs
    rw [if_neg hq1, if_pos hs1]
    refine ⟨by simp, ?_, ?_⟩ <;> split_ifs <;> rfl

/-- A tick of the timer on a player in the state `playing` that is not
quitting, by the head of the queue of decoded frames. -/
theorem FFMpegPlayer.onTimer_playing (p : FFMpegPlayer) (a b : Int)
    (hq : p.ctx.isQuit = false) (hs : p.state_ = decode_thread_state.dts_playing) :
    (p.decodedFrames_ = [] → PlayerSignal.mediaFinished ∉ (p.onTimer a b).2) ∧
    (∀ f rest, p.decodedFrames_ = f :: rest → f.eof_ = false →
      PlayerSignal.mediaFinished ∉ (p.onTimer a b).2) ∧
    (∀ f rest, p.decodedFrames_ = f :: rest → f.eof_ = true →
      (p.onTimer a b).2 =
        [PlayerSignal.positionChanged p.ctx.getDuration, PlayerSignal.timer_stop,
         PlayerSignal.mediaFinished] ++
        (match p.firstFrame_ with
         | some x => [PlayerSignal.renderer_updateFrame x.image_]
         | none => []) ++ [PlayerSignal.renderer_redraw] ∧
      (p.onTimer a b).1.state_ = decode_thread_state.dts_end_of_media ∧
      (p.onTimer a b).1.decodedFrames_ = rest) := by
  unfold FFMpegPlayer.onTimer
  dsimp only
  by_cases hf : p.isFirstFrame_ = true
  · rw [if_pos hf]
    dsimp only
    have hq1 : ¬ (p.ctx.resetFrameTimer a).isQuit = true := by
      show ¬ p.ctx.isQuit = true
      rw [hq]; decide
    rw [if_neg hq1, if_neg (not_not.mpr hs)]
    refine ⟨fun h => ?_, fun f rest h he => ?_, fun f rest h he => ?_⟩
    · rw [h]; simp
    · rw [h]; simp [he, FFMpegPlayer.updateVideoPosition]
    · rw [h]
      simp only [he, if_true, FFMpegPlayer.updateVideoPosition]
      refine ⟨?_, trivial, trivial⟩
      cases p.firstFrame_ <;> rfl
  · rw [if_neg hf]
    have hq1 : ¬ p.ctx.isQuit = true := by rw [hq]; decide
    rw [if_neg hq1, if_neg (not_not.mpr hs)]
    refine ⟨fun h => ?_, fun f rest h he => ?_, fun f rest h he => ?_⟩
    · rw [h]; simp
    · rw [h]; simp [he, FFMpegPlayer.updateVideoPosition]
    · rw [h]
      simp only [he, if_true, FFMpegPlayer.updateVideoPosition]
      refine ⟨?_, trivial, trivial⟩
      cases p.firstFrame_ <;> rfl

/-- A call other than `play` on a player that is not in the state `playing`
emits no `mediaFinished` and leaves the state as it is. -/
theorem FFMpegPlayer.call_not_playing (p : FFMpegPlayer) (c : PlayerCall)
    (hs : p.state_ ≠ decode_thread_state.dts_playing) (hc : c.isPlay = false) :
    PlayerSignal.mediaFinished ∉ (p.call c).2 ∧ (p.call c).1.state_ = p.state_ := by
  cases c with
  | onTimer a b =>
    have h := FFMpegPlayer.onTimer_idle p a b (Or.inr hs)
    exact ⟨h.1, h.2.1⟩
  | play a b => simp [PlayerCall.isPlay] at hc
  | pause cp =>
    refine ⟨by simp [FFMpegPlayer.call], ?_⟩
    show (p.pause cp).state_ = p.state_
    unfold FFMpegPlayer.pause
    rw [if_neg (fun h => hs h.1)]
  | setPosition x t => exact ⟨by simp [FFMpegPlayer.call], rfl⟩
  | nextframeReady i t e =>
    refine ⟨by simp [FFMpegPlayer.call], ?_⟩
    show (p.nextframeReady i t e).state_ = p.state_
    unfold FFMpegPlayer.nextframeReady
    split_ifs <;> rfl
  | dataReady => exact ⟨by simp [FFMpegPlayer.call], rfl⟩
  | setQuit => exact ⟨by simp [FFMpegPlayer.call], rfl⟩

theorem FFMpegPlayer.run_not_playing (cs : List PlayerCall) (p : FFMpegPlayer)
    (hs : p.state_ ≠ decode_thread_state.dts_playing) (hc : ∀ c ∈ cs, c.isPlay = false) :
    PlayerSignal.mediaFinished ∉ (p.run cs).2 ∧ (p.run cs).1.state_ = p.state_ := by
  induction cs generalizing p with
  | nil => exact ⟨by simp [FFMpegPlayer.run], rfl⟩
  | cons c cs ih =>
    have h1 := FFMpegPlayer.call_not_playing p c hs (hc c (List.mem_cons_self _ _))
    have h2 := ih (p.call c).1 (by rw [h1.2]; exact hs)
      (fun x hx => hc x (List.mem_cons_of_mem _ hx))
    unfold FFMpegPlayer.run
    refine ⟨?_, by rw [h2.2, h1.2]⟩
    intro hm
    rcases List.mem_append.mp hm with hm | hm
    · exact h1.1 hm
    · exact h2.1 hm

/-- Counterexample to C27: after `play`, the end-of-stream frame arrives from
the video thread and the user pauses before the next tick.  The end-of-stream
frame is at the head of the queue of decoded frames, and the tick emits nothing;
it does so again after the next `play`.  With the quit flag set the tick only
stops the timer. -/
theorem onTimer_mediaFinished_counterexample :
    (({} : FFMpegPlayer).run
        [PlayerCall.play 0 0, PlayerCall.nextframeReady QImage.null 0 true,
         PlayerCall.pause true]).1.decodedFrames_ = [{ eof_ := true }] ∧
    ((({} : FFMpegPlayer).run
        [PlayerCall.play 0 0, PlayerCall.nextframeReady QImage.null 0 true,
         PlayerCall.pause true]).1.onTimer 0 0).2 = [] ∧
    (({} : FFMpegPlayer).run
        [PlayerCall.play 0 0, PlayerCall.nextframeReady QImage.null 0 true,
         PlayerCall.pause true, PlayerCall.onTimer 0 0, PlayerCall.play 0 0,
         PlayerCall.onTimer 0 0]).2.count PlayerSignal.mediaFinished = 1 ∧
    ((({} : FFMpegPlayer).run
        [PlayerCall.play 0 0, PlayerCall.nextframeReady QImage.null 0 true,
         PlayerCall.setQuit]).1.onTimer 0 0).2 = [PlayerSignal.timer_stop] := by
  decide

/-- C27 (amended): `onTimer` emits `mediaFinished` exactly when the quit flag is
clear, the state of the player is `playing` and the frame at the head of the
queue of decoded frames is the end-of-stream frame.  That tick emits it once,
stops the timer, takes the frame off the queue and sets the state of the player
to `end_of_media`; and whatever calls follow (ticks, `pause`, `setPosition`,
frames arriving, `stop`), no `mediaFinished` is emitted and the state stays
`end_of_media` until `play` is called again. -/
theorem onTimer_mediaFinished_once (p : FFMpegPlayer) (a b : Int) :
    (PlayerSignal.mediaFinished ∈ (p.onTimer a b).2 ↔
      p.ctx.isQuit = false ∧ p.state_ = decode_thread_state.dts_playing ∧
      ∃ f rest, p.decodedFrames_ = f :: rest ∧ f.eof_ = true) ∧
    (PlayerSignal.mediaFinished ∈ (p.onTimer a b).2 →
      (p.onTimer a b).2.count PlayerSignal.mediaFinished = 1 ∧
      PlayerSignal.timer_stop ∈ (p.onTimer a b).2 ∧
      (p.onTimer a b).1.state_ = decode_thread_state.dts_end_of_media ∧
      (p.onTimer a b).1.decodedFrames_ = p.decodedFrames_.tail ∧
      ∀ cs : List PlayerCall, (∀ c ∈ cs, c.isPlay = false) →
        PlayerSignal.mediaFinished ∉ ((p.onTimer a b).1.run cs).2 ∧
        ((p.onTimer a b).1.run cs).1.state_ = decode_thread_state.dts_end_of_media) := by
  have hiff : PlayerSignal.mediaFinished ∈ (p.onTimer a b).2 ↔
      p.ctx.isQuit = false ∧ p.state_ = decode_thread_state.dts_playing ∧
      ∃ f rest, p.decodedFrames_ = f :: rest ∧ f.eof_ = true := by
    constructor
    · intro hm
      by_cases hq : p.ctx.isQuit = true
      · exact absurd hm (FFMpegPlayer.onTimer_idle p a b (Or.inl hq)).1
      · by_cases hs : p.state_ = decode_thread_state.dts_playing
        · have hq0 : p.ctx.isQuit = false := by simpa using hq
          obtain ⟨h1, h2, -⟩ := FFMpegPlayer.onTimer_playing p a b hq0 hs
          cases hl : p.decodedFrames_ with
          | nil => exact absurd hm (h1 hl)
          | cons f rest =>
            cases he : f.eof_ with
            | false => exact absurd hm (h2 f rest hl he)
            | true => exact ⟨hq0, hs, f, rest, rfl, he⟩
        · exact absurd hm (FFMpegPlayer.onTimer_idle p a b (Or.inr hs)).1
    · rintro ⟨hq, hs, f, rest, hl, he⟩
      rw [((FFMpegPlayer.onTimer_playing p a b hq hs).2.2 f rest hl he).1]
      simp
  refine ⟨hiff, fun hm => ?_⟩
  obtain ⟨hq, hs, f, rest, hl, he⟩ := hiff.mp hm
  obtain ⟨h1, h2, h3⟩ := (FFMpegPlayer.onTimer_playing p a b hq hs).2.2 f rest hl he
  refine ⟨?_, ?_, h2, by rw [h3, hl]; rfl, fun cs hcs => ?_⟩
  · rw [h1]
    cases p.firstFrame_ <;> simp [List.count_cons]
  · rw [h1]; simp
  · have h4 := FFMpegPlayer.run_not_playing cs (p.onTimer a b).1 (by rw [h2]; decide) hcs
    exact ⟨h4.1, by rw [h4.2, h2]⟩

/-! ## Rounding to `double` -/

/-- The rounding on values whose `double` is known: integers and dyadic
fractions are kept, `0.1` is `3602879701896397 * 2^-55`, `1/3` is
`6004799503160661 * 2^-54`, a tie goes to the even significand
(`2^53 + 1` to `2^53`, `2^53 + 3` to `2^53 + 4`), and `(1.0 / 49.0) * 49.0` is
`1 - 2^-53`. -/
theorem toDouble_examples :
    toDouble 480 = 480 ∧ toDouble (-854) = -854 ∧ toDouble (9 / 16) = 9 / 16 ∧
    toDouble (1 / 10) = 3602879701896397 / 36028797018963968 ∧
    toDouble (1 / 3) = 6004799503160661 / 18014398509481984 ∧
    toDouble 9007199254740993 = 9007199254740992 ∧
    toDouble 9007199254740995 = 9007199254740996 ∧
    toDouble (toDouble (1 / 49) * 49) = 1 - 1 / 2 ^ 53 := by
  decide!

/-! ## The scaled size -/

/-- The width `updateScaleContext` stores never exceeds the requested width,
whatever the rounding. -/
theorem VideoContext.updateScaleContext_size_width_le (ctx : VideoContext)
    (_width _height : Int) : (ctx.updateScaleContext_size _width _height).width ≤ _width := by
  unfold VideoContext.updateScaleContext_size
  dsimp only
  split_ifs with h
  · exact le_refl _
  · exact not_lt.mp h

/-- C25 fails for a source of 480 x 854 pixels.  The size is within the bound,
so the thread asks for 480 x 854; `(480.0 / 854.0) * 854.0` is
`480 - 2^-44` in `double` (479.99999999999994), which `(int32_t)` truncates to
479; the scaled size is 479 x 854, within the bound, and
`|479 * 854 - 854 * 480| = 854 = max(480, 854)`: the aspect ratio is not kept up
to integer truncation. -/
theorem scaledSize_480x854 :
    VideoDecodeThread.requestedSize { width_ := 480, height_ := 854 }
      = { width := 480, height := 854 } ∧
    toDouble (toDouble (480 / 854) * 854) = 480 - 1 / 2 ^ 44 ∧
    VideoDecodeThread.scaledSize { width_ := 480, height_ := 854 }
      = { width := 479, height := 854 } ∧
    FitsBound (VideoDecodeThread.requestedSize { width_ := 480, height_ := 854 })
      (VideoDecodeThread.scaledSize { width_ := 480, height_ := 854 }) ∧
    ¬ KeepsAspect { width_ := 480, height_ := 854 }
      (VideoDecodeThread.scaledSize { width_ := 480, height_ := 854 }) := by
  decide!

end Ui
